import Mathlib

/-!
# etcdops: cluster admission policy and the four reconcilers

A shallow embedding of `api/v1alpha1` (the Cluster, Member, BackupSchedule and
Backup resources and the Cluster validating webhook) and of the controllers:
`cluster_controller.go`, `member_controller.go`, `backupschedule_controller.go`
and `backup_controller.go`.

Conventions of the embedding

* Go `string` is `String`; `MemberPhase` and `ClusterPhase` are string types in
  the source and stay strings here, so every phase value the API server can
  hold is representable, not only the five named constants.
* Go `int` is `Int`.  The only arithmetic the embedded code does on it is
  counting members up to `Spec.Size` and doubling such a count.
* Go `error` is `Option String` (`none` is `nil`, `some msg` an error with that
  message).
* `time.Time` and `metav1.Time` are `Int` nanoseconds counted from the zero
  `time.Time`, `time.Duration` is `Int` nanoseconds; `Time.Sub` saturates as in
  Go.  Every call of `time.Now()` or `metav1.Now()` is a parameter of its own.
* A `*api.Member` that may be `nil` is an `Option Member`; reading a field or
  calling a value-receiver method through `nil` is the outcome `panic`.
* The API client is a record of the calls the reconciler makes on it; the
  `r.Update` calls a function issues are returned in order as its `updates`.
  Each reconciler has such a record; a reconcile returns the steps it ran and
  the calls it issued next to its two return values.
-/

namespace Etcdops

/-! ## api/v1alpha1 : data model -/

abbrev Time := Int

abbrev Duration := Int

abbrev error := Option String

/-- A `metav1.OwnerReference`, without its API version. -/
structure OwnerReference where
  Kind : String := ""
  Name : String := ""
  UID : String := ""
  Controller : Bool := false
  BlockOwnerDeletion : Bool := false
deriving DecidableEq, Repr

/-- The part of `metav1.ObjectMeta` the operator reads or writes. -/
structure ObjectMeta where
  Name : String := ""
  Namespace : String := ""
  UID : String := ""
  Labels : List (String × String) := []
  Finalizers : List String := []
  OwnerReferences : List OwnerReference := []
  DeletionTimestamp : Option Time := none
  CreationTimestamp : Time := 0
deriving DecidableEq, Repr

/-- Constant `metav1.FinalizerDeleteDependents` of k8s.io/apimachinery. -/
def FinalizerDeleteDependents : String := "foregroundDeletion"

def ClusterLabel : String := "cluster.operator.etcd.io"

def CleanupSecretFinalizer : String := "cleanup-secret.operator.etcd.io"

abbrev ClusterPhase := String

def ClusterCreating : ClusterPhase := "Creating"
def ClusterRunning : ClusterPhase := "Running"
def ClusterUpdating : ClusterPhase := "Updating"
def ClusterMinorFailure : ClusterPhase := "MinorFailure"
def ClusterFailed : ClusterPhase := "Failed"

/-- The desired state of an etcd cluster, `ClusterSpec`. -/
structure ClusterSpec where
  Version : String := ""
  Size : Int := 0
  Backup : String := ""
  BackupCreationPeriod : Duration := 0
  BackupRetentionPeriod : Duration := 0
deriving DecidableEq, Repr

/-- The observed state of an etcd cluster, `ClusterStatus`. -/
structure ClusterStatus where
  Phase : ClusterPhase := ""
  Version : String := ""
  CertificateExpires : Bool := false
deriving DecidableEq, Repr

structure Cluster where
  Meta : ObjectMeta := {}
  Spec : ClusterSpec := {}
  Status : ClusterStatus := {}
deriving DecidableEq, Repr

abbrev MemberPhase := String

def MemberCreating : MemberPhase := "Creating"
def MemberRecreating : MemberPhase := "Recreating"
def MemberRunning : MemberPhase := "Running"
def MemberUpdating : MemberPhase := "Updating"
def MemberFailed : MemberPhase := "Failed"

/-- The desired state of a cluster member, `MemberSpec`. -/
structure MemberSpec where
  Version : String := ""
  Backup : String := ""
  ClusterName : String := ""
  ClusterToken : String := ""
  Members : List String := []
  Broken : Bool := false
  CertificateUpdate : Bool := false
deriving DecidableEq, Repr

/-- The observed state of a cluster member, `MemberStatus`. -/
structure MemberStatus where
  Version : String := ""
  Phase : MemberPhase := ""
  FailedTime : Time := 0
  CertificateExpires : Bool := false
deriving DecidableEq, Repr

structure Member where
  Meta : ObjectMeta := {}
  Spec : MemberSpec := {}
  Status : MemberStatus := {}
deriving DecidableEq, Repr

/-! ## api/v1alpha1/cluster_webhook.go -/

/-- The dynamic type behind the `runtime.Object` handed to `ValidateUpdate`:
a `*Cluster`, or anything else. -/
inductive RuntimeObject where
  | cluster (c : Cluster)
  | other
deriving DecidableEq, Repr

/-- `func (r *Cluster) ValidateCreate() error`; Go's `%` is the truncated
remainder, `Int.tmod`. -/
def Cluster.ValidateCreate (r : Cluster) : error :=
  if r.Spec.Size.tmod 2 = 0 then
    some ("size of cluster should be odd, got " ++ toString r.Spec.Size)
  else
    none

/-- `func (r *Cluster) ValidateUpdate(old runtime.Object) error`. -/
def Cluster.ValidateUpdate (r : Cluster) (old : RuntimeObject) : error :=
  match old with
  | .other => some "updated object is not cluster"
  | .cluster oldCluster =>
    if oldCluster.Status.Phase = ClusterUpdating ∧ r.Spec.Version ≠ oldCluster.Spec.Version then
      some "unable to change cluster version on updating cluster"
    else if oldCluster.Spec.Backup ≠ r.Spec.Backup then
      some "unable to restore working cluster from backup, please create new one"
    else if oldCluster.Spec.Size ≠ r.Spec.Size then
      some "changing cluster size currently not supported"
    else
      none

/-- `func (r *Cluster) ValidateDelete() error`. -/
def Cluster.ValidateDelete (_r : Cluster) : error :=
  none

/-! ## api/v1alpha1/cluster_types.go, member_types.go : methods -/

/-- `func (in *Cluster) GetMemberName(num int) string`, `fmt.Sprintf("%s-%d", in.Name, num)`. -/
def Cluster.GetMemberName (c : Cluster) (num : Int) : String :=
  c.Meta.Name ++ "-" ++ toString num

/-- `func (in *Cluster) GetMember(num int) *Member`: the desired Member number
`num`; the inner loop appends the names of members `0 .. Size-1`. -/
def Cluster.GetMember (c : Cluster) (num : Int) : Member :=
  let members := (List.range c.Spec.Size.toNat).map (fun n => c.GetMemberName (n : Int))
  { Meta :=
      { Name := c.GetMemberName num
        Namespace := c.Meta.Namespace
        Finalizers := [FinalizerDeleteDependents] }
    Spec :=
      { Version := c.Spec.Version
        ClusterToken := c.Meta.UID
        ClusterName := c.Meta.Name
        Members := members
        Backup := c.Spec.Backup } }

/-- `func (in *Cluster) ShouldUpdate() bool`. -/
def Cluster.ShouldUpdate (c : Cluster) : Bool :=
  decide (c.Status.Phase = ClusterRunning) &&
    (decide (c.Status.Version ≠ c.Spec.Version) || c.Status.CertificateExpires)

/-- `func (in Member) IsCreating() bool`. -/
def Member.IsCreating (m : Member) : Bool :=
  decide (m.Status.Phase = MemberCreating) || decide (m.Status.Phase = MemberRecreating) ||
    decide (m.Status.Phase = "")

/-- The assignment `member.Spec.Version = v`. -/
def Member.setVersion (m : Member) (v : String) : Member :=
  { m with Spec := { m.Spec with Version := v } }

/-- The assignment `member.Spec.CertificateUpdate = b`. -/
def Member.setCertificateUpdate (m : Member) (b : Bool) : Member :=
  { m with Spec := { m.Spec with CertificateUpdate := b } }

/-- The assignment `member.Spec.Broken = b`. -/
def Member.setBroken (m : Member) (b : Bool) : Member :=
  { m with Spec := { m.Spec with Broken := b } }

/-- The assignment `cluster.Status.Phase = phase`. -/
def Cluster.setPhase (c : Cluster) (phase : ClusterPhase) : Cluster :=
  { c with Status := { c.Status with Phase := phase } }

/-! ## controllers : results, errors, the API client -/

/-- The `ctrl.Result` of controller-runtime. -/
structure Result where
  Requeue : Bool := false
  RequeueAfter : Duration := 0
deriving DecidableEq, Repr

/-- `Result.IsZero`: the result equals `ctrl.Result{}`. -/
def Result.IsZero (r : Result) : Bool :=
  decide (r = {})

/-- `func Requeue() ctrl.Result` of controllers/result.go. -/
def Requeue : Result :=
  { Requeue := true }

/-- `multierr.Append(left, right)`: `nil` when both are `nil`, the other one
when one is `nil`, else the combination of the two (messages joined by "; "). -/
def multierrAppend (left right : error) : error :=
  match left, right with
  | none, r => r
  | some l, none => some l
  | some l, some r => some (l ++ "; " ++ r)

/-- The calls `ClusterReconciler` makes on controller-runtime for Member
objects.  `CreateOrUpdate` is `controllerutil.CreateOrUpdate(ctx, r.Client,
member, SkipUpdate)`: with the no-op mutate function it either fails or fills
`member` with the stored object (creating it from the desired one when absent).
An object it had to create comes back with the empty status of the desired
one, hence as a creating member.  `Update` is `r.Update(ctx, member)`; a
successful update leaves the fields modelled here as they were sent. -/
structure Client where
  SetControllerReference : Cluster → Member → Except String Member
  CreateOrUpdate : Member → Except String Member
  Update : Member → error

/-- How a reconcile step ends: a nil-pointer dereference, or its two return
values. -/
inductive Outcome where
  | panic
  | ret (result : Result) (err : error)
deriving DecidableEq, Repr

/-- One run of a reconcile step: the `*api.Cluster` as the step leaves it, the
`r.Update(ctx, member)` calls it issued, oldest first, each with the number of
the member it was issued for, and how the step ended. -/
structure Run where
  cluster : Cluster
  updates : List (Nat × Member)
  outcome : Outcome
deriving DecidableEq, Repr

/-- The step issued `r.Update(ctx, member)` for member `num` before what
follows in `r`. -/
def Run.after (num : Nat) (member : Member) (r : Run) : Run :=
  { r with updates := (num, member) :: r.updates }

/-! ## controllers/cluster_controller.go -/

def minorFailedTimeout : Duration := 5 * (60 * 1000000000)

/-- `func (r *ClusterReconciler) EnsureMember(ctx, cluster, num) (*api.Member, error)`. -/
def EnsureMember (cl : Client) (cluster : Cluster) (num : Int) : Option Member × error :=
  let member := cluster.GetMember num
  match cl.SetControllerReference cluster member with
  | .error err => (none, some err)
  | .ok member =>
    match cl.CreateOrUpdate member with
    | .error err => (none, some err)
    | .ok member => (some member, none)

/-- The local variables of `EnsureMembers`. -/
structure EnsureMembersLocals where
  errs : error := none
  failedCount : Int := 0
  creatingCount : Int := 0
  certificateExpires : Bool := false
deriving DecidableEq, Repr

/-- The loop `for i := 0; i < cluster.Spec.Size; i++` of `EnsureMembers`, at
index `i` with `k` iterations to go; `none` when `member` is nil at
`member.Status.Phase`. -/
def EnsureMembers.loop (cl : Client) (cluster : Cluster) :
    Nat → Nat → EnsureMembersLocals → Option EnsureMembersLocals
  | _, 0, s => some s
  | i, k + 1, s =>
    match EnsureMember cl cluster (i : Int) with
    | (none, _) => none
    | (some member, err) =>
      let errs := multierrAppend s.errs err
      let certificateExpires :=
        s.certificateExpires || member.Status.CertificateExpires || member.Spec.CertificateUpdate
      if member.Status.Phase = MemberFailed then
        EnsureMembers.loop cl cluster (i + 1) k
          { errs := errs, failedCount := s.failedCount + 1, creatingCount := s.creatingCount,
            certificateExpires := certificateExpires }
      else if member.IsCreating then
        EnsureMembers.loop cl cluster (i + 1) k
          { errs := errs, failedCount := s.failedCount, creatingCount := s.creatingCount + 1,
            certificateExpires := certificateExpires }
      else
        EnsureMembers.loop cl cluster (i + 1) k
          { errs := errs, failedCount := s.failedCount, creatingCount := s.creatingCount,
            certificateExpires := certificateExpires }

/-- `func (r *ClusterReconciler) EnsureMembers(ctx, cluster) (ctrl.Result, error)`. -/
def EnsureMembers (cl : Client) (cluster : Cluster) : Run :=
  match EnsureMembers.loop cl cluster 0 cluster.Spec.Size.toNat {} with
  | none => { cluster := cluster, updates := [], outcome := .panic }
  | some s =>
    let phase : ClusterPhase :=
      if s.failedCount = 0 ∧ s.creatingCount = 0 then ClusterRunning
      else if s.failedCount = 0 ∧ s.creatingCount > 0 then ClusterCreating
      else if (s.failedCount + s.creatingCount) * 2 < cluster.Spec.Size then ClusterMinorFailure
      else ClusterFailed
    { cluster :=
        { cluster with
          Status :=
            { cluster.Status with Phase := phase, CertificateExpires := s.certificateExpires } }
      updates := []
      outcome := .ret {} s.errs }

/-- The loop of `UpdateMembers` at index `i` with `k` iterations to go, followed
by the code after the loop.  `cluster` is the cluster as the loop found it: the
loop writes `cluster.Status` only on a path that returns. -/
def UpdateMembers.loop (cl : Client) (cluster : Cluster) : Nat → Nat → error → Run
  | _, 0, errs =>
    if errs ≠ none then
      { cluster := cluster, updates := [], outcome := .ret {} errs }
    else
      { cluster :=
          { cluster with
            Status :=
              { cluster.Status with Phase := ClusterRunning, CertificateExpires := false } }
        updates := []
        outcome := .ret {} none }
  | i, k + 1, errs =>
    match EnsureMember cl cluster (i : Int) with
    | (none, _) => { cluster := cluster, updates := [], outcome := .panic }
    | (some member, err) =>
      let errs := multierrAppend errs err
      if member.IsCreating ∨ member.Status.Phase = MemberUpdating then
        { cluster := cluster, updates := [], outcome := .ret Requeue none }
      else if cluster.Spec.Version ≠ member.Spec.Version then
        let member := member.setVersion cluster.Spec.Version
        { cluster := cluster.setPhase ClusterUpdating
          updates := [(i, member)]
          outcome := .ret Requeue (cl.Update member) }
      else if cluster.Status.CertificateExpires ∨ member.Spec.CertificateUpdate then
        let member := member.setCertificateUpdate member.Status.CertificateExpires
        match cl.Update member with
        | some err => { cluster := cluster, updates := [(i, member)], outcome := .ret {} (some err) }
        | none =>
          if member.Spec.CertificateUpdate then
            { cluster := cluster.setPhase ClusterUpdating
              updates := [(i, member)]
              outcome := .ret Requeue none }
          else if cluster.Spec.Version ≠ member.Status.Version then
            { cluster := cluster, updates := [(i, member)], outcome := .ret Requeue none }
          else
            (UpdateMembers.loop cl cluster (i + 1) k errs).after i member
      else if cluster.Spec.Version ≠ member.Status.Version then
        { cluster := cluster, updates := [], outcome := .ret Requeue none }
      else
        UpdateMembers.loop cl cluster (i + 1) k errs

/-- `func (r *ClusterReconciler) UpdateMembers(ctx, cluster) (ctrl.Result, error)`. -/
def UpdateMembers (cl : Client) (cluster : Cluster) : Run :=
  UpdateMembers.loop cl cluster 0 cluster.Spec.Size.toNat none

/-- The local variables of `RepairMembers`; `failedMember` carries, next to the
pointer, the loop index at which it was taken. -/
structure RepairMembersLocals where
  errs : error := none
  failedMember : Option (Nat × Member) := none
  failedCount : Int := 0
  minFailedTime : Time
deriving DecidableEq, Repr

/-- The code of `RepairMembers` after its loop. -/
def RepairMembers.finish (cl : Client) (cluster : Cluster) (s : RepairMembersLocals) : Run :=
  match s.failedMember with
  | none => { cluster := cluster, updates := [], outcome := .ret Requeue none }
  | some (num, failedMember) =>
    if s.failedCount * 2 > cluster.Spec.Size ∨ s.failedCount = 0 then
      { cluster := cluster, updates := [], outcome := .ret {} none }
    else
      let failedMember := failedMember.setBroken true
      { cluster := cluster
        updates := [(num, failedMember)]
        outcome := .ret {} (cl.Update failedMember) }

/-- The loop of `RepairMembers` at index `i` with `k` iterations to go, followed
by the code after the loop; `Time.Before` is `<`. -/
def RepairMembers.loop (cl : Client) (cluster : Cluster) :
    Nat → Nat → RepairMembersLocals → Run
  | _, 0, s => RepairMembers.finish cl cluster s
  | i, k + 1, s =>
    match EnsureMember cl cluster (i : Int) with
    | (none, _) => { cluster := cluster, updates := [], outcome := .panic }
    | (some member, err) =>
      let errs := multierrAppend s.errs err
      if member.IsCreating ∨ member.Spec.Broken then
        { cluster := cluster, updates := [], outcome := .ret Requeue none }
      else if member.Status.Phase ≠ MemberFailed then
        RepairMembers.loop cl cluster (i + 1) k { s with errs := errs }
      else if member.Status.FailedTime < s.minFailedTime then
        RepairMembers.loop cl cluster (i + 1) k
          { errs := errs, failedMember := some (i, member), failedCount := s.failedCount + 1,
            minFailedTime := member.Status.FailedTime }
      else
        RepairMembers.loop cl cluster (i + 1) k
          { s with errs := errs, failedCount := s.failedCount + 1 }

/-- `func (r *ClusterReconciler) RepairMembers(ctx, cluster) (ctrl.Result, error)`,
with `now` the value of `time.Now()`. -/
def RepairMembers (cl : Client) (cluster : Cluster) (now : Time) : Run :=
  RepairMembers.loop cl cluster 0 cluster.Spec.Size.toNat
    { minFailedTime := now - minorFailedTimeout }

/-! ## api/v1alpha1/member_types.go : SetFailed -/

/-- `func (in *Member) SetFailed()`, with `now` the value of `metav1.Now()`. -/
def Member.SetFailed (m : Member) (now : Time) : Member :=
  if m.Status.Phase = MemberFailed then
    m
  else
    { m with Status := { m.Status with FailedTime := now, Phase := MemberFailed } }

/-! ## Time arithmetic, API errors, labels -/

/-- The largest `time.Duration`, `1<<63 - 1` nanoseconds. -/
def maxDuration : Duration := 9223372036854775807

/-- The smallest `time.Duration`, `-1 << 63` nanoseconds. -/
def minDuration : Duration := -9223372036854775808

/-- `func (t Time) Sub(u Time) Duration`: the difference, or the largest
(smallest) Duration when the difference does not fit. -/
def Time.Sub (t u : Time) : Duration :=
  if t - u > maxDuration then maxDuration
  else if t - u < minDuration then minDuration
  else t - u

/-- `func (t Time) Unix() int64`: whole seconds since January 1, 1970 UTC, which
is 62135596800 seconds after the zero `time.Time`. -/
def Time.Unix (t : Time) : Int :=
  t / 1000000000 - 62135596800

/-- An error returned by the API client, with what `errors.IsNotFound` and
`errors.IsConflict` say of it. -/
inductive ApiError where
  | notFound (msg : String)
  | conflict (msg : String)
  | other (msg : String)
deriving DecidableEq, Repr

/-- The message of the error. -/
def ApiError.msg : ApiError → String
  | .notFound msg => msg
  | .conflict msg => msg
  | .other msg => msg

/-- `errors.IsNotFound(err)` on a non-nil error. -/
def ApiError.IsNotFound : ApiError → Bool
  | .notFound _ => true
  | _ => false

/-- `client.IgnoreNotFound(err)`. -/
def IgnoreNotFound (err : Option ApiError) : error :=
  match err with
  | none => none
  | some e => if e.IsNotFound then none else some e.msg

/-- The Go map read `labels[key]`: the value, or the empty string. -/
def labelValue (labels : List (String × String)) (key : String) : String :=
  match labels.find? (fun kv => decide (kv.1 = key)) with
  | some kv => kv.2
  | none => ""

/-! ## api/v1alpha1 : BackupSchedule and Backup -/

/-- The desired state of a backup schedule, `BackupScheduleSpec`. -/
structure BackupScheduleSpec where
  CreationPeriod : Duration := 0
  RetentionPeriod : Duration := 0
deriving DecidableEq, Repr

structure BackupSchedule where
  Meta : ObjectMeta := {}
  Spec : BackupScheduleSpec := {}
deriving DecidableEq, Repr

/-- The desired state of a backup, `BackupSpec`. -/
structure BackupSpec where
  RetentionPeriod : Duration := 0
deriving DecidableEq, Repr

/-- The observed state of a backup, `BackupStatus`; `Finished` is the field
`finishedTime`. -/
structure BackupStatus where
  Finished : Time := 0
  URL : String := ""
deriving DecidableEq, Repr

structure Backup where
  Meta : ObjectMeta := {}
  Spec : BackupSpec := {}
  Status : BackupStatus := {}
deriving DecidableEq, Repr

/-- `func (in *BackupSchedule) GetBackup() *Backup`, with `now` the value of
`time.Now()`. -/
def BackupSchedule.GetBackup (s : BackupSchedule) (now : Time) : Backup :=
  { Meta :=
      { Name := s.Meta.Name ++ "-" ++ toString (Time.Unix now)
        Namespace := s.Meta.Namespace
        Labels := [(ClusterLabel, s.Meta.Name)] }
    Spec := { RetentionPeriod := s.Spec.RetentionPeriod } }

/-! ## controllers/backupschedule_controller.go -/

/-- The calls `BackupScheduleReconciler` makes on the API client: `ListBackups
namespace cluster` is `r.List` of the Backups in the namespace that carry the
cluster label with that value, `Create` is `r.Create(ctx, backup)`. -/
structure BackupScheduleReconciler where
  ListBackups : String → String → Except String (List Backup)
  Create : Backup → error

/-- One run of `Schedule`: the `r.Create` calls it issued, and how it ended. -/
structure ScheduleRun where
  created : List Backup
  outcome : Outcome
deriving DecidableEq, Repr

/-- The loop of `Schedule` over `backups.Items`, on the variables `inProgress`
and `latestBackupTime`; `IsZero` is `= 0`, `After` is `>`. -/
def Schedule.scan : List Backup → Bool × Time → Bool × Time
  | [], s => s
  | backup :: rest, (inProgress, latestBackupTime) =>
    let inProgress := if backup.Status.Finished = 0 then true else inProgress
    let latestBackupTime :=
      if backup.Status.Finished > latestBackupTime then backup.Status.Finished
      else latestBackupTime
    Schedule.scan rest (inProgress, latestBackupTime)

/-- `func (r *BackupScheduleReconciler) CreateBackup(ctx, schedule) error`, with
`now` the value of `time.Now()` in `GetBackup`: the `r.Create` call and its
error. -/
def CreateBackup (r : BackupScheduleReconciler) (schedule : BackupSchedule) (now : Time) :
    List Backup × error :=
  let backup := schedule.GetBackup now
  match r.Create backup with
  | some err => ([backup], some err)
  | none => ([backup], none)

/-- `func (r *BackupScheduleReconciler) Schedule(ctx, schedule) (ctrl.Result, error)`.
`now` is the value of `time.Now()` in `nextRunTime.Before(time.Now())`, `now'`
the value of the `time.Now()` that follows on either path: in `GetBackup`, or in
`nextRunTime.Sub(time.Now())`. -/
def Schedule (r : BackupScheduleReconciler) (schedule : BackupSchedule) (now now' : Time) :
    ScheduleRun :=
  match r.ListBackups schedule.Meta.Namespace schedule.Meta.Name with
  | .error err => { created := [], outcome := .ret {} (some err) }
  | .ok items =>
    let (inProgress, latestBackupTime) := Schedule.scan items (false, 0)
    if inProgress then
      { created := [], outcome := .ret Requeue none }
    else
      let nextRunTime := latestBackupTime + schedule.Spec.CreationPeriod
      if nextRunTime < now then
        let (created, err) := CreateBackup r schedule now'
        { created := created, outcome := .ret Requeue err }
      else
        { created := [], outcome := .ret { RequeueAfter := Time.Sub nextRunTime now' } none }

/-- `func (r *BackupScheduleReconciler) Reconcile(ctx, req) (ctrl.Result, error)`;
`get` is the outcome of `r.Get(ctx, req.NamespacedName, &schedule)`. -/
def BackupScheduleReconciler.Reconcile (r : BackupScheduleReconciler)
    (get : Except ApiError BackupSchedule) (now now' : Time) : ScheduleRun :=
  match get with
  | .error err => { created := [], outcome := .ret {} (IgnoreNotFound (some err)) }
  | .ok schedule =>
    if schedule.Meta.DeletionTimestamp ≠ none then
      { created := [], outcome := .ret {} none }
    else
      match (Schedule r schedule now now').outcome with
      | .panic => Schedule r schedule now now'
      | .ret result err =>
        if err ≠ none ∨ ¬ result.IsZero then Schedule r schedule now now'
        else { created := (Schedule r schedule now now').created, outcome := .ret {} none }

/-! ## api/v1alpha1 : URLs and names -/

/-- `func MemberFQDN(name, namespace, service string) string`. -/
def MemberFQDN (name ns service : String) : String :=
  name ++ "." ++ service ++ "." ++ ns ++ ".svc.cluster.local"

/-- `func AdvertisePeerURL(name, namespace, service string) string`. -/
def AdvertisePeerURL (name ns service : String) : String :=
  "https://" ++ MemberFQDN name ns service ++ ":2380"

/-- `func AdvertiseClientURL(name, namespace, service string) string`. -/
def AdvertiseClientURL (name ns service : String) : String :=
  "https://" ++ MemberFQDN name ns service ++ ":2379"

/-- `func (in Cluster) GetEndpoints() []string`. -/
def Cluster.GetEndpoints (c : Cluster) : List String :=
  (List.range c.Spec.Size.toNat).map
    (fun n => AdvertiseClientURL (c.GetMemberName (n : Int)) c.Meta.Namespace c.Meta.Name)

/-- `func (in Member) GetEndpoints() []string`. -/
def Member.GetEndpoints (m : Member) : List String :=
  m.Spec.Members.map (fun member => AdvertiseClientURL member m.Meta.Namespace m.Spec.ClusterName)

/-- `func (in Member) GetAdvertisePeerURL() string`. -/
def Member.GetAdvertisePeerURL (m : Member) : String :=
  AdvertisePeerURL m.Meta.Name m.Meta.Namespace m.Spec.ClusterName

/-- `func (in Member) GetCertificateName(suffix string) string`. -/
def Member.GetCertificateName (m : Member) (suffix : String) : String :=
  m.Meta.Name ++ "-" ++ suffix

/-- `func (in Member) ShouldUpdate() bool`. -/
def Member.ShouldUpdate (m : Member) : Bool :=
  decide (m.Status.Phase = MemberRunning) &&
    (decide (m.Status.Version ≠ m.Spec.Version) ||
      (m.Spec.CertificateUpdate && m.Status.CertificateExpires))

/-! ## controllers/backup_controller.go -/

/-- The bytes behind the `io.ReadCloser` of a snapshot. -/
abbrev SnapshotBytes := String

/-- The configuration of `BackupReconciler` and the calls it makes: `pathJoin`
is `path.Join` of the Go library, `GetCluster name namespace` is `r.Get` of the
Cluster, `EtcdNew endpoints` is `clientv3.New`, `EtcdSnapshot endpoints` is
`etcd.Snapshot(ctx)` on that client (a reader that may be nil, and an error),
`Upload bucket key body` is `r.S3Uploader.UploadWithContext` and yields
`output.Location`, `DeleteObject bucket key` is
`r.S3API.DeleteObjectWithContext`, `Delete` is `r.Delete(ctx, backup)` and
`StatusUpdate` is `r.Status().Update(ctx, &backup)`. -/
structure BackupReconciler where
  S3Bucket : String
  S3Prefix : String
  pathJoin : List String → String
  GetCluster : String → String → Except ApiError Cluster
  EtcdNew : List String → error
  EtcdSnapshot : List String → Option SnapshotBytes × error
  Upload : String → String → SnapshotBytes → Except String String
  DeleteObject : String → String → error
  Delete : Backup → Option ApiError
  StatusUpdate : Backup → Option ApiError

/-- A call issued on the object store or on the API server for a Backup. -/
inductive BackupEvent where
  | uploadObject (bucket key : String) (body : SnapshotBytes)
  | deleteObject (bucket key : String)
  | deleteRecord (backup : Backup)
  | statusUpdate (backup : Backup)
deriving DecidableEq, Repr

/-- The steps `BackupReconciler.Reconcile` can run. -/
inductive BackupStep where
  | UploadBackup
  | RemoveStale
deriving DecidableEq, Repr

/-- What a step of the Backup reconcile leaves: the `*api.Backup`, the calls it
issued, oldest first, and its two return values. -/
structure BackupStepRun where
  backup : Backup
  events : List BackupEvent
  result : Result
  err : error
deriving DecidableEq, Repr

/-- One run of `BackupReconciler.Reconcile`: the Backup as the reconcile leaves
it (`none` when it could not be fetched), the steps it ran, the calls it
issued, and how it ended. -/
structure BackupRun where
  backup : Option Backup
  steps : List BackupStep
  events : List BackupEvent
  outcome : Outcome
deriving DecidableEq, Repr

/-- `func (r *BackupReconciler) Snapshot(ctx, backup) (io.ReadCloser, error)`. -/
def Snapshot (r : BackupReconciler) (backup : Backup) : Option SnapshotBytes × error :=
  match r.GetCluster (labelValue backup.Meta.Labels ClusterLabel) backup.Meta.Namespace with
  | .error err => (none, IgnoreNotFound (some err))
  | .ok cluster =>
    match r.EtcdNew cluster.GetEndpoints with
    | some err => (none, some err)
    | none => r.EtcdSnapshot cluster.GetEndpoints

/-- `func (r *BackupReconciler) UploadBackup(ctx, backup) (ctrl.Result, error)`,
with `now` the value of `metav1.Now()`. -/
def UploadBackup (r : BackupReconciler) (backup : Backup) (now : Time) : BackupStepRun :=
  match Snapshot r backup with
  | (none, err) => { backup := backup, events := [], result := {}, err := err }
  | (some _, some err) =>
    { backup := backup, events := [], result := {}, err := some err }
  | (some snapshot, none) =>
    let key := r.pathJoin [r.S3Prefix, labelValue backup.Meta.Labels ClusterLabel, backup.Meta.Name]
    match r.Upload r.S3Bucket key snapshot with
    | .error err =>
      { backup := backup, events := [.uploadObject r.S3Bucket key snapshot], result := {},
        err := some err }
    | .ok location =>
      { backup := { backup with Status := { backup.Status with URL := location, Finished := now } }
        events := [.uploadObject r.S3Bucket key snapshot]
        result := {}
        err := none }

/-- `func (r *BackupReconciler) RemoveStale(ctx, backup) (ctrl.Result, error)`.
`now` is the value of `time.Now()` in `retentionTime.Before(time.Now())`, `now'`
the value in `retentionTime.Sub(time.Now())`. -/
def RemoveStale (r : BackupReconciler) (backup : Backup) (now now' : Time) : BackupStepRun :=
  let retentionTime := backup.Meta.CreationTimestamp + backup.Spec.RetentionPeriod
  if retentionTime < now then
    let key := r.pathJoin [r.S3Prefix, labelValue backup.Meta.Labels ClusterLabel, backup.Meta.Name]
    match r.DeleteObject r.S3Bucket key with
    | some err =>
      { backup := backup, events := [.deleteObject r.S3Bucket key], result := {}, err := some err }
    | none =>
      match r.Delete backup with
      | some err =>
        { backup := backup
          events := [.deleteObject r.S3Bucket key, .deleteRecord backup]
          result := {}
          err := IgnoreNotFound (some err) }
      | none =>
        { backup := backup
          events := [.deleteObject r.S3Bucket key, .deleteRecord backup]
          result := { RequeueAfter := Time.Sub retentionTime now' }
          err := none }
  else
    { backup := backup, events := [], result := { RequeueAfter := Time.Sub retentionTime now' },
      err := none }

/-- The end of `BackupReconciler.Reconcile` past the deferred function: the
status update is issued with the Backup as the steps left it, and its error is
only logged. -/
def BackupRun.deferred (steps : List BackupStep) (last : BackupStepRun)
    (events : List BackupEvent) : BackupRun :=
  { backup := some last.backup
    steps := steps
    events := events ++ last.events ++ [.statusUpdate last.backup]
    outcome := .ret last.result last.err }

/-- `func (r *BackupReconciler) Reconcile(ctx, req) (ctrl.Result, error)`; `get`
is the outcome of `r.Get(ctx, req.NamespacedName, &backup)`, `nowUpload` the
value of `metav1.Now()` in `UploadBackup`, `now` and `now'` the two values of
`time.Now()` in `RemoveStale`. -/
def BackupReconciler.Reconcile (r : BackupReconciler) (get : Except ApiError Backup)
    (nowUpload now now' : Time) : BackupRun :=
  match get with
  | .error err =>
    { backup := none, steps := [], events := [], outcome := .ret {} (IgnoreNotFound (some err)) }
  | .ok backup =>
    if backup.Meta.DeletionTimestamp ≠ none then
      { backup := some backup, steps := [], events := [], outcome := .ret {} none }
    else if backup.Status.Finished = 0 then
      let upload := UploadBackup r backup nowUpload
      if upload.err ≠ none ∨ ¬ upload.result.IsZero then
        BackupRun.deferred [.UploadBackup] upload []
      else
        BackupRun.deferred [.UploadBackup, .RemoveStale]
          (RemoveStale r upload.backup now now') upload.events
    else
      BackupRun.deferred [.RemoveStale] (RemoveStale r backup now now') []

/-! ## controllers/cluster_controller.go : CleanupSecrets and Reconcile -/

/-- A `corev1.Secret`, as far as the operator looks at it. -/
structure Secret where
  Meta : ObjectMeta := {}
deriving DecidableEq, Repr

/-- The `controllerutil.OperationResult` of a `CreateOrUpdate` call. -/
inductive OperationResult where
  | unchanged
  | created
  | updated
  | updatedStatus
  | updatedStatusOnly
deriving DecidableEq, Repr

/-- The children of a Cluster, other than its Members, that `Reconcile`
ensures; which object is built for each is `GetBackupSchedule`, `GetService`,
`GetCACertificate` and `GetCAIssuer`. -/
inductive ClusterChild where
  | backupSchedule
  | service
  | caCertificate
  | caIssuer
deriving DecidableEq, Repr

/-- The calls `ClusterReconciler` makes: `members` are the calls for Member
objects, `SetOwner cluster child` is `controllerutil.SetControllerReference` of
the cluster on that child, `CreateOrUpdate cluster child` is
`controllerutil.CreateOrUpdate` of that child with the no-op mutate function,
`ListSecrets namespace name` is `r.List` of the Secrets in the namespace that
carry the cluster label with that value (the items the list then holds, and the
error), `DeleteSecret` is `r.Delete(ctx, &secret)`, `Update` is
`r.Update(ctx, cluster)` and `StatusUpdate` is `r.Status().Update(ctx, &cluster)`. -/
structure ClusterReconciler where
  members : Client
  SetOwner : Cluster → ClusterChild → error
  CreateOrUpdate : Cluster → ClusterChild → Except String OperationResult
  ListSecrets : String → String → List Secret × Option ApiError
  DeleteSecret : Secret → error
  Update : Cluster → error
  StatusUpdate : Cluster → Option ApiError

/-- `controllerutil.ContainsFinalizer`, on the finalizers of the object. -/
def ContainsFinalizer (finalizers : List String) (finalizer : String) : Bool :=
  decide (finalizer ∈ finalizers)

/-- `controllerutil.RemoveFinalizer`, on the finalizers of the object: every
occurrence of the finalizer is dropped. -/
def RemoveFinalizer (finalizers : List String) (finalizer : String) : List String :=
  finalizers.filter (fun f => decide (f ≠ finalizer))

/-- One run of `CleanupSecrets`: the `*api.Cluster` as it leaves it, the
`r.Delete` calls it issued on secrets, oldest first, the cluster it passed to
`r.Update` if it got there, and how it ended. -/
structure CleanupRun where
  cluster : Cluster
  deleted : List Secret
  updated : Option Cluster
  outcome : Outcome
deriving DecidableEq, Repr

/-- The loop of `CleanupSecrets` over `secrets.Items`, followed by the code
after the loop. -/
def CleanupSecrets.loop (r : ClusterReconciler) (cluster : Cluster) : List Secret → CleanupRun
  | [] =>
    let cluster :=
      { cluster with
        Meta :=
          { cluster.Meta with
            Finalizers := RemoveFinalizer cluster.Meta.Finalizers CleanupSecretFinalizer } }
    { cluster := cluster, deleted := [], updated := some cluster,
      outcome := .ret {} (r.Update cluster) }
  | secret :: rest =>
    match r.DeleteSecret secret with
    | some err =>
      { cluster := cluster, deleted := [secret], updated := none, outcome := .ret {} (some err) }
    | none =>
      let run := CleanupSecrets.loop r cluster rest
      { run with deleted := secret :: run.deleted }

/-- `func (r *ClusterReconciler) CleanupSecrets(ctx, cluster) (ctrl.Result, error)`. -/
def CleanupSecrets (r : ClusterReconciler) (cluster : Cluster) : CleanupRun :=
  if ContainsFinalizer cluster.Meta.Finalizers FinalizerDeleteDependents then
    { cluster := cluster, deleted := [], updated := none, outcome := .ret Requeue none }
  else
    match r.ListSecrets cluster.Meta.Namespace cluster.Meta.Name with
    | (items, err) =>
      match IgnoreNotFound err with
      | some _ =>
        { cluster := cluster, deleted := [], updated := none
          outcome := .ret {} (err.map ApiError.msg) }
      | none => CleanupSecrets.loop r cluster items

/-- `func (r *ClusterReconciler) EnsureBackupSchedule(ctx, cluster) (ctrl.Result, error)`. -/
def EnsureBackupSchedule (r : ClusterReconciler) (cluster : Cluster) : Result × error :=
  match r.SetOwner cluster .backupSchedule with
  | some err => ({}, some err)
  | none =>
    match r.CreateOrUpdate cluster .backupSchedule with
    | .error err => ({}, some err)
    | .ok _ => ({}, none)

/-- The common body of `EnsureService`, `EnsureCACertificate` and
`EnsureCAIssuer`: set the owner, create or fetch the child, requeue when it was
created. -/
def ensureChild (r : ClusterReconciler) (cluster : Cluster) (child : ClusterChild) :
    Result × error :=
  match r.SetOwner cluster child with
  | some err => ({}, some err)
  | none =>
    match r.CreateOrUpdate cluster child with
    | .error err => ({}, some err)
    | .ok opResult => if opResult = .created then (Requeue, none) else ({}, none)

/-- `func (r *ClusterReconciler) EnsureService(ctx, cluster) (ctrl.Result, error)`. -/
def EnsureService (r : ClusterReconciler) (cluster : Cluster) : Result × error :=
  ensureChild r cluster .service

/-- `func (r *ClusterReconciler) EnsureCACertificate(ctx, cluster) (ctrl.Result, error)`. -/
def EnsureCACertificate (r : ClusterReconciler) (cluster : Cluster) : Result × error :=
  ensureChild r cluster .caCertificate

/-- `func (r *ClusterReconciler) EnsureCAIssuer(ctx, cluster) (ctrl.Result, error)`. -/
def EnsureCAIssuer (r : ClusterReconciler) (cluster : Cluster) : Result × error :=
  ensureChild r cluster .caIssuer

/-- The test `err != nil || !result.IsZero()` on the two return values of a
step. -/
def stops (x : Result × error) : Bool :=
  decide (x.2 ≠ none) || !x.1.IsZero

/-- The same test on the end of a step; a panic ends the reconcile as well. -/
def Outcome.stops (o : Outcome) : Bool :=
  match o with
  | .panic => true
  | .ret result err => Etcdops.stops (result, err)

/-- `func (r *ClusterReconciler) EnsureCA(ctx, cluster) (ctrl.Result, error)`. -/
def EnsureCA (r : ClusterReconciler) (cluster : Cluster) : Result × error :=
  if stops (EnsureCACertificate r cluster) then EnsureCACertificate r cluster
  else if stops (EnsureCAIssuer r cluster) then EnsureCAIssuer r cluster
  else ({}, none)

/-- The steps `ClusterReconciler.Reconcile` can run. -/
inductive ClusterStep where
  | CleanupSecrets
  | EnsureBackupSchedule
  | EnsureService
  | EnsureCA
  | EnsureMembers
  | RepairMembers
  | UpdateMembers
deriving DecidableEq, Repr

/-- One run of `ClusterReconciler.Reconcile`: the Cluster as the reconcile
leaves it (`none` when it could not be fetched), the steps it ran in order, the
member updates it issued, the run of `CleanupSecrets` when it was taken, the
Cluster passed to the deferred `r.Status().Update` when that was registered,
and how it ended. -/
structure ClusterRun where
  cluster : Option Cluster
  steps : List ClusterStep
  updates : List (Nat × Member)
  cleanup : Option CleanupRun
  statusUpdate : Option Cluster
  outcome : Outcome
deriving DecidableEq, Repr

/-- A return of `Reconcile` past the `defer`: the status update is issued with
the cluster as it then is. -/
def ClusterRun.deferred (steps : List ClusterStep) (cluster : Cluster)
    (updates : List (Nat × Member)) (outcome : Outcome) : ClusterRun :=
  { cluster := some cluster, steps := steps, updates := updates, cleanup := none,
    statusUpdate := some cluster, outcome := outcome }

/-- `Reconcile` from `if cluster.ShouldUpdate()` to its end, after the steps
`steps` and the member updates `updates`. -/
def ClusterReconciler.update (r : ClusterReconciler) (steps : List ClusterStep) (cluster : Cluster)
    (updates : List (Nat × Member)) : ClusterRun :=
  if cluster.ShouldUpdate then
    let run := UpdateMembers r.members cluster
    if run.outcome.stops then
      ClusterRun.deferred (steps ++ [.UpdateMembers]) run.cluster (updates ++ run.updates)
        run.outcome
    else
      ClusterRun.deferred (steps ++ [.UpdateMembers])
        { run.cluster with Status := { run.cluster.Status with Version := run.cluster.Spec.Version } }
        (updates ++ run.updates) (.ret {} none)
  else
    ClusterRun.deferred steps
      { cluster with Status := { cluster.Status with Version := cluster.Spec.Version } }
      updates (.ret {} none)

/-- `Reconcile` from the call of `EnsureMembers` to its end. -/
def ClusterReconciler.members_on (r : ClusterReconciler) (cluster : Cluster) (now : Time) :
    ClusterRun :=
  let steps : List ClusterStep :=
    [.EnsureBackupSchedule, .EnsureService, .EnsureCA, .EnsureMembers]
  let ensured := EnsureMembers r.members cluster
  if ensured.outcome.stops then
    ClusterRun.deferred steps ensured.cluster ensured.updates ensured.outcome
  else if ensured.cluster.Status.Phase = ClusterMinorFailure then
    let repair := RepairMembers r.members ensured.cluster now
    if repair.outcome.stops then
      ClusterRun.deferred (steps ++ [.RepairMembers]) repair.cluster
        (ensured.updates ++ repair.updates) repair.outcome
    else
      r.update (steps ++ [.RepairMembers]) repair.cluster (ensured.updates ++ repair.updates)
  else
    r.update steps ensured.cluster ensured.updates

/-- `func (r *ClusterReconciler) Reconcile(ctx, req) (ctrl.Result, error)`;
`get` is the outcome of `r.Get(ctx, req.NamespacedName, &cluster)`, `now` the
value of `time.Now()` in `RepairMembers`. -/
def ClusterReconciler.Reconcile (r : ClusterReconciler) (get : Except ApiError Cluster)
    (now : Time) : ClusterRun :=
  match get with
  | .error err =>
    { cluster := none, steps := [], updates := [], cleanup := none, statusUpdate := none,
      outcome := .ret {} (IgnoreNotFound (some err)) }
  | .ok cluster =>
    if cluster.Meta.DeletionTimestamp ≠ none then
      let run := CleanupSecrets r cluster
      { cluster := some run.cluster, steps := [.CleanupSecrets], updates := [],
        cleanup := some run, statusUpdate := none, outcome := run.outcome }
    else
      let cluster := if cluster.Status.Phase = "" then cluster.setPhase ClusterCreating else cluster
      if stops (EnsureBackupSchedule r cluster) then
        ClusterRun.deferred [.EnsureBackupSchedule] cluster []
          (.ret (EnsureBackupSchedule r cluster).1 (EnsureBackupSchedule r cluster).2)
      else if stops (EnsureService r cluster) then
        ClusterRun.deferred [.EnsureBackupSchedule, .EnsureService] cluster []
          (.ret (EnsureService r cluster).1 (EnsureService r cluster).2)
      else if stops (EnsureCA r cluster) then
        ClusterRun.deferred [.EnsureBackupSchedule, .EnsureService, .EnsureCA] cluster []
          (.ret (EnsureCA r cluster).1 (EnsureCA r cluster).2)
      else
        r.members_on cluster now

/-! ## controllers/member_controller.go -/

/-- A member as `etcd.MemberList` reports it. -/
structure EtcdMember where
  ID : Nat
  Name : String
deriving DecidableEq, Repr

/-- The stored Pod as the reconciler reads it: its creation timestamp, the
length of `pod.Spec.Containers`, and the `Ready` flag of each entry of
`pod.Status.ContainerStatuses`. -/
structure PodState where
  CreationTimestamp : Time := 0
  Containers : Nat := 0
  ContainerStatuses : List Bool := []
deriving DecidableEq, Repr

/-- The stored Certificate as the reconciler reads it: `cert.Status.NotBefore`,
a pointer that is nil until the certificate is issued. -/
structure CertificateState where
  NotBefore : Option Time := none
deriving DecidableEq, Repr

/-- `func (t *Time) IsZero() bool` of `metav1`, on a pointer that may be nil. -/
def CertificateState.NotBeforeIsZero (c : CertificateState) : Bool :=
  match c.NotBefore with
  | none => true
  | some t => decide (t = 0)

/-- The calls `MemberReconciler` makes.  `Update` and `StatusUpdate` are
`r.Update` and `r.Status().Update` on the member; `DeletePodObject` and
`DeletePVCObject` are `r.Delete` of the objects built by `member.GetPod()` and `member.GetPVC()`;
`EtcdNew endpoints` is `clientv3.New`, `MemberList endpoints`, `MemberRemove id`
and `MemberAdd peerURLs` are the calls on that client; `SetCertificateOwner`,
`SetPVCOwner` and `SetPodOwner` are `controllerutil.SetControllerReference` of
the member on the object built for it; `CreateOrUpdateCertificate member
suffix`, `CreateOrUpdatePVC` and `CreateOrUpdatePod` are
`controllerutil.CreateOrUpdate` of that object with the no-op mutate function
(and the object as stored); `GetPod name namespace` and `GetCertificate name
namespace` are `r.Get`. -/
structure MemberReconciler where
  Update : Member → Option ApiError
  StatusUpdate : Member → Option ApiError
  DeletePodObject : Member → Option ApiError
  DeletePVCObject : Member → Option ApiError
  EtcdNew : List String → error
  MemberList : List String → Except String (List EtcdMember)
  MemberRemove : Nat → error
  MemberAdd : List String → error
  SetCertificateOwner : Member → String → error
  CreateOrUpdateCertificate : Member → String → Except String CertificateState
  GetPod : String → String → Except ApiError PodState
  GetCertificate : String → String → Except ApiError CertificateState
  SetPVCOwner : Member → error
  CreateOrUpdatePVC : Member → Except String OperationResult
  SetPodOwner : Member → error
  CreateOrUpdatePod : Member → Except String (OperationResult × PodState)

/-- A write of the member issued on the API server. -/
inductive MemberWrite where
  | statusUpdate (member : Member)
  | update (member : Member)
deriving DecidableEq, Repr

/-- The steps `MemberReconciler.Reconcile` can run. -/
inductive MemberStep where
  | Repair
  | EnsureCertificates
  | CheckCertificateExpires
  | EnsurePVC
  | DeletePod
  | EnsurePod
deriving DecidableEq, Repr

/-- What a step of the Member reconcile leaves: the `*api.Member`, the writes
of the member it issued, and how it ended. -/
structure MemberStepRun where
  member : Member
  writes : List MemberWrite := []
  outcome : Outcome
deriving DecidableEq, Repr

/-- One run of `MemberReconciler.Reconcile`: the Member as the reconcile
leaves it (`none` when it could not be fetched), the steps it ran in order, the
writes of the member it issued, the deferred status update included, and how
it ended. -/
structure MemberRun where
  member : Option Member
  steps : List MemberStep
  writes : List MemberWrite
  outcome : Outcome
deriving DecidableEq, Repr

/-- `func (r *MemberReconciler) DeletePod(ctx, member) (ctrl.Result, error)`. -/
def DeletePod (r : MemberReconciler) (member : Member) : Result × error :=
  match r.DeletePodObject member with
  | some err => if ¬ err.IsNotFound then ({}, some err.msg) else ({}, none)
  | none => (Requeue, none)

/-- `func (r *MemberReconciler) DeletePVC(ctx, member) (ctrl.Result, error)`. -/
def DeletePVC (r : MemberReconciler) (member : Member) : Result × error :=
  match r.DeletePVCObject member with
  | some err => if ¬ err.IsNotFound then ({}, some err.msg) else ({}, none)
  | none => (Requeue, none)

/-- The loop of `ReaddToCluster` over `resp.Members`, followed by the call of
`MemberAdd`. -/
def ReaddToCluster.loop (r : MemberReconciler) (member : Member) : List EtcdMember → Result × error
  | [] =>
    match r.MemberAdd [member.GetAdvertisePeerURL] with
    | some err => ({}, some err)
    | none => ({}, none)
  | m :: rest =>
    if m.Name ≠ member.Meta.Name then
      ReaddToCluster.loop r member rest
    else
      match r.MemberRemove m.ID with
      | some err => ({}, some err)
      | none => ReaddToCluster.loop r member rest

/-- `func (r *MemberReconciler) ReaddToCluster(ctx, member) (ctrl.Result, error)`. -/
def ReaddToCluster (r : MemberReconciler) (member : Member) : Result × error :=
  match r.EtcdNew member.GetEndpoints with
  | some err => ({}, some err)
  | none =>
    match r.MemberList member.GetEndpoints with
    | .error err => ({}, some err)
    | .ok members => ReaddToCluster.loop r member members

/-- `func (r *MemberReconciler) Repair(ctx, member) (ctrl.Result, error)`; the
errors of its two writes are only logged. -/
def Repair (r : MemberReconciler) (member : Member) : MemberStepRun :=
  if stops (DeletePod r member) then
    { member := member, outcome := .ret (DeletePod r member).1 (DeletePod r member).2 }
  else if stops (DeletePVC r member) then
    { member := member, outcome := .ret (DeletePVC r member).1 (DeletePVC r member).2 }
  else if stops (ReaddToCluster r member) then
    { member := member, outcome := .ret (ReaddToCluster r member).1 (ReaddToCluster r member).2 }
  else
    let recreating : Member :=
      { member with Status := { member.Status with Phase := MemberRecreating, FailedTime := 0 } }
    let repaired := recreating.setBroken false
    { member := repaired
      writes := [.statusUpdate recreating, .update repaired]
      outcome := .ret {} none }

/-- The loop of `EnsureCertificates` over the suffixes, on the variable
`prepare`, followed by the code after the loop. -/
def EnsureCertificates.loop (r : MemberReconciler) (member : Member) :
    List String → Bool → Result × error
  | [], prepare => if prepare then (Requeue, none) else ({}, none)
  | suffix :: rest, prepare =>
    match r.SetCertificateOwner member suffix with
    | some err => ({}, some err)
    | none =>
      match r.CreateOrUpdateCertificate member suffix with
      | .error err => ({}, some err)
      | .ok cert => EnsureCertificates.loop r member rest (prepare || cert.NotBeforeIsZero)

/-- `func (r *MemberReconciler) EnsureCertificates(ctx, member) (ctrl.Result, error)`. -/
def EnsureCertificates (r : MemberReconciler) (member : Member) : Result × error :=
  EnsureCertificates.loop r member ["client", "peer"] false

/-- `func (r *MemberReconciler) EnsurePVC(ctx, member) (ctrl.Result, error)`. -/
def EnsurePVC (r : MemberReconciler) (member : Member) : Result × error :=
  if ¬ member.IsCreating then
    ({}, none)
  else
    match r.SetPVCOwner member with
    | some err => ({}, some err)
    | none =>
      match r.CreateOrUpdatePVC member with
      | .error err => ({}, some err)
      | .ok opResult => if opResult = .created then (Requeue, none) else ({}, none)

/-- `func (r *MemberReconciler) EnsurePod(ctx, member) (ctrl.Result, error)`,
with `now` the value of `metav1.Now()` in `SetFailed`. -/
def EnsurePod (r : MemberReconciler) (member : Member) (now : Time) : MemberStepRun :=
  match r.SetPodOwner member with
  | some err => { member := member, outcome := .ret {} (some err) }
  | none =>
    match r.CreateOrUpdatePod member with
    | .error err => { member := member, outcome := .ret {} (some err) }
    | .ok (opResult, pod) =>
      if opResult = .created then
        if member.Status.Phase = MemberRunning then
          { member := member.SetFailed now, outcome := .ret Requeue none }
        else
          { member := member, outcome := .ret Requeue none }
      else
        let ready :=
          pod.ContainerStatuses.foldl (fun ready status => ready && status)
            (decide (pod.ContainerStatuses.length = pod.Containers))
        if member.Status.Phase = MemberRunning ∧ ¬ ready then
          { member := member.SetFailed now, outcome := .ret {} none }
        else if ready then
          { member :=
              { member with
                Status :=
                  { member.Status with Phase := MemberRunning, Version := member.Spec.Version } }
            outcome := .ret {} none }
        else
          { member := member, outcome := .ret {} none }

/-- The loop of `CheckCertificateExpires` over the suffixes; `After` is `>`, and
calling it through a nil `NotBefore` is a panic. -/
def CheckCertificateExpires.loop (r : MemberReconciler) (pod : PodState) :
    List String → Member → MemberStepRun
  | [], member => { member := member, outcome := .ret {} none }
  | suffix :: rest, member =>
    match r.GetCertificate (member.GetCertificateName suffix) member.Meta.Namespace with
    | .error err => { member := member, outcome := .ret {} (IgnoreNotFound (some err)) }
    | .ok cert =>
      match cert.NotBefore with
      | none => { member := member, outcome := .panic }
      | some notBefore =>
        if notBefore > pod.CreationTimestamp then
          CheckCertificateExpires.loop r pod rest
            { member with Status := { member.Status with CertificateExpires := true } }
        else
          CheckCertificateExpires.loop r pod rest
            { member with Status := { member.Status with CertificateExpires := false } }

/-- `func (r *MemberReconciler) CheckCertificateExpires(ctx, member) (ctrl.Result, error)`. -/
def CheckCertificateExpires (r : MemberReconciler) (member : Member) : MemberStepRun :=
  match r.GetPod member.Meta.Name member.Meta.Namespace with
  | .error err => { member := member, outcome := .ret {} (IgnoreNotFound (some err)) }
  | .ok pod => CheckCertificateExpires.loop r pod ["client", "peer"] member

/-- A return of `Reconcile` past the `defer`: the status update is issued with
the member as it then is, and its error is only logged. -/
def MemberRun.deferred (steps : List MemberStep) (member : Member) (writes : List MemberWrite)
    (outcome : Outcome) : MemberRun :=
  { member := some member, steps := steps, writes := writes ++ [.statusUpdate member],
    outcome := outcome }

/-- `Reconcile` from the call of `EnsurePod` to its end. -/
def MemberReconciler.pod_on (r : MemberReconciler) (steps : List MemberStep) (member : Member)
    (writes : List MemberWrite) (now : Time) : MemberRun :=
  let pod := EnsurePod r member now
  if pod.outcome.stops then
    MemberRun.deferred (steps ++ [.EnsurePod]) pod.member writes pod.outcome
  else
    MemberRun.deferred (steps ++ [.EnsurePod]) pod.member writes (.ret {} none)

/-- `Reconcile` from the call of `EnsureCertificates` to its end. -/
def MemberReconciler.certificates_on (r : MemberReconciler) (steps : List MemberStep)
    (member : Member) (writes : List MemberWrite) (now : Time) : MemberRun :=
  if stops (EnsureCertificates r member) then
    MemberRun.deferred (steps ++ [.EnsureCertificates]) member writes
      (.ret (EnsureCertificates r member).1 (EnsureCertificates r member).2)
  else
    let check := CheckCertificateExpires r member
    let steps := steps ++ [.EnsureCertificates, .CheckCertificateExpires]
    if check.outcome.stops then
      MemberRun.deferred steps check.member writes check.outcome
    else if stops (EnsurePVC r check.member) then
      MemberRun.deferred (steps ++ [.EnsurePVC]) check.member writes
        (.ret (EnsurePVC r check.member).1 (EnsurePVC r check.member).2)
    else if check.member.ShouldUpdate then
      if stops (DeletePod r check.member) then
        MemberRun.deferred (steps ++ [.EnsurePVC, .DeletePod]) check.member writes
          (.ret (DeletePod r check.member).1 (DeletePod r check.member).2)
      else
        r.pod_on (steps ++ [.EnsurePVC, .DeletePod])
          { check.member with Status := { check.member.Status with Phase := MemberUpdating } }
          writes now
    else
      r.pod_on (steps ++ [.EnsurePVC]) check.member writes now

/-- `func (r *MemberReconciler) Reconcile(ctx, req) (ctrl.Result, error)`; `get`
is the outcome of `r.Get(ctx, req.NamespacedName, &member)`, `now` the value of
`metav1.Now()` in `SetFailed`. -/
def MemberReconciler.Reconcile (r : MemberReconciler) (get : Except ApiError Member)
    (now : Time) : MemberRun :=
  match get with
  | .error err =>
    { member := none, steps := [], writes := [], outcome := .ret {} (IgnoreNotFound (some err)) }
  | .ok member =>
    if member.Meta.DeletionTimestamp ≠ none then
      { member := some member, steps := [], writes := [], outcome := .ret {} none }
    else if member.Spec.Broken then
      let repair := Repair r member
      if repair.outcome.stops then
        MemberRun.deferred [.Repair] repair.member repair.writes repair.outcome
      else
        r.certificates_on [.Repair] repair.member repair.writes now
    else
      r.certificates_on [] member [] now

/-! ## api/v1alpha1 : the objects built for a Cluster and for a Member -/

/-- The `cmmeta.ObjectReference` of a certificate's issuer. -/
structure ObjectReference where
  Name : String := ""
  Kind : String := ""
  Group : String := ""
deriving DecidableEq, Repr

/-- A cert-manager `Certificate`, with the fields of its spec that the operator
sets: the secret template is reduced to its labels, the private key to its
rotation policy, algorithm, encoding and size. -/
structure Certificate where
  Meta : ObjectMeta := {}
  IsCA : Bool := false
  CommonName : String := ""
  SecretName : String := ""
  SecretLabels : List (String × String) := []
  KeyRotationPolicy : String := ""
  KeyAlgorithm : String := ""
  KeyEncoding : String := ""
  KeySize : Int := 0
  IssuerRef : ObjectReference := {}
  DNSNames : List String := []
deriving DecidableEq, Repr

/-- A cert-manager `Issuer` of kind CA: the secret that holds the CA. -/
structure Issuer where
  Meta : ObjectMeta := {}
  CASecretName : String := ""
deriving DecidableEq, Repr

/-- A `corev1.Service`, with the fields the operator sets. -/
structure Service where
  Meta : ObjectMeta := {}
  Selector : List (String × String) := []
  ClusterIP : String := ""
  PublishNotReadyAddresses : Bool := false
  Ports : List (String × Int) := []
deriving DecidableEq, Repr

/-- A `corev1.PersistentVolumeClaim`, with the fields the operator sets. -/
structure PersistentVolumeClaim where
  Meta : ObjectMeta := {}
  AccessModes : List String := []
  StorageRequest : String := ""
deriving DecidableEq, Repr

/-- A `corev1.VolumeMount`. -/
structure VolumeMount where
  MountPath : String
  Name : String
deriving DecidableEq, Repr

/-- The HTTP readiness probe of a container. -/
structure Probe where
  Path : String
  Port : Int
  Scheme : String
deriving DecidableEq, Repr

/-- A `corev1.Container`, with the fields the operator sets. -/
structure Container where
  Name : String := ""
  Image : String := ""
  ReadinessProbe : Option Probe := none
  Ports : List Int := []
  Command : List String := []
  Args : List String := []
  VolumeMounts : List VolumeMount := []
deriving DecidableEq, Repr

/-- The source of a pod volume: a volume claim or a secret, by name. -/
inductive VolumeSource where
  | persistentVolumeClaim (claimName : String)
  | secret (secretName : String)
deriving DecidableEq, Repr

/-- A `corev1.Volume`. -/
structure Volume where
  Name : String
  Source : VolumeSource
deriving DecidableEq, Repr

/-- A `corev1.Pod`, with the fields the operator sets. -/
structure Pod where
  Meta : ObjectMeta := {}
  Hostname : String := ""
  Subdomain : String := ""
  InitContainers : List Container := []
  Containers : List Container := []
  Volumes : List Volume := []
deriving DecidableEq, Repr

/-- `func (in *Cluster) GetCASecretName() string`. -/
def Cluster.GetCASecretName (c : Cluster) : String :=
  c.Meta.Name ++ "-ca"

/-- `func (in *Cluster) GetCommonName() string`. -/
def Cluster.GetCommonName (c : Cluster) : String :=
  c.Meta.Name ++ "." ++ c.Meta.Namespace ++ ".svc.cluster.local"

/-- `func (in *Cluster) GetCACertificate(clusterIssuer string) *certv1.Certificate`. -/
def Cluster.GetCACertificate (c : Cluster) (clusterIssuer : String) : Certificate :=
  { Meta :=
      { Name := c.Meta.Name
        Namespace := c.Meta.Namespace
        Finalizers := [FinalizerDeleteDependents] }
    IsCA := true
    CommonName := c.GetCommonName
    SecretName := c.GetCASecretName
    SecretLabels := [(ClusterLabel, c.Meta.Name)]
    KeyAlgorithm := "ECDSA"
    KeySize := 256
    IssuerRef := { Name := clusterIssuer, Kind := "ClusterIssuer", Group := "cert-manager.io" } }

/-- `func (in *Cluster) GetCAIssuer() *certv1.Issuer`. -/
def Cluster.GetCAIssuer (c : Cluster) : Issuer :=
  { Meta :=
      { Name := c.Meta.Name
        Namespace := c.Meta.Namespace
        Finalizers := [FinalizerDeleteDependents] }
    CASecretName := c.GetCASecretName }

/-- `func (in *Cluster) GetService() *corev1.Service`. -/
def Cluster.GetService (c : Cluster) : Service :=
  { Meta :=
      { Name := c.Meta.Name
        Namespace := c.Meta.Namespace
        Finalizers := [FinalizerDeleteDependents] }
    Selector := [("name", c.Meta.Name)]
    ClusterIP := "None"
    PublishNotReadyAddresses := true
    Ports := [("etcd-server-ssl", 2380), ("etcd-client-ssl", 2379)] }

/-- `func (in *Cluster) GetBackupSchedule() *BackupSchedule`. -/
def Cluster.GetBackupSchedule (c : Cluster) : BackupSchedule :=
  { Meta :=
      { Name := c.Meta.Name
        Namespace := c.Meta.Namespace
        Finalizers := [FinalizerDeleteDependents] }
    Spec :=
      { CreationPeriod := c.Spec.BackupCreationPeriod
        RetentionPeriod := c.Spec.BackupRetentionPeriod } }

/-- `func (in Member) GetFQDN() string`. -/
def Member.GetFQDN (m : Member) : String :=
  MemberFQDN m.Meta.Name m.Meta.Namespace m.Spec.ClusterName

/-- `func (in Member) GetCertificate(suffix string) *certv1.Certificate`. -/
def Member.GetCertificate (m : Member) (suffix : String) : Certificate :=
  { Meta :=
      { Name := m.GetCertificateName suffix
        Namespace := m.Meta.Namespace
        Finalizers := [FinalizerDeleteDependents] }
    SecretName := m.Meta.Name ++ "-" ++ suffix
    SecretLabels := [(ClusterLabel, m.Spec.ClusterName)]
    KeyRotationPolicy := "Always"
    KeyAlgorithm := "RSA"
    KeyEncoding := "PKCS1"
    KeySize := 2048
    IssuerRef := { Name := m.Spec.ClusterName, Kind := "Issuer", Group := "cert-manager.io" }
    DNSNames := [m.GetFQDN] }

/-- `func (in Member) GetPVC() *corev1.PersistentVolumeClaim`. -/
def Member.GetPVC (m : Member) : PersistentVolumeClaim :=
  { Meta :=
      { Name := m.Meta.Name
        Namespace := m.Meta.Namespace
        Labels := [("name", m.Spec.ClusterName)]
        Finalizers := [FinalizerDeleteDependents] }
    AccessModes := ["ReadWriteOnce"]
    StorageRequest := "30Gi" }

/-- `func (in Member) GetDataVolumeName() string`. -/
def Member.GetDataVolumeName (_m : Member) : String := "data"

/-- `func (in Member) GetDataPath() string`. -/
def Member.GetDataPath (_m : Member) : String := "/var/lib/etcd"

/-- `func (in Member) GetPeerCertVolumeName() string`. -/
def Member.GetPeerCertVolumeName (_m : Member) : String := "peer-cert"

/-- `func (in Member) GetPeerCertSecret() string`. -/
def Member.GetPeerCertSecret (m : Member) : String :=
  m.Meta.Name ++ "-peer"

/-- `func (in Member) GetPeerCertPath() string`. -/
def Member.GetPeerCertPath (_m : Member) : String := "/var/lib/ssl/peer"

/-- `func (in Member) GetClientCertVolumeName() string`. -/
def Member.GetClientCertVolumeName (_m : Member) : String := "client-cert"

/-- `func (in Member) GetClientCertPath() string`. -/
def Member.GetClientCertPath (_m : Member) : String := "/var/lib/ssl/client"

/-- `func (in Member) GetClientCertSecret() string`. -/
def Member.GetClientCertSecret (m : Member) : String :=
  m.Meta.Name ++ "-client"

/-- `func (in Member) GetProbe() *corev1.Probe`. -/
def Member.GetProbe (_m : Member) : Probe :=
  { Path := "/health", Port := 2379, Scheme := "HTTPS" }

/-- `func (in Member) GetImage() string`. -/
def Member.GetImage (m : Member) : String :=
  "quay.io/coreos/etcd:v" ++ m.Spec.Version

/-- `func (in Member) GetAdvertiseClientURL() string`. -/
def Member.GetAdvertiseClientURL (m : Member) : String :=
  AdvertiseClientURL m.Meta.Name m.Meta.Namespace m.Spec.ClusterName

/-- `func (in Member) GetCluster() string`; `strings.Join(urls, ",")`. -/
def Member.GetCluster (m : Member) : String :=
  ",".intercalate
    (m.Spec.Members.map
      (fun member => member ++ "=" ++ AdvertisePeerURL member m.Meta.Namespace m.Spec.ClusterName))

/-- `func (in Member) GetState() string`. -/
def Member.GetState (m : Member) : String :=
  if m.Status.Phase = MemberRecreating then "existing" else "new"

/-- `path.Join(dir, file)` of the Go library for a clean directory path and a
file name, the only way the operator calls it on certificates. -/
def joinPath (dir file : String) : String :=
  dir ++ "/" ++ file

/-- `func (in Member) GetInitContainers() []corev1.Container`. -/
def Member.GetInitContainers (m : Member) : List Container :=
  if m.Spec.Backup = "" ∨ m.Status.Phase = MemberRecreating then
    []
  else
    [{ Name := "etcd-restore"
       Image := m.GetImage
       Command := ["/usr/local/bin/etcdctl"]
       Args :=
         ["snapshot", "restore", "snapshot.db",
          "--name", m.Meta.Name,
          "--initial-cluster", m.GetCluster,
          "--initial-cluster-token", m.Spec.ClusterToken,
          "--initial-advertise-peer-urls", m.GetAdvertisePeerURL,
          "--data-dir", m.GetDataPath]
       VolumeMounts := [{ MountPath := m.GetDataPath, Name := m.GetDataVolumeName }] }]

/-- `func (in Member) GetContainers() []corev1.Container`. -/
def Member.GetContainers (m : Member) : List Container :=
  [{ Name := "etcd"
     Image := m.GetImage
     ReadinessProbe := some m.GetProbe
     Ports := [2379, 2380]
     Command := ["/usr/local/bin/etcd"]
     Args :=
       ["--name", m.Meta.Name,
        "--initial-advertise-peer-urls", m.GetAdvertisePeerURL,
        "--listen-peer-urls", "https://0.0.0.0:2380",
        "--advertise-client-urls", m.GetAdvertiseClientURL,
        "--listen-client-urls", "https://0.0.0.0:2379",
        "--initial-cluster", m.GetCluster,
        "--initial-cluster-state", m.GetState,
        "--initial-cluster-token", m.Spec.ClusterToken,
        "--data-dir", m.GetDataPath,
        "--peer-client-cert-auth",
        "--peer-trusted-ca-file", joinPath m.GetPeerCertPath "ca.crt",
        "--peer-cert-file", joinPath m.GetPeerCertPath "tls.crt",
        "--peer-key-file", joinPath m.GetPeerCertPath "tls.key",
        "--cert-file", joinPath m.GetClientCertPath "tls.crt",
        "--key-file", joinPath m.GetClientCertPath "tls.key"]
     VolumeMounts :=
       [{ MountPath := m.GetDataPath, Name := m.GetDataVolumeName },
        { MountPath := m.GetPeerCertPath, Name := m.GetPeerCertVolumeName },
        { MountPath := m.GetClientCertPath, Name := m.GetClientCertVolumeName }] }]

/-- `func (in Member) GetPod() *corev1.Pod`. -/
def Member.GetPod (m : Member) : Pod :=
  { Meta :=
      { Name := m.Meta.Name
        Namespace := m.Meta.Namespace
        Labels := [("name", m.Spec.ClusterName)]
        Finalizers := [FinalizerDeleteDependents] }
    Hostname := m.Meta.Name
    Subdomain := m.Spec.ClusterName
    InitContainers := m.GetInitContainers
    Containers := m.GetContainers
    Volumes :=
      [{ Name := m.GetDataVolumeName, Source := .persistentVolumeClaim m.Meta.Name },
       { Name := m.GetPeerCertVolumeName, Source := .secret m.GetPeerCertSecret },
       { Name := m.GetClientCertVolumeName, Source := .secret m.GetClientCertSecret }] }

/-! ## cmd/etcdops/update.go -/

/-- The flags of `etcdops update`; a flag that was not given has its zero
value. -/
structure updateParams where
  size : Int := 0
  version : String := ""
  backupCreationPeriod : Duration := 0
  backupRetentionPeriod : Duration := 0
deriving DecidableEq, Repr

/-- The calls `update` makes: `Get name namespace` and `Update` on the API
client, and `Wait`, the watch for the updated cluster followed by the printing
of what it yields. -/
structure CliClient where
  Namespace : String
  Get : String → String → Except ApiError Cluster
  Update : Cluster → error
  Wait : Cluster → error

/-- `func update(cmd *cobra.Command, args []string) error`, from `client.Get`
on, with `name := args[0]`: the cluster passed to `client.Update`, if any, and
the error returned. -/
def update (client : CliClient) (up : updateParams) (name : String) : Option Cluster × error :=
  match client.Get name client.Namespace with
  | .error err =>
    if err.IsNotFound then
      (none, some ("cluster " ++ String.singleton (Char.ofNat 34) ++ name ++
        String.singleton (Char.ofNat 34) ++ " not found"))
    else
      (none, some err.msg)
  | .ok cluster =>
    let cluster :=
      if up.size ≠ 0 then { cluster with Spec := { cluster.Spec with Size := up.size } }
      else cluster
    let cluster :=
      if up.version ≠ "" then { cluster with Spec := { cluster.Spec with Version := up.version } }
      else cluster
    let cluster :=
      if up.backupRetentionPeriod ≠ 0 then
        { cluster with
          Spec := { cluster.Spec with BackupRetentionPeriod := up.backupRetentionPeriod } }
      else cluster
    let cluster :=
      if up.backupCreationPeriod ≠ 0 then
        { cluster with
          Spec := { cluster.Spec with BackupRetentionPeriod := up.backupRetentionPeriod } }
      else cluster
    match client.Update cluster with
    | some err => (some cluster, some err)
    | none => (some cluster, client.Wait cluster)

/-! ## Vocabulary of the statements -/

/-- The Member that `EnsureMember` hands back for member number `i`, `none` when
the call fails. -/
def memberAt (cl : Client) (cluster : Cluster) (i : Nat) : Option Member :=
  (EnsureMember cl cluster (i : Int)).1

/-- Member number `i` is there and satisfies `p`. -/
def memberHas (cl : Client) (cluster : Cluster) (p : Member → Bool) (i : Nat) : Bool :=
  match memberAt cl cluster i with
  | some m => p m
  | none => false

/-- The number of members among `0 .. Size-1` that satisfy `p`. -/
def countMembers (cl : Client) (cluster : Cluster) (p : Member → Bool) : Int :=
  ((List.range cluster.Spec.Size.toNat).countP (memberHas cl cluster p) : Nat)

/-- Phase `Failed`. -/
def Member.isFailed (m : Member) : Bool :=
  decide (m.Status.Phase = MemberFailed)

/-- Counted as creating by `EnsureMembers`: not `Failed`, and `IsCreating`. -/
def Member.isCreatingNotFailed (m : Member) : Bool :=
  !m.isFailed && m.IsCreating

/-- Neither `Failed` nor creating. -/
def Member.isHealthy (m : Member) : Bool :=
  !m.isFailed && !m.IsCreating

/-- The member asks for, or reports the need of, a certificate rotation. -/
def Member.certificateFlag (m : Member) : Bool :=
  m.Status.CertificateExpires || m.Spec.CertificateUpdate

/-- Creating, or already marked broken: what makes `RepairMembers` wait. -/
def Member.isUnsettled (m : Member) : Bool :=
  m.IsCreating || m.Spec.Broken

/-- Member number `i` as the API server holds it after the `r.Update` calls
`updates`, when it held `m` before: the object of the last successful call
issued for member `i`. -/
def persisted (cl : Client) (updates : List (Nat × Member)) (i : Nat) (m : Member) : Member :=
  updates.foldl (fun cur e => if e.1 = i ∧ cl.Update e.2 = none then e.2 else cur) m

/-- The call writes a `spec.version` other than the one `EnsureMember` read for
that member. -/
def versionChanged (cl : Client) (cluster : Cluster) (e : Nat × Member) : Bool :=
  match memberAt cl cluster e.1 with
  | some m => decide (e.2.Spec.Version ≠ m.Spec.Version)
  | none => true

/-- The step returned `ctrl.Result{}` and a nil error. -/
def Outcome.isDone (o : Outcome) : Bool :=
  match o with
  | .ret result none => result.IsZero
  | _ => false

/-- The aggregate phase as the specification tabulates it, from the number of
failed and of creating members and the cluster size. -/
def referencePhase (failed creating size : Int) : ClusterPhase :=
  if failed = 0 ∧ creating = 0 then ClusterRunning
  else if failed = 0 ∧ creating > 0 then ClusterCreating
  else if failed > 0 ∧ 2 * (failed + creating) < size then ClusterMinorFailure
  else ClusterFailed

/-! ## Concrete inputs -/

/-- A cluster accepted on creation although its size is negative. -/
def negativeSizeCluster : Cluster :=
  { Meta := { Name := "c" }, Spec := { Version := "3.5.6", Size := -1 } }

/-- A three-member cluster. -/
def cluster3 : Cluster :=
  { Meta := { Name := "c", Namespace := "default", UID := "uid-1" }
    Spec := { Version := "3.5.6", Size := 3 } }

/-- An API server that holds the given Member objects by name and never fails:
`CreateOrUpdate` hands back the stored object, or the desired one, just
created, when none is stored. -/
def storedClient (stored : String → Option Member) : Client :=
  { SetControllerReference := fun _ m => .ok m
    CreateOrUpdate := fun m =>
      match stored m.Meta.Name with
      | some x => .ok x
      | none => .ok m
    Update := fun _ => none }

/-- A member of `cluster3` with the given name, phase, time of failure and
versions. -/
def member3 (name : String) (phase : MemberPhase) (failedTime : Time) (specVersion : String)
    (statusVersion : String) : Member :=
  { Meta := { Name := name, Namespace := "default" }
    Spec := { Version := specVersion, ClusterName := "c", ClusterToken := "uid-1" }
    Status := { Version := statusVersion, Phase := phase, FailedTime := failedTime } }

/-- Member `c-0` has failed, `c-1` and `c-2` are running. -/
def oneFailedOfThree : String → Option Member := fun name =>
  if name = "c-0" then some (member3 "c-0" MemberFailed 5 "3.5.6" "3.5.6")
  else if name = "c-1" then some (member3 "c-1" MemberRunning 0 "3.5.6" "3.5.6")
  else if name = "c-2" then some (member3 "c-2" MemberRunning 0 "3.5.6" "3.5.6")
  else none

/-- The three-member cluster as stored, in phase Running. -/
def runningCluster3 : Cluster :=
  { cluster3 with Status := { Phase := ClusterRunning, Version := "3.5.6" } }

/-- An edit of `runningCluster3` that asks for version 3.5.7 and other backup
periods. -/
def upgradedCluster3 : Cluster :=
  { runningCluster3 with
    Spec :=
      { runningCluster3.Spec with
        Version := "3.5.7", BackupCreationPeriod := 3600, BackupRetentionPeriod := 7200 } }

/-- A two-member cluster: admission rejects it on creation, the reconciler
handles it like any other. -/
def cluster2 : Cluster :=
  { Meta := { Name := "c", Namespace := "default", UID := "uid-2" }
    Spec := { Version := "3.5.6", Size := 2 } }

/-- Member `c-0` has failed at time 5, `c-1` is running. -/
def oneFailedOfTwo : String → Option Member := fun name =>
  if name = "c-0" then some (member3 "c-0" MemberFailed 5 "3.5.6" "3.5.6")
  else if name = "c-1" then some (member3 "c-1" MemberRunning 0 "3.5.6" "3.5.6")
  else none

/-- Member `c-0` has failed at time 5, `c-1` is being created, `c-2` is
running. -/
def oneCreatingOfThree : String → Option Member := fun name =>
  if name = "c-0" then some (member3 "c-0" MemberFailed 5 "3.5.6" "3.5.6")
  else if name = "c-1" then some (member3 "c-1" MemberCreating 0 "3.5.6" "")
  else if name = "c-2" then some (member3 "c-2" MemberRunning 0 "3.5.6" "3.5.6")
  else none

/-- All three members have failed at time 5. -/
def allFailedOfThree : String → Option Member := fun name =>
  if name = "c-0" then some (member3 "c-0" MemberFailed 5 "3.5.6" "3.5.6")
  else if name = "c-1" then some (member3 "c-1" MemberFailed 5 "3.5.6" "3.5.6")
  else if name = "c-2" then some (member3 "c-2" MemberFailed 5 "3.5.6" "3.5.6")
  else none

/-- Every member runs the cluster's version. -/
def allRunningOfThree : String → Option Member := fun name =>
  if name = "c-0" then some (member3 "c-0" MemberRunning 0 "3.5.6" "3.5.6")
  else if name = "c-1" then some (member3 "c-1" MemberRunning 0 "3.5.6" "3.5.6")
  else if name = "c-2" then some (member3 "c-2" MemberRunning 0 "3.5.6" "3.5.6")
  else none

/-- A rolling update to 3.5.6 under way: `c-0` has converged, `c-1` and `c-2`
still run 3.5.5. -/
def rollingOfThree : String → Option Member := fun name =>
  if name = "c-0" then some (member3 "c-0" MemberRunning 0 "3.5.6" "3.5.6")
  else if name = "c-1" then some (member3 "c-1" MemberRunning 0 "3.5.5" "3.5.5")
  else if name = "c-2" then some (member3 "c-2" MemberRunning 0 "3.5.5" "3.5.5")
  else none

/-- The cluster asks for 3.5.6; `c-0` still runs 3.5.5 with spec 3.5.5, while
`c-1` is in phase Updating (its spec was set to an earlier target, 3.5.5-r1,
and its pod is being replaced). -/
def laterUpdatingOfThree : String → Option Member := fun name =>
  if name = "c-0" then some (member3 "c-0" MemberRunning 0 "3.5.5" "3.5.5")
  else if name = "c-1" then some (member3 "c-1" MemberUpdating 0 "3.5.5-r1" "3.5.5")
  else if name = "c-2" then some (member3 "c-2" MemberRunning 0 "3.5.5" "3.5.5")
  else none

/-- The cluster `c`, asking for 3.5.6, as stored in the middle of the rolling
update from 3.5.5: phase Updating, observed version 3.5.5. -/
def rollingCluster3 : Cluster :=
  { cluster3 with Status := { Phase := ClusterUpdating, Version := "3.5.5" } }

/-- That rolling update under way: `c-0` has converged to 3.5.6, the spec of
`c-1` was set to 3.5.6 and its pod is being replaced (phase Updating), `c-2`
still runs 3.5.5. -/
def midRollOfThree : String → Option Member := fun name =>
  if name = "c-0" then some (member3 "c-0" MemberRunning 0 "3.5.6" "3.5.6")
  else if name = "c-1" then some (member3 "c-1" MemberUpdating 0 "3.5.6" "3.5.5")
  else if name = "c-2" then some (member3 "c-2" MemberRunning 0 "3.5.5" "3.5.5")
  else none

/-- The cluster `c`, asking for 3.5.6, stored in phase Running with observed
version 3.5.5. -/
def outdatedCluster3 : Cluster :=
  { cluster3 with Status := { Phase := ClusterRunning, Version := "3.5.5" } }

/-- An edit of `outdatedCluster3` that asks for version 3.5.7. -/
def reupgradedCluster3 : Cluster :=
  { outdatedCluster3 with Spec := { outdatedCluster3.Spec with Version := "3.5.7" } }

/-- Every member runs 3.5.5; `c-0` has failed at time 5. -/
def oneFailedOutdatedOfThree : String → Option Member := fun name =>
  if name = "c-0" then some (member3 "c-0" MemberFailed 5 "3.5.5" "3.5.5")
  else if name = "c-1" then some (member3 "c-1" MemberRunning 0 "3.5.5" "3.5.5")
  else if name = "c-2" then some (member3 "c-2" MemberRunning 0 "3.5.5" "3.5.5")
  else none

/-- Every member runs 3.5.5, none has failed. -/
def allOutdatedOfThree : String → Option Member := fun name =>
  if name = "c-0" then some (member3 "c-0" MemberRunning 0 "3.5.5" "3.5.5")
  else if name = "c-1" then some (member3 "c-1" MemberRunning 0 "3.5.5" "3.5.5")
  else if name = "c-2" then some (member3 "c-2" MemberRunning 0 "3.5.5" "3.5.5")
  else none

/-- The cluster `c`, asking for 3.5.6, stored in phase MinorFailure with
observed version 3.5.6. -/
def minorFailureCluster3 : Cluster :=
  { cluster3 with Status := { Phase := ClusterMinorFailure, Version := "3.5.6" } }

/-- Phase `Updating`. -/
def Member.isUpdating (m : Member) : Bool :=
  decide (m.Status.Phase = MemberUpdating)

/-- A reading of `time.Now()`, long after time 5. -/
def someNow : Time := 1000000000000

/-- The text `sub` occurs in `s`. -/
def containsText (s sub : String) : Prop :=
  ∃ pre post : String, s = pre ++ sub ++ post

/-- Some listed Backup has a zero `finishedTime`. -/
def anyInProgress (backups : List Backup) : Bool :=
  backups.any (fun b => decide (b.Status.Finished = 0))

/-- The latest `finishedTime` among the listed Backups, the zero time when
there is none (or none after the zero time). -/
def latestFinished (backups : List Backup) : Time :=
  backups.foldl (fun t b => max t b.Status.Finished) 0

/-- An edit of `runningCluster3` that asks for five members. -/
def resizedCluster3 : Cluster :=
  { runningCluster3 with Spec := { runningCluster3.Spec with Size := 5 } }

/-- An API server that holds the given Member objects by name and fails every
call for the member named `down`. -/
def flakyClient (stored : String → Option Member) (down : String) : Client :=
  { SetControllerReference := fun _ m => .ok m
    CreateOrUpdate := fun m =>
      if m.Meta.Name = down then .error "the server is currently unable to handle the request"
      else
        match stored m.Meta.Name with
        | some x => .ok x
        | none => .ok m
    Update := fun _ => none }

/-- The schedule of cluster `c`: a Backup every hour, kept for two hours. -/
def hourly : BackupSchedule :=
  { Meta := { Name := "c", Namespace := "default" }
    Spec := { CreationPeriod := 3600000000000, RetentionPeriod := 7200000000000 } }

/-- A time of day in 2022, in nanoseconds from the zero time. -/
def noon : Time := 63800000000000000000

/-- A Backup of cluster `c` with the given name, creation and finish time. -/
def backupOf (name : String) (created finished : Time) : Backup :=
  { Meta :=
      { Name := name, Namespace := "default", Labels := [(ClusterLabel, "c")]
        CreationTimestamp := created }
    Spec := { RetentionPeriod := 7200000000000 }
    Status := { Finished := finished, URL := if finished = 0 then "" else "s3://bucket/" ++ name } }

/-- An API server that lists the given Backups for every schedule and accepts
every creation. -/
def listing (backups : List Backup) : BackupScheduleReconciler :=
  { ListBackups := fun _ _ => .ok backups
    Create := fun _ => none }

/-- A working object store and quorum: every call succeeds; keys are the
non-empty path elements joined by a slash. -/
def objectStore : BackupReconciler :=
  { S3Bucket := "bucket"
    S3Prefix := "etcd"
    pathJoin := fun elems => "/".intercalate (elems.filter (fun e => decide (e ≠ "")))
    GetCluster := fun _ _ => .ok cluster3
    EtcdNew := fun _ => none
    EtcdSnapshot := fun _ => (some "snapshot", none)
    Upload := fun bucket key _ => .ok ("https://" ++ bucket ++ "/" ++ key)
    DeleteObject := fun _ _ => none
    Delete := fun _ => none
    StatusUpdate := fun _ => none }

/-- The key under which `UploadBackup` and `RemoveStale` address the snapshot
of a Backup. -/
def objectKey (r : BackupReconciler) (backup : Backup) : String :=
  r.pathJoin [r.S3Prefix, labelValue backup.Meta.Labels ClusterLabel, backup.Meta.Name]

/-- A Backup that is being deleted before its upload has finished. -/
def deletingBackup : Backup :=
  { backupOf "c-3" noon 0 with
    Meta := { (backupOf "c-3" noon 0).Meta with DeletionTimestamp := some (noon + 1) } }

/-- A cluster reconciler on an API server that holds the given Members and on
which every call succeeds; the other children of the cluster exist already, and
the secrets listed for the cluster are `secrets`. -/
def settledReconciler (stored : String → Option Member) (secrets : List Secret) :
    ClusterReconciler :=
  { members := storedClient stored
    SetOwner := fun _ _ => none
    CreateOrUpdate := fun _ _ => .ok .unchanged
    ListSecrets := fun _ _ => (secrets, none)
    DeleteSecret := fun _ => none
    Update := fun _ => none
    StatusUpdate := fun _ => none }

/-- No Member is stored yet: each one is created when first ensured. -/
def noMembersYet : String → Option Member := fun _ => none

/-- The three secrets cert-manager wrote for cluster `c`. -/
def secretsOfC : List Secret :=
  [{ Meta := { Name := "c-ca", Namespace := "default", Labels := [(ClusterLabel, "c")] } },
   { Meta := { Name := "c-0-peer", Namespace := "default", Labels := [(ClusterLabel, "c")] } },
   { Meta := { Name := "c-0-client", Namespace := "default", Labels := [(ClusterLabel, "c")] } }]

/-- The cluster `c` marked for deletion, its children already cascaded: only
the cleanup finalizer is left. -/
def deletingCluster3 : Cluster :=
  { runningCluster3 with
    Meta :=
      { runningCluster3.Meta with
        Finalizers := [CleanupSecretFinalizer], DeletionTimestamp := some noon } }

/-- A member reconciler for which the pod and the volume claim of the member
are already gone, the quorum accepts the removal and the re-adding of the
member, both certificates are issued, and the volume claim is created anew when
ensured.  `clientv3.New` fails on an empty list of endpoints, as in the
library. -/
def repairingReconciler : MemberReconciler :=
  { Update := fun _ => none
    StatusUpdate := fun _ => none
    DeletePodObject := fun _ => some (.notFound "pod not found")
    DeletePVCObject := fun _ => some (.notFound "persistentvolumeclaim not found")
    EtcdNew := fun endpoints =>
      if endpoints = [] then some "at least one Endpoint is required in client config" else none
    MemberList := fun _ => .ok [⟨1, "c-0"⟩, ⟨2, "c-1"⟩, ⟨3, "c-2"⟩]
    MemberRemove := fun _ => none
    MemberAdd := fun _ => none
    SetCertificateOwner := fun _ _ => none
    CreateOrUpdateCertificate := fun _ _ => .ok { NotBefore := some noon }
    GetPod := fun _ _ => .error (.notFound "pod not found")
    GetCertificate := fun _ _ => .ok { NotBefore := some noon }
    SetPVCOwner := fun _ => none
    CreateOrUpdatePVC := fun _ => .ok .created
    SetPodOwner := fun _ => none
    CreateOrUpdatePod := fun _ => .ok (.created, {}) }

/-- The same, with the pod of the member still there: its deletion succeeds. -/
def podDeletingReconciler : MemberReconciler :=
  { repairingReconciler with DeletePodObject := fun _ => none }

/-- Member `c-0` of `cluster3` as `GetMember` builds it (its peers are `c-0`,
`c-1` and `c-2`), failed at time 5 and marked broken by the cluster
reconciler. -/
def brokenMember : Member :=
  { cluster3.GetMember 0 with
    Spec := { (cluster3.GetMember 0).Spec with Broken := true }
    Status := { Version := "3.5.6", Phase := MemberFailed, FailedTime := 5 } }

/-- The readiness `EnsurePod` computes for a stored pod: as many container
statuses as containers, and every status Ready. -/
def PodState.ready (pod : PodState) : Bool :=
  decide (pod.ContainerStatuses.length = pod.Containers) && pod.ContainerStatuses.all id

/-- The value that follows `flag` on a command line read as flag and value
pairs from its start. -/
def pairedValue : List String → String → Option String
  | f :: v :: rest, flag => if f = flag then some v else pairedValue rest flag
  | _, _ => none

/-- The cluster `c` with hourly backups kept for two hours. -/
def scheduledCluster3 : Cluster :=
  { runningCluster3 with
    Spec :=
      { runningCluster3.Spec with
        BackupCreationPeriod := 3600000000000, BackupRetentionPeriod := 7200000000000 } }

/-- A CLI client on an API server that holds `scheduledCluster3` and accepts
every update. -/
def cliClient : CliClient :=
  { Namespace := "default"
    Get := fun name _ =>
      if name = "c" then .ok scheduledCluster3 else .error (.notFound "clusters not found")
    Update := fun _ => none
    Wait := fun _ => none }

/-- A member reconciler whose pod was created at noon and runs with one ready
container, whose client certificate was issued after that (it has been
renewed) and whose peer certificate was issued before it. -/
def renewedClientCertificate : MemberReconciler :=
  { repairingReconciler with
    GetPod := fun _ _ => .ok { CreationTimestamp := noon, Containers := 1, ContainerStatuses := [true] }
    GetCertificate := fun name _ =>
      if name = "c-0-client" then .ok { NotBefore := some (noon + 1) }
      else .ok { NotBefore := some (noon - 1) }
    CreateOrUpdatePod := fun _ =>
      .ok (.unchanged, { CreationTimestamp := noon, Containers := 1, ContainerStatuses := [true] }) }

/-- A member of `cluster3` restored from backup `c-1700000000`, in the given
phase. -/
def restoredMember (phase : MemberPhase) : Member :=
  { (cluster3.GetMember 0) with
    Spec := { (cluster3.GetMember 0).Spec with Backup := "c-1700000000" }
    Status := { Phase := phase } }

/-- The number a list of decimal digit characters denotes. -/
def decimalValue (cs : List Char) : Nat :=
  cs.foldl (fun a c => a * 10 + (c.toNat - 48)) 0

/-- What holds of the local variables of `RepairMembers` before iteration `i`
of its loop, with `limit` the time `now - minorFailedTimeout`: `minFailedTime`
is at most `limit`, and is `limit` while no member was picked; a picked member
is one of the members seen, is Failed, failed at `minFailedTime`, before
`limit`; and no Failed member seen failed before `minFailedTime`. -/
def RepairMembers.Inv (cl : Client) (cluster : Cluster) (limit : Time) (i : Nat)
    (s : RepairMembersLocals) : Prop :=
  s.minFailedTime ≤ limit ∧
    (s.failedMember = none → s.minFailedTime = limit) ∧
    (∀ j m, s.failedMember = some (j, m) →
      j < i ∧ memberAt cl cluster j = some m ∧ m.Status.Phase = MemberFailed ∧
        m.Status.FailedTime = s.minFailedTime ∧ s.minFailedTime < limit) ∧
    (∀ j, j < i → ∀ m, memberAt cl cluster j = some m → m.Status.Phase = MemberFailed →
      s.minFailedTime ≤ m.Status.FailedTime)

/-- Members `c-0` and `c-1` have failed, `c-0` at time 9 and `c-1` at time 5;
`c-2`, `c-3` and `c-4` are running. -/
def twoFailedOfFive : String → Option Member := fun name =>
  if name = "c-0" then some (member3 "c-0" MemberFailed 9 "3.5.6" "3.5.6")
  else if name = "c-1" then some (member3 "c-1" MemberFailed 5 "3.5.6" "3.5.6")
  else if name = "c-2" then some (member3 "c-2" MemberRunning 0 "3.5.6" "3.5.6")
  else if name = "c-3" then some (member3 "c-3" MemberRunning 0 "3.5.6" "3.5.6")
  else if name = "c-4" then some (member3 "c-4" MemberRunning 0 "3.5.6" "3.5.6")
  else none

/-- A five-member cluster. -/
def cluster5 : Cluster :=
  { Meta := { Name := "c", Namespace := "default", UID := "uid-5" }
    Spec := { Version := "3.5.6", Size := 5 } }

/-! ## Admission policy -/

theorem ValidateCreate_isSome_iff (r : Cluster) :
    r.ValidateCreate ≠ none ↔ r.Spec.Size.tmod 2 = 0 := by
  unfold Cluster.ValidateCreate
  split <;> simp_all

/-- C9. `ValidateCreate` returns an error exactly when `spec.size` is even,
whatever the other fields of the cluster are; a cluster of size zero is
rejected. -/
theorem ValidateCreate_error_iff_even (r : Cluster) :
    (r.ValidateCreate ≠ none ↔ Even r.Spec.Size) ∧
      ({ r with Spec := { r.Spec with Size := 0 } } : Cluster).ValidateCreate ≠ none := by
  refine ⟨?_, ?_⟩
  · rw [ValidateCreate_isSome_iff, even_iff_two_dvd, Int.dvd_iff_tmod_eq_zero]
  · rw [ValidateCreate_isSome_iff]
    rfl

/-- C10, as stated, fails: a cluster of size -1 is accepted by `ValidateCreate`
(in Go `-1 % 2` is `-1`, not `0`), and -1 is not at least 1. -/
theorem ValidateCreate_accepts_negative_size :
    negativeSizeCluster.ValidateCreate = none ∧ ¬ (1 ≤ negativeSizeCluster.Spec.Size) := by
  decide

/-- C10, amended. Every cluster accepted by `ValidateCreate` has an odd
`spec.size`, hence a size other than zero. -/
theorem ValidateCreate_accepted_odd (r : Cluster) (h : r.ValidateCreate = none) :
    Odd r.Spec.Size ∧ r.Spec.Size ≠ 0 := by
  have h2 : ¬ Even r.Spec.Size := by
    intro he
    exact ((ValidateCreate_isSome_iff r).mpr ((Int.dvd_iff_tmod_eq_zero).mp (even_iff_two_dvd.mp he))) h
  refine ⟨Int.not_even_iff_odd.mp h2, ?_⟩
  rintro h0
  exact h2 (by rw [h0]; exact even_zero)

theorem ValidateCreate_accepted_odd_witness :
    cluster3.ValidateCreate = none ∧ (Odd cluster3.Spec.Size ∧ cluster3.Spec.Size ≠ 0) :=
  ⟨by decide, ValidateCreate_accepted_odd cluster3 (by decide)⟩

/-- C8. `ValidateUpdate` against an old Cluster returns an error exactly when
the old phase is Updating and the version differs, or the backup differs, or
the size differs.  So a version change outside phase Updating is accepted, and
the backup periods are never consulted. -/
theorem ValidateUpdate_error_iff (r old : Cluster) :
    (r.ValidateUpdate (.cluster old) ≠ none ↔
      (old.Status.Phase = ClusterUpdating ∧ r.Spec.Version ≠ old.Spec.Version) ∨
        old.Spec.Backup ≠ r.Spec.Backup ∨ old.Spec.Size ≠ r.Spec.Size) ∧
    (old.Status.Phase ≠ ClusterUpdating → old.Spec.Backup = r.Spec.Backup →
      old.Spec.Size = r.Spec.Size → r.ValidateUpdate (.cluster old) = none) ∧
    (∀ p q p' q' : Duration,
      ({ r with Spec := { r.Spec with BackupCreationPeriod := p, BackupRetentionPeriod := q } }
        : Cluster).ValidateUpdate
          (.cluster { old with
            Spec := { old.Spec with BackupCreationPeriod := p', BackupRetentionPeriod := q' } }) =
        r.ValidateUpdate (.cluster old)) := by
  refine ⟨?_, ?_, ?_⟩
  · unfold Cluster.ValidateUpdate
    simp only []
    split_ifs with h1 h2 h3
    · simp [h1]
    · simp [h1, h2]
    · simp [h1, h2, h3]
    · simp [h1, h2, h3]
  · intro hp hb hs
    unfold Cluster.ValidateUpdate
    simp [hp, hb, hs]
  · intro p q p' q'
    rfl

theorem ValidateUpdate_error_iff_witness :
    (runningCluster3.Status.Phase ≠ ClusterUpdating ∧
      runningCluster3.Spec.Backup = upgradedCluster3.Spec.Backup ∧
      runningCluster3.Spec.Size = upgradedCluster3.Spec.Size ∧
      upgradedCluster3.Spec.Version ≠ runningCluster3.Spec.Version) ∧
    upgradedCluster3.ValidateUpdate (.cluster runningCluster3) = none :=
  ⟨by decide,
    (ValidateUpdate_error_iff upgradedCluster3 runningCluster3).2.1
      (by decide) (by decide) (by decide)⟩

/-! ## EnsureMember -/

theorem EnsureMember_cases (cl : Client) (cluster : Cluster) (num : Int) :
    (∃ m, EnsureMember cl cluster num = (some m, none)) ∨
      (∃ e, EnsureMember cl cluster num = (none, some e)) := by
  unfold EnsureMember
  simp only []
  split
  · exact Or.inr ⟨_, rfl⟩
  · split
    · exact Or.inr ⟨_, rfl⟩
    · exact Or.inl ⟨_, rfl⟩

theorem EnsureMember_of_no_error {cl : Client} {cluster : Cluster} {num : Int}
    (h : (EnsureMember cl cluster num).2 = none) :
    ∃ m, EnsureMember cl cluster num = (some m, none) := by
  rcases EnsureMember_cases cl cluster num with hm | ⟨e, he⟩
  · exact hm
  · rw [he] at h
    cases h

theorem memberHas_of_ensured {cl : Client} {cluster : Cluster} {i : Nat} {m : Member} {e : error}
    (h : EnsureMember cl cluster (i : Int) = (some m, e)) (p : Member → Bool) :
    memberHas cl cluster p i = p m := by
  simp [memberHas, memberAt, h]

theorem multierrAppend_none (errs : error) : multierrAppend errs none = errs := by
  cases errs <;> rfl

/-! ## EnsureMembers -/

theorem EnsureMembers.loop_some (cl : Client) (cluster : Cluster) :
    ∀ (k i : Nat) (s s' : EnsureMembersLocals),
      EnsureMembers.loop cl cluster i k s = some s' →
        (∀ j, i ≤ j → j < i + k → ∃ m, memberAt cl cluster j = some m) ∧
        s'.errs = s.errs ∧
        s'.failedCount =
          s.failedCount + ((List.range' i k).countP (memberHas cl cluster Member.isFailed) : Nat) ∧
        s'.creatingCount =
          s.creatingCount +
            ((List.range' i k).countP (memberHas cl cluster Member.isCreatingNotFailed) : Nat) ∧
        s'.certificateExpires =
          (s.certificateExpires ||
            (List.range' i k).any (memberHas cl cluster Member.certificateFlag)) := by
  intro k
  induction k with
  | zero =>
    intro i s s' h
    simp only [EnsureMembers.loop, Option.some.injEq] at h
    subst h
    refine ⟨fun j h1 h2 => absurd h2 (by omega), rfl, by simp, by simp, by simp⟩
  | succ k ih =>
    intro i s s' h
    rw [EnsureMembers.loop] at h
    rcases EnsureMember_cases cl cluster (i : Int) with ⟨m, hm⟩ | ⟨e, he⟩
    · have hat : memberAt cl cluster i = some m := by simp [memberAt, hm]
      have hF := memberHas_of_ensured hm Member.isFailed
      have hC := memberHas_of_ensured hm Member.isCreatingNotFailed
      have hX := memberHas_of_ensured hm Member.certificateFlag
      have hall : ∀ s'' : EnsureMembersLocals,
          (∀ j, i + 1 ≤ j → j < i + 1 + k → ∃ m, memberAt cl cluster j = some m) →
          ∀ j, i ≤ j → j < i + (k + 1) → ∃ m, memberAt cl cluster j = some m := by
        intro _ hrest j h1 h2
        by_cases hj : j = i
        · subst hj
          exact ⟨m, hat⟩
        · exact hrest j (by omega) (by omega)
      rw [hm] at h
      simp only [multierrAppend_none] at h
      by_cases hf : m.Status.Phase = MemberFailed
      · rw [if_pos hf] at h
        obtain ⟨h1, h2, h3, h4, h5⟩ := ih _ _ _ h
        refine ⟨hall s h1, h2, ?_, ?_, ?_⟩
        · rw [h3, List.range'_succ, List.countP_cons, hF]
          simp [Member.isFailed, hf]
          omega
        · rw [h4, List.range'_succ, List.countP_cons, hC]
          simp [Member.isCreatingNotFailed, Member.isFailed, hf]
        · rw [h5, List.range'_succ, List.any_cons, hX]
          simp [Member.certificateFlag, Bool.or_assoc]
      · rw [if_neg hf] at h
        by_cases hc : m.IsCreating = true
        · rw [if_pos hc] at h
          obtain ⟨h1, h2, h3, h4, h5⟩ := ih _ _ _ h
          refine ⟨hall s h1, h2, ?_, ?_, ?_⟩
          · rw [h3, List.range'_succ, List.countP_cons, hF]
            simp [Member.isFailed, hf]
          · rw [h4, List.range'_succ, List.countP_cons, hC]
            simp [Member.isCreatingNotFailed, Member.isFailed, hf, hc]
            omega
          · rw [h5, List.range'_succ, List.any_cons, hX]
            simp [Member.certificateFlag, Bool.or_assoc]
        · rw [if_neg hc] at h
          obtain ⟨h1, h2, h3, h4, h5⟩ := ih _ _ _ h
          refine ⟨hall s h1, h2, ?_, ?_, ?_⟩
          · rw [h3, List.range'_succ, List.countP_cons, hF]
            simp [Member.isFailed, hf]
          · rw [h4, List.range'_succ, List.countP_cons, hC]
            simp [Member.isCreatingNotFailed, Member.isFailed, hf, hc]
          · rw [h5, List.range'_succ, List.any_cons, hX]
            simp [Member.certificateFlag, Bool.or_assoc]
    · rw [he] at h
      cases h

theorem EnsureMembers.loop_isSome (cl : Client) (cluster : Cluster) :
    ∀ (k i : Nat) (s : EnsureMembersLocals),
      (∀ j, i ≤ j → j < i + k → (EnsureMember cl cluster (j : Int)).2 = none) →
        ∃ s', EnsureMembers.loop cl cluster i k s = some s' := by
  intro k
  induction k with
  | zero =>
    intro i s _
    exact ⟨s, rfl⟩
  | succ k ih =>
    intro i s hok
    obtain ⟨m, hm⟩ := EnsureMember_of_no_error (hok i (le_refl i) (by omega))
    have hrest : ∀ j, i + 1 ≤ j → j < i + 1 + k → (EnsureMember cl cluster (j : Int)).2 = none :=
      fun j h1 h2 => hok j (by omega) (by omega)
    rw [EnsureMembers.loop, hm]
    simp only []
    split_ifs
    · exact ih _ _ hrest
    · exact ih _ _ hrest
    · exact ih _ _ hrest

theorem storedClient_no_error (stored : String → Option Member) (cluster : Cluster) (num : Int) :
    (EnsureMember (storedClient stored) cluster num).2 = none := by
  cases h : stored (cluster.GetMember num).Meta.Name <;> simp [EnsureMember, storedClient, h]

theorem countP_partition (cl : Client) (cluster : Cluster) :
    ∀ l : List Nat, (∀ j ∈ l, ∃ m, memberAt cl cluster j = some m) →
      l.countP (memberHas cl cluster Member.isFailed) +
          l.countP (memberHas cl cluster Member.isCreatingNotFailed) +
          l.countP (memberHas cl cluster Member.isHealthy) = l.length := by
  intro l
  induction l with
  | nil => intro _; rfl
  | cons a l ih =>
    intro h
    obtain ⟨m, hm⟩ := h a (List.mem_cons_self a l)
    have hrest := ih (fun j hj => h j (List.mem_cons_of_mem a hj))
    have hp : ∀ p, memberHas cl cluster p a = p m := by
      intro p
      simp [memberHas, hm]
    rw [List.countP_cons, List.countP_cons, List.countP_cons, hp, hp, hp, List.length_cons]
    have e1 : m.isCreatingNotFailed = (!m.isFailed && m.IsCreating) := rfl
    have e2 : m.isHealthy = (!m.isFailed && !m.IsCreating) := rfl
    rw [e1, e2]
    cases m.isFailed <;> cases m.IsCreating <;> simp <;> omega

/-- C3. When every `EnsureMember` call succeeds, `EnsureMembers` returns without
error, the phase it writes is the reference phase of the number of Failed
members and the number of non-Failed creating members, and the
`certificateExpires` it writes is the disjunction over all members of
`status.certificateExpires` or `spec.certificateUpdate`. -/
theorem EnsureMembers_phase_reference (cl : Client) (cluster : Cluster)
    (hok : ∀ i : Nat, (i : Int) < cluster.Spec.Size → (EnsureMember cl cluster (i : Int)).2 = none) :
    (EnsureMembers cl cluster).outcome = .ret {} none ∧
      (EnsureMembers cl cluster).cluster.Status.Phase =
        referencePhase (countMembers cl cluster Member.isFailed)
          (countMembers cl cluster Member.isCreatingNotFailed) cluster.Spec.Size ∧
      (EnsureMembers cl cluster).cluster.Status.CertificateExpires =
        (List.range cluster.Spec.Size.toNat).any (memberHas cl cluster Member.certificateFlag) := by
  obtain ⟨s', hs'⟩ := EnsureMembers.loop_isSome cl cluster cluster.Spec.Size.toNat 0 {}
    (fun j _ hj => hok j (by omega))
  obtain ⟨_, h2, h3, h4, h5⟩ := EnsureMembers.loop_some cl cluster _ _ _ _ hs'
  unfold EnsureMembers
  rw [hs']
  simp only [countMembers, List.range_eq_range']
  refine ⟨by rw [h2], ?_, by rw [h5]; rfl⟩
  rw [h3, h4]
  unfold referencePhase
  simp only [zero_add]
  split_ifs <;> first | rfl | omega

theorem EnsureMembers_phase_reference_witness :
    (∀ i : Nat, (i : Int) < cluster3.Spec.Size →
        (EnsureMember (storedClient oneFailedOfThree) cluster3 (i : Int)).2 = none) ∧
      ((EnsureMembers (storedClient oneFailedOfThree) cluster3).outcome = .ret {} none ∧
      (EnsureMembers (storedClient oneFailedOfThree) cluster3).cluster.Status.Phase =
        referencePhase (countMembers (storedClient oneFailedOfThree) cluster3 Member.isFailed)
          (countMembers (storedClient oneFailedOfThree) cluster3 Member.isCreatingNotFailed)
          cluster3.Spec.Size ∧
      (EnsureMembers (storedClient oneFailedOfThree) cluster3).cluster.Status.CertificateExpires =
        (List.range cluster3.Spec.Size.toNat).any
          (memberHas (storedClient oneFailedOfThree) cluster3 Member.certificateFlag)) :=
  ⟨fun _ _ => storedClient_no_error _ _ _,
    EnsureMembers_phase_reference _ _ (fun _ _ => storedClient_no_error _ _ _)⟩

/-- C4. Whenever `EnsureMembers` returns having written phase MinorFailure, at
least one member is Failed and the members that are neither Failed nor creating
are a strict majority of `spec.size`. -/
theorem EnsureMembers_minor_failure_quorum (cl : Client) (cluster : Cluster) (result : Result)
    (err : error) (hret : (EnsureMembers cl cluster).outcome = .ret result err)
    (hphase : (EnsureMembers cl cluster).cluster.Status.Phase = ClusterMinorFailure) :
    1 ≤ countMembers cl cluster Member.isFailed ∧
      cluster.Spec.Size < 2 * countMembers cl cluster Member.isHealthy := by
  unfold EnsureMembers at hret hphase
  cases hs' : EnsureMembers.loop cl cluster 0 cluster.Spec.Size.toNat {} with
  | none =>
    rw [hs'] at hret
    cases hret
  | some s' =>
    rw [hs'] at hphase
    obtain ⟨h1, _, h3, h4, _⟩ := EnsureMembers.loop_some cl cluster _ _ _ _ hs'
    have hpart := countP_partition cl cluster (List.range' 0 cluster.Spec.Size.toNat)
      (fun j hj => h1 j (Nat.zero_le j) (by simpa using hj))
    simp only [List.length_range'] at hpart
    simp only [zero_add] at h3 h4
    simp only [countMembers, List.range_eq_range']
    simp only [] at hphase
    split_ifs at hphase with c1 c2 c3
    · exact absurd hphase (by decide)
    · exact absurd hphase (by decide)
    · omega
    · exact absurd hphase (by decide)

theorem EnsureMembers_minor_failure_quorum_witness :
    ((EnsureMembers (storedClient oneFailedOfThree) cluster3).outcome = .ret {} none ∧
      (EnsureMembers (storedClient oneFailedOfThree) cluster3).cluster.Status.Phase =
        ClusterMinorFailure) ∧
    (1 ≤ countMembers (storedClient oneFailedOfThree) cluster3 Member.isFailed ∧
      cluster3.Spec.Size < 2 * countMembers (storedClient oneFailedOfThree) cluster3 Member.isHealthy) :=
  ⟨by decide, EnsureMembers_minor_failure_quorum _ _ {} none (by decide) (by decide)⟩

/-! ## RepairMembers -/

theorem RepairMembers.finish_updates_length (cl : Client) (cluster : Cluster)
    (s : RepairMembersLocals) : (RepairMembers.finish cl cluster s).updates.length ≤ 1 := by
  unfold RepairMembers.finish
  split
  · simp
  · split <;> simp

theorem RepairMembers.loop_cases (cl : Client) (cluster : Cluster) :
    ∀ (k i : Nat) (s : RepairMembersLocals),
      ((RepairMembers.loop cl cluster i k s).updates = [] ∧
        ((RepairMembers.loop cl cluster i k s).outcome = .panic ∨
          (RepairMembers.loop cl cluster i k s).outcome = .ret Requeue none)) ∨
      ∃ s', RepairMembers.loop cl cluster i k s = RepairMembers.finish cl cluster s' ∧
        s'.failedCount =
          s.failedCount + ((List.range' i k).countP (memberHas cl cluster Member.isFailed) : Nat) ∧
        ∀ j, i ≤ j → j < i + k →
          ∃ m, memberAt cl cluster j = some m ∧ m.isUnsettled = false := by
  intro k
  induction k with
  | zero =>
    intro i s
    exact Or.inr ⟨s, rfl, by simp, fun j h1 h2 => absurd h2 (by omega)⟩
  | succ k ih =>
    intro i s
    rw [RepairMembers.loop]
    rcases EnsureMember_cases cl cluster (i : Int) with ⟨m, hm⟩ | ⟨e, he⟩
    · have hat : memberAt cl cluster i = some m := by simp [memberAt, hm]
      have hF := memberHas_of_ensured hm Member.isFailed
      rw [hm]
      simp only [multierrAppend_none]
      by_cases hu : m.IsCreating = true ∨ m.Spec.Broken = true
      · rw [if_pos hu]
        exact Or.inl ⟨rfl, Or.inr rfl⟩
      · rw [if_neg hu]
        have hset : m.isUnsettled = false := by
          simp only [Member.isUnsettled, Bool.or_eq_false_iff]
          exact ⟨by simpa using fun h => hu (Or.inl h), by simpa using fun h => hu (Or.inr h)⟩
        have step : ∀ s₁ : RepairMembersLocals,
            s₁.failedCount = s.failedCount + (if m.Status.Phase = MemberFailed then 1 else 0) →
            (((RepairMembers.loop cl cluster (i + 1) k s₁).updates = [] ∧
              ((RepairMembers.loop cl cluster (i + 1) k s₁).outcome = .panic ∨
                (RepairMembers.loop cl cluster (i + 1) k s₁).outcome = .ret Requeue none)) ∨
            ∃ s', RepairMembers.loop cl cluster (i + 1) k s₁ = RepairMembers.finish cl cluster s' ∧
              s'.failedCount =
                s.failedCount +
                  ((List.range' i (k + 1)).countP (memberHas cl cluster Member.isFailed) : Nat) ∧
              ∀ j, i ≤ j → j < i + (k + 1) →
                ∃ m, memberAt cl cluster j = some m ∧ m.isUnsettled = false) := by
          intro s₁ hs₁
          rcases ih (i + 1) s₁ with h | ⟨s', h1, h2, h3⟩
          · exact Or.inl h
          · refine Or.inr ⟨s', h1, ?_, ?_⟩
            · rw [h2, hs₁, List.range'_succ, List.countP_cons, hF]
              by_cases hf : m.Status.Phase = MemberFailed <;> simp [Member.isFailed, hf]
              omega
            · intro j hj1 hj2
              by_cases hj : j = i
              · subst hj
                exact ⟨m, hat, hset⟩
              · exact h3 j (by omega) (by omega)
        by_cases hf : m.Status.Phase = MemberFailed
        · rw [if_neg (not_not.mpr hf)]
          by_cases ht : m.Status.FailedTime < s.minFailedTime
          · rw [if_pos ht]
            exact step _ (by simp [hf])
          · rw [if_neg ht]
            exact step _ (by simp [hf])
        · rw [if_pos hf]
          exact step _ (by simp [hf])
    · rw [he]
      exact Or.inl ⟨rfl, Or.inl rfl⟩

theorem RepairMembers.loop_requeue (cl : Client) (cluster : Cluster) :
    ∀ (k i : Nat) (s : RepairMembersLocals),
      (∀ j, i ≤ j → j < i + k → (EnsureMember cl cluster (j : Int)).2 = none) →
      (∃ j, i ≤ j ∧ j < i + k ∧ memberHas cl cluster Member.isUnsettled j = true) →
        RepairMembers.loop cl cluster i k s =
          { cluster := cluster, updates := [], outcome := .ret Requeue none } := by
  intro k
  induction k with
  | zero =>
    rintro i s _ ⟨j, h1, h2, _⟩
    omega
  | succ k ih =>
    rintro i s hok ⟨j, h1, h2, h3⟩
    obtain ⟨m, hm⟩ := EnsureMember_of_no_error (hok i (le_refl i) (by omega))
    have hU := memberHas_of_ensured hm Member.isUnsettled
    have hrest : ∀ j, i + 1 ≤ j → j < i + 1 + k → (EnsureMember cl cluster (j : Int)).2 = none :=
      fun j h1 h2 => hok j (by omega) (by omega)
    rw [RepairMembers.loop, hm]
    simp only [multierrAppend_none]
    by_cases hu : m.IsCreating = true ∨ m.Spec.Broken = true
    · rw [if_pos hu]
    · rw [if_neg hu]
      have hji : j ≠ i := by
        rintro rfl
        rw [hU] at h3
        simp only [Member.isUnsettled, Bool.or_eq_true] at h3
        exact hu h3
      have hex : ∃ j, i + 1 ≤ j ∧ j < i + 1 + k ∧ memberHas cl cluster Member.isUnsettled j = true :=
        ⟨j, by omega, by omega, h3⟩
      split_ifs
      · exact ih _ _ hrest hex
      · exact ih _ _ hrest hex
      · exact ih _ _ hrest hex

/-- C1, as stated, fails when exactly half of the members are Failed: in a
cluster of size 2 whose member `c-0` failed long ago and whose member `c-1` is
running, `2*f = size`, and `RepairMembers` issues an update that sets
`spec.broken` on `c-0`. -/
theorem RepairMembers_repairs_at_half :
    cluster2.Spec.Size ≤ 2 * countMembers (storedClient oneFailedOfTwo) cluster2 Member.isFailed ∧
      (RepairMembers (storedClient oneFailedOfTwo) cluster2 someNow).updates.map
        (fun e => (e.1, e.2.Meta.Name, e.2.Spec.Broken)) = [(0, "c-0", true)] ∧
      (RepairMembers (storedClient oneFailedOfTwo) cluster2 someNow).outcome = .ret {} none := by
  decide

/-- C1, amended. If the number `f` of Failed members satisfies `2*f > size`, or
satisfies `2*f >= size` for an odd `size`, `RepairMembers` issues no member
update, so it sets `spec.broken` on no member. -/
theorem RepairMembers_no_update_without_quorum (cl : Client) (cluster : Cluster) (now : Time)
    (h : cluster.Spec.Size < 2 * countMembers cl cluster Member.isFailed ∨
      (cluster.Spec.Size ≤ 2 * countMembers cl cluster Member.isFailed ∧
        Odd cluster.Spec.Size)) :
    (RepairMembers cl cluster now).updates = [] := by
  replace h : cluster.Spec.Size < 2 * countMembers cl cluster Member.isFailed := by
    rcases h with h | ⟨h, ⟨c, hc⟩⟩
    · exact h
    · omega
  unfold RepairMembers
  rcases RepairMembers.loop_cases cl cluster cluster.Spec.Size.toNat 0
    { minFailedTime := now - minorFailedTimeout } with ⟨h1, _⟩ | ⟨s', h1, h2, _⟩
  · exact h1
  · rw [h1]
    simp only [countMembers, List.range_eq_range'] at h
    simp only [zero_add] at h2
    unfold RepairMembers.finish
    split
    · rfl
    · rw [if_pos (Or.inl (by omega))]

theorem RepairMembers_no_update_without_quorum_witness :
    cluster3.Spec.Size < 2 * countMembers (storedClient allFailedOfThree) cluster3 Member.isFailed ∧
      (RepairMembers (storedClient allFailedOfThree) cluster3 someNow).updates = [] :=
  ⟨by decide, RepairMembers_no_update_without_quorum _ _ _ (Or.inl (by decide))⟩

/-- C2. One invocation of `RepairMembers` issues at most one member update; and
when every `EnsureMember` call succeeds and some member is creating or already
has `spec.broken`, it issues none and returns "requeue now". -/
theorem RepairMembers_at_most_one (cl : Client) (cluster : Cluster) (now : Time) :
    (RepairMembers cl cluster now).updates.length ≤ 1 ∧
      ((∀ i : Nat, (i : Int) < cluster.Spec.Size → (EnsureMember cl cluster (i : Int)).2 = none) →
        (∃ i : Nat, (i : Int) < cluster.Spec.Size ∧
          memberHas cl cluster Member.isUnsettled i = true) →
        (RepairMembers cl cluster now).updates = [] ∧
          (RepairMembers cl cluster now).outcome = .ret Requeue none) := by
  constructor
  · unfold RepairMembers
    rcases RepairMembers.loop_cases cl cluster cluster.Spec.Size.toNat 0
      { minFailedTime := now - minorFailedTimeout } with ⟨h1, _⟩ | ⟨s', h1, _, _⟩
    · rw [h1]
      exact Nat.zero_le 1
    · rw [h1]
      exact RepairMembers.finish_updates_length cl cluster s'
  · rintro hok ⟨i, hi, hu⟩
    unfold RepairMembers
    rw [RepairMembers.loop_requeue cl cluster _ _ _ (fun j _ hj => hok j (by omega))
      ⟨i, Nat.zero_le i, by omega, hu⟩]
    exact ⟨rfl, rfl⟩

theorem RepairMembers_at_most_one_witness :
    (RepairMembers (storedClient oneCreatingOfThree) cluster3 someNow).updates = [] ∧
      (RepairMembers (storedClient oneCreatingOfThree) cluster3 someNow).outcome =
        .ret Requeue none :=
  (RepairMembers_at_most_one (storedClient oneCreatingOfThree) cluster3 someNow).2
    (fun _ _ => storedClient_no_error _ _ _) ⟨1, by decide, by decide⟩

/-! ## UpdateMembers -/

theorem Outcome.isDone_requeue (err : error) : (Outcome.ret Requeue err).isDone = false := by
  cases err <;> rfl

theorem UpdateMembers.loop_step (cl : Client) (cluster : Cluster) (i k : Nat) (errs : error)
    (r : Run) (hr : r = UpdateMembers.loop cl cluster i (k + 1) errs) :
    (r.outcome.isDone = false ∧
      (r.cluster = cluster ∨ r.cluster = cluster.setPhase ClusterUpdating) ∧
      (r.updates = [] ∨
        ∃ m, memberAt cl cluster i = some m ∧ m.IsCreating = false ∧
          m.Status.Phase ≠ MemberUpdating ∧
          ((r.updates = [(i, m.setVersion cluster.Spec.Version)] ∧
              m.Spec.Version ≠ cluster.Spec.Version ∧
              r.cluster = cluster.setPhase ClusterUpdating ∧
              r.outcome = .ret Requeue (cl.Update (m.setVersion cluster.Spec.Version))) ∨
            (r.updates = [(i, m.setCertificateUpdate m.Status.CertificateExpires)] ∧
              m.Spec.Version = cluster.Spec.Version)))) ∨
    ∃ m, memberAt cl cluster i = some m ∧ m.IsCreating = false ∧
      m.Status.Phase ≠ MemberUpdating ∧ m.Spec.Version = cluster.Spec.Version ∧
      m.Status.Version = cluster.Spec.Version ∧
      ((m.Spec.CertificateUpdate = false ∧ r = UpdateMembers.loop cl cluster (i + 1) k errs) ∨
        (m.Status.CertificateExpires = false ∧ cl.Update (m.setCertificateUpdate false) = none ∧
          r = (UpdateMembers.loop cl cluster (i + 1) k errs).after i
            (m.setCertificateUpdate false))) := by
  subst hr
  rw [UpdateMembers.loop]
  rcases EnsureMember_cases cl cluster (i : Int) with ⟨m, hm⟩ | ⟨e, he⟩
  · have hat : memberAt cl cluster i = some m := by simp [memberAt, hm]
    rw [hm]
    simp only [multierrAppend_none]
    by_cases h1 : m.IsCreating = true ∨ m.Status.Phase = MemberUpdating
    · rw [if_pos h1]
      exact Or.inl ⟨rfl, Or.inl rfl, Or.inl rfl⟩
    · rw [if_neg h1]
      have hc : m.IsCreating = false := Bool.eq_false_iff.mpr (fun h => h1 (Or.inl h))
      have hu : m.Status.Phase ≠ MemberUpdating := fun h => h1 (Or.inr h)
      by_cases h2 : cluster.Spec.Version ≠ m.Spec.Version
      · rw [if_pos h2]
        exact Or.inl ⟨Outcome.isDone_requeue _, Or.inr rfl,
          Or.inr ⟨m, hat, hc, hu, Or.inl ⟨rfl, Ne.symm h2, rfl, rfl⟩⟩⟩
      · rw [if_neg h2]
        have hv : m.Spec.Version = cluster.Spec.Version := (not_not.mp h2).symm
        by_cases h3 : cluster.Status.CertificateExpires = true ∨ m.Spec.CertificateUpdate = true
        · rw [if_pos h3]
          cases hupd : cl.Update (m.setCertificateUpdate m.Status.CertificateExpires) with
          | some e =>
            exact Or.inl ⟨rfl, Or.inl rfl, Or.inr ⟨m, hat, hc, hu, Or.inr ⟨rfl, hv⟩⟩⟩
          | none =>
            simp only []
            by_cases h4 :
                (m.setCertificateUpdate m.Status.CertificateExpires).Spec.CertificateUpdate = true
            · rw [if_pos h4]
              exact Or.inl ⟨rfl, Or.inr rfl, Or.inr ⟨m, hat, hc, hu, Or.inr ⟨rfl, hv⟩⟩⟩
            · rw [if_neg h4]
              have hce : m.Status.CertificateExpires = false := Bool.eq_false_iff.mpr h4
              by_cases h5 : cluster.Spec.Version ≠
                  (m.setCertificateUpdate m.Status.CertificateExpires).Status.Version
              · rw [if_pos h5]
                exact Or.inl ⟨rfl, Or.inl rfl, Or.inr ⟨m, hat, hc, hu, Or.inr ⟨rfl, hv⟩⟩⟩
              · rw [if_neg h5]
                rw [hce] at hupd ⊢
                exact Or.inr ⟨m, hat, hc, hu, hv, (not_not.mp h5).symm, Or.inr ⟨hce, hupd, rfl⟩⟩
        · rw [if_neg h3]
          have hcu : m.Spec.CertificateUpdate = false :=
            Bool.eq_false_iff.mpr (fun h => h3 (Or.inr h))
          by_cases h5 : cluster.Spec.Version ≠ m.Status.Version
          · rw [if_pos h5]
            exact Or.inl ⟨rfl, Or.inl rfl, Or.inl rfl⟩
          · rw [if_neg h5]
            exact Or.inr ⟨m, hat, hc, hu, hv, (not_not.mp h5).symm, Or.inl ⟨hcu, rfl⟩⟩
  · rw [he]
    exact Or.inl ⟨rfl, Or.inl rfl, Or.inl rfl⟩

theorem UpdateMembers.loop_zero_updates (cl : Client) (cluster : Cluster) (i : Nat)
    (errs : error) : (UpdateMembers.loop cl cluster i 0 errs).updates = [] := by
  rw [UpdateMembers.loop]
  split <;> rfl

theorem UpdateMembers.loop_updates (cl : Client) (cluster : Cluster) :
    ∀ (k i : Nat) (errs : error) (j : Nat) (u : Member),
      (j, u) ∈ (UpdateMembers.loop cl cluster i k errs).updates →
        i ≤ j ∧ j < i + k ∧
        (∀ j', i ≤ j' → j' ≤ j →
          ∃ m', memberAt cl cluster j' = some m' ∧ m'.IsCreating = false ∧
            m'.Status.Phase ≠ MemberUpdating ∧
            (j' < j → m'.Spec.Version = cluster.Spec.Version ∧
              m'.Status.Version = cluster.Spec.Version)) ∧
        ∃ m, memberAt cl cluster j = some m ∧
          ((u = m.setVersion cluster.Spec.Version ∧ m.Spec.Version ≠ cluster.Spec.Version ∧
              (UpdateMembers.loop cl cluster i k errs).cluster =
                cluster.setPhase ClusterUpdating ∧
              (UpdateMembers.loop cl cluster i k errs).outcome = .ret Requeue (cl.Update u)) ∨
            (u = m.setCertificateUpdate m.Status.CertificateExpires ∧
              m.Spec.Version = cluster.Spec.Version)) := by
  intro k
  induction k with
  | zero =>
    intro i errs j u h
    rw [UpdateMembers.loop_zero_updates] at h
    cases h
  | succ k ih =>
    intro i errs j u h
    rcases UpdateMembers.loop_step cl cluster i k errs _ rfl with
      ⟨_, _, hup⟩ | ⟨m, hat, hc, hu, hv, hsv, hnext⟩
    · rcases hup with hup | ⟨m, hat, hc, hu, hup⟩
      · rw [hup] at h
        cases h
      · have here : ∀ j', i ≤ j' → j' ≤ i →
            ∃ m', memberAt cl cluster j' = some m' ∧ m'.IsCreating = false ∧
              m'.Status.Phase ≠ MemberUpdating ∧
              (j' < i → m'.Spec.Version = cluster.Spec.Version ∧
                m'.Status.Version = cluster.Spec.Version) := by
          intro j' h1 h2
          have hj : j' = i := by omega
          subst hj
          exact ⟨m, hat, hc, hu, fun hlt => absurd hlt (by omega)⟩
        rcases hup with ⟨hup, hne, hcl, hout⟩ | ⟨hup, hv⟩
        · rw [hup, List.mem_singleton, Prod.mk.injEq] at h
          obtain ⟨rfl, rfl⟩ := h
          exact ⟨le_refl _, by omega, here, m, hat, Or.inl ⟨rfl, hne, hcl, hout⟩⟩
        · rw [hup, List.mem_singleton, Prod.mk.injEq] at h
          obtain ⟨rfl, rfl⟩ := h
          exact ⟨le_refl _, by omega, here, m, hat, Or.inr ⟨rfl, hv⟩⟩
    · have extend : ∀ j, i + 1 ≤ j →
          (∀ j', i + 1 ≤ j' → j' ≤ j →
            ∃ m', memberAt cl cluster j' = some m' ∧ m'.IsCreating = false ∧
              m'.Status.Phase ≠ MemberUpdating ∧
              (j' < j → m'.Spec.Version = cluster.Spec.Version ∧
                m'.Status.Version = cluster.Spec.Version)) →
          ∀ j', i ≤ j' → j' ≤ j →
            ∃ m', memberAt cl cluster j' = some m' ∧ m'.IsCreating = false ∧
              m'.Status.Phase ≠ MemberUpdating ∧
              (j' < j → m'.Spec.Version = cluster.Spec.Version ∧
                m'.Status.Version = cluster.Spec.Version) := by
        intro j _ hrest j' h1 h2
        by_cases hj : j' = i
        · subst hj
          exact ⟨m, hat, hc, hu, fun _ => ⟨hv, hsv⟩⟩
        · exact hrest j' (by omega) h2
      rcases hnext with ⟨_, hr⟩ | ⟨hce, _, hr⟩
      · rw [hr] at h ⊢
        obtain ⟨h1, h2, h3, h4⟩ := ih _ _ _ _ h
        exact ⟨by omega, by omega, extend j h1 h3, h4⟩
      · rw [hr] at h ⊢
        simp only [Run.after, List.mem_cons, Prod.mk.injEq] at h
        rcases h with ⟨rfl, rfl⟩ | h
        · refine ⟨le_refl _, by omega, ?_, m, hat, Or.inr ⟨by rw [hce], hv⟩⟩
          intro j' h1 h2
          have hj : j' = j := by omega
          subst hj
          exact ⟨m, hat, hc, hu, fun hlt => absurd hlt (by omega)⟩
        · obtain ⟨h1, h2, h3, h4⟩ := ih _ _ _ _ h
          exact ⟨by omega, by omega, extend j h1 h3, h4⟩

theorem UpdateMembers.loop_version_changes (cl : Client) (cluster : Cluster) :
    ∀ (k i : Nat) (errs : error),
      ((UpdateMembers.loop cl cluster i k errs).updates.filter
        (versionChanged cl cluster)).length ≤ 1 := by
  intro k
  induction k with
  | zero =>
    intro i errs
    rw [UpdateMembers.loop_zero_updates]
    exact Nat.zero_le 1
  | succ k ih =>
    intro i errs
    rcases UpdateMembers.loop_step cl cluster i k errs _ rfl with
      ⟨_, _, hup⟩ | ⟨m, hat, _, _, _, _, hnext⟩
    · have hlen : (UpdateMembers.loop cl cluster i (k + 1) errs).updates.length ≤ 1 := by
        rcases hup with hup | ⟨m, _, _, _, ⟨hup, _⟩ | ⟨hup, _⟩⟩ <;> rw [hup] <;> simp
      exact le_trans (List.length_filter_le _ _) hlen
    · rcases hnext with ⟨_, hr⟩ | ⟨_, _, hr⟩
      · rw [hr]
        exact ih _ _
      · rw [hr]
        have hsame : versionChanged cl cluster (i, m.setCertificateUpdate false) = false := by
          simp [versionChanged, hat, Member.setCertificateUpdate]
        simp only [Run.after, List.filter_cons, hsame]
        exact ih _ _

theorem persisted_of_lt (cl : Client) (i : Nat) :
    ∀ (updates : List (Nat × Member)) (m : Member),
      (∀ e ∈ updates, i < e.1) → persisted cl updates i m = m := by
  intro updates
  induction updates with
  | nil => intro m _; rfl
  | cons e updates ih =>
    intro m h
    have he : ¬ (e.1 = i ∧ cl.Update e.2 = none) := by
      have := h e (List.mem_cons_self e updates)
      omega
    unfold persisted
    rw [List.foldl_cons, if_neg he]
    exact ih m (fun e' he' => h e' (List.mem_cons_of_mem e he'))

theorem Member.setCertificateUpdate_self (m : Member) (b : Bool)
    (h : m.Spec.CertificateUpdate = b) : m.setCertificateUpdate b = m := by
  subst h
  rfl

theorem UpdateMembers.loop_done (cl : Client) (cluster : Cluster) :
    ∀ (k i : Nat) (errs : error),
      (UpdateMembers.loop cl cluster i k errs).outcome.isDone = true →
        (UpdateMembers.loop cl cluster i k errs).cluster.Status.Phase = ClusterRunning ∧
        (UpdateMembers.loop cl cluster i k errs).cluster.Status.CertificateExpires = false ∧
        ∀ j, i ≤ j → j < i + k →
          ∃ m, memberAt cl cluster j = some m ∧ m.IsCreating = false ∧
            m.Status.Phase ≠ MemberUpdating ∧ m.Spec.Version = cluster.Spec.Version ∧
            m.Status.Version = cluster.Spec.Version ∧
            persisted cl (UpdateMembers.loop cl cluster i k errs).updates j m =
              m.setCertificateUpdate false := by
  intro k
  induction k with
  | zero =>
    intro i errs h
    rw [UpdateMembers.loop] at h ⊢
    cases errs with
    | some e => cases h
    | none => exact ⟨rfl, rfl, fun j h1 h2 => absurd h2 (by omega)⟩
  | succ k ih =>
    intro i errs h
    rcases UpdateMembers.loop_step cl cluster i k errs _ rfl with
      ⟨hnot, _, _⟩ | ⟨m, hat, hc, hu, hv, hsv, hnext⟩
    · rw [hnot] at h
      cases h
    · have hlater : ∀ e ∈ (UpdateMembers.loop cl cluster (i + 1) k errs).updates, i < e.1 := by
        intro e he
        have := (UpdateMembers.loop_updates cl cluster k (i + 1) errs e.1 e.2 he).1
        omega
      rcases hnext with ⟨hcu, hr⟩ | ⟨_, hupd, hr⟩
      · rw [hr] at h ⊢
        obtain ⟨h1, h2, h3⟩ := ih _ _ h
        refine ⟨h1, h2, ?_⟩
        intro j hj1 hj2
        by_cases hj : j = i
        · subst hj
          refine ⟨m, hat, hc, hu, hv, hsv, ?_⟩
          rw [persisted_of_lt cl j _ m hlater, Member.setCertificateUpdate_self m false hcu]
        · exact h3 j (by omega) (by omega)
      · rw [hr] at h ⊢
        obtain ⟨h1, h2, h3⟩ := ih _ _ h
        refine ⟨h1, h2, ?_⟩
        intro j hj1 hj2
        by_cases hj : j = i
        · subst hj
          refine ⟨m, hat, hc, hu, hv, hsv, ?_⟩
          simp only [Run.after, persisted, List.foldl_cons, hupd, and_self, if_true]
          exact persisted_of_lt cl j _ _ hlater
        · obtain ⟨m', g1, g2, g3, g4, g5, g6⟩ := h3 j (by omega) (by omega)
          refine ⟨m', g1, g2, g3, g4, g5, ?_⟩
          have hne : ¬ (i = j ∧ cl.Update (m.setCertificateUpdate false) = none) :=
            fun hh => hj hh.1.symm
          simp only [Run.after, persisted, List.foldl_cons, if_neg hne]
          exact g6

theorem UpdateMembers.loop_not_done (cl : Client) (cluster : Cluster) :
    ∀ (k i : Nat) (errs : error),
      (UpdateMembers.loop cl cluster i k errs).outcome.isDone = false →
        (UpdateMembers.loop cl cluster i k errs).cluster = cluster ∨
          (UpdateMembers.loop cl cluster i k errs).cluster =
            cluster.setPhase ClusterUpdating := by
  intro k
  induction k with
  | zero =>
    intro i errs h
    rw [UpdateMembers.loop] at h ⊢
    cases errs with
    | some e => exact Or.inl rfl
    | none => cases h
  | succ k ih =>
    intro i errs h
    rcases UpdateMembers.loop_step cl cluster i k errs _ rfl with
      ⟨_, hcl, _⟩ | ⟨m, _, _, _, _, _, hnext⟩
    · exact hcl
    · rcases hnext with ⟨_, hr⟩ | ⟨_, _, hr⟩
      · rw [hr] at h ⊢
        exact ih _ _ h
      · rw [hr] at h ⊢
        exact ih _ _ h

theorem Outcome.isDone_iff (o : Outcome) :
    o.isDone = true ↔ ∃ result, o = .ret result none ∧ result.IsZero = true := by
  constructor
  · intro h
    cases o with
    | panic => cases h
    | ret result err =>
      cases err with
      | some e => cases h
      | none => exact ⟨result, rfl, h⟩
  · rintro ⟨result, rfl, h⟩
    exact h

/-- C5. In one invocation of `UpdateMembers` at most one update changes a
member's `spec.version`; such an update, for member `i`, writes the cluster's
`spec.version`, is issued only when every member `j < i` is neither creating
nor Updating and has `spec.version` and `status.version` equal to the cluster's
`spec.version`, and the invocation then has set `status.phase` of the cluster
to Updating, changed nothing else of the cluster, and returns the result
"requeue now" (next to the error of that update, if any). -/
theorem UpdateMembers_one_version_change (cl : Client) (cluster : Cluster) :
    ((UpdateMembers cl cluster).updates.filter (versionChanged cl cluster)).length ≤ 1 ∧
      ∀ (i : Nat) (u : Member), (i, u) ∈ (UpdateMembers cl cluster).updates →
        versionChanged cl cluster (i, u) = true →
          (∃ m, memberAt cl cluster i = some m ∧ u = m.setVersion cluster.Spec.Version) ∧
          (∀ j, j < i →
            ∃ m', memberAt cl cluster j = some m' ∧ m'.IsCreating = false ∧
              m'.Status.Phase ≠ MemberUpdating ∧ m'.Spec.Version = cluster.Spec.Version ∧
              m'.Status.Version = cluster.Spec.Version) ∧
          (UpdateMembers cl cluster).cluster.Status.Phase = ClusterUpdating ∧
          (UpdateMembers cl cluster).cluster =
            { cluster with Status := { cluster.Status with Phase := ClusterUpdating } } ∧
          (UpdateMembers cl cluster).outcome = .ret Requeue (cl.Update u) := by
  refine ⟨UpdateMembers.loop_version_changes cl cluster _ _ _, ?_⟩
  intro i u hmem hchanged
  obtain ⟨_, _, hbefore, m, hat, hkind⟩ :=
    UpdateMembers.loop_updates cl cluster _ _ _ _ _ hmem
  rcases hkind with ⟨hu, _, hcl, hout⟩ | ⟨hu, _⟩
  · have hcl' : (UpdateMembers cl cluster).cluster = cluster.setPhase ClusterUpdating := hcl
    refine ⟨⟨m, hat, hu⟩, ?_, by rw [hcl']; rfl, by rw [hcl']; rfl, hout⟩
    intro j hj
    obtain ⟨m', g1, g2, g3, g4⟩ := hbefore j (Nat.zero_le j) (le_of_lt hj)
    exact ⟨m', g1, g2, g3, (g4 hj).1, (g4 hj).2⟩
  · rw [hu] at hchanged
    simp [versionChanged, hat, Member.setCertificateUpdate] at hchanged

theorem UpdateMembers_one_version_change_witness :
    ((1, (member3 "c-1" MemberRunning 0 "3.5.5" "3.5.5").setVersion "3.5.6") ∈
        (UpdateMembers (storedClient rollingOfThree) cluster3).updates ∧
      versionChanged (storedClient rollingOfThree) cluster3
        (1, (member3 "c-1" MemberRunning 0 "3.5.5" "3.5.5").setVersion "3.5.6") = true) ∧
    ((UpdateMembers (storedClient rollingOfThree) cluster3).cluster.Status.Phase = "Updating" ∧
      (UpdateMembers (storedClient rollingOfThree) cluster3).cluster =
        { cluster3 with Status := { cluster3.Status with Phase := "Updating" } } ∧
      (UpdateMembers (storedClient rollingOfThree) cluster3).outcome = .ret Requeue none) :=
  ⟨by decide,
    ((UpdateMembers_one_version_change (storedClient rollingOfThree) cluster3).2 1
      ((member3 "c-1" MemberRunning 0 "3.5.5" "3.5.5").setVersion "3.5.6")
      (by decide) (by decide)).2.2⟩

/-- C6. If `UpdateMembers` returns the zero result and a nil error, it has set
the cluster phase to Running and `certificateExpires` to false, and every member
`0 .. size-1` has `status.version` and `spec.version` equal to the cluster's
`spec.version`, is neither creating nor Updating, and is stored with
`spec.certificateUpdate = false` (nothing else of it was written).  On every
other ending the cluster is left as it was, or only its phase was set to
Updating. -/
theorem UpdateMembers_done_converged (cl : Client) (cluster : Cluster) :
    (∀ result : Result, (UpdateMembers cl cluster).outcome = .ret result none →
      result.IsZero = true →
        (UpdateMembers cl cluster).cluster.Status.Phase = ClusterRunning ∧
        (UpdateMembers cl cluster).cluster.Status.CertificateExpires = false ∧
        ∀ i : Nat, (i : Int) < cluster.Spec.Size →
          ∃ m, memberAt cl cluster i = some m ∧
            m.Status.Version = cluster.Spec.Version ∧ m.Spec.Version = cluster.Spec.Version ∧
            m.IsCreating = false ∧ m.Status.Phase ≠ MemberUpdating ∧
            persisted cl (UpdateMembers cl cluster).updates i m = m.setCertificateUpdate false ∧
            (persisted cl (UpdateMembers cl cluster).updates i m).Spec.CertificateUpdate = false) ∧
    ((¬ ∃ result : Result, (UpdateMembers cl cluster).outcome = .ret result none ∧
        result.IsZero = true) →
      (UpdateMembers cl cluster).cluster = cluster ∨
        (UpdateMembers cl cluster).cluster = cluster.setPhase ClusterUpdating) := by
  constructor
  · intro result hout hzero
    have hdone : (UpdateMembers cl cluster).outcome.isDone = true :=
      (Outcome.isDone_iff _).mpr ⟨result, hout, hzero⟩
    obtain ⟨h1, h2, h3⟩ := UpdateMembers.loop_done cl cluster _ _ _ hdone
    refine ⟨h1, h2, ?_⟩
    intro i hi
    obtain ⟨m, g1, g2, g3, g4, g5, g6⟩ := h3 i (Nat.zero_le i) (by omega)
    refine ⟨m, g1, g5, g4, g2, g3, g6, ?_⟩
    have h6 : persisted cl (UpdateMembers cl cluster).updates i m =
        m.setCertificateUpdate false := g6
    rw [h6]
    rfl
  · intro hnot
    apply UpdateMembers.loop_not_done
    cases hd : (UpdateMembers.loop cl cluster 0 cluster.Spec.Size.toNat none).outcome.isDone with
    | false => rfl
    | true => exact absurd ((Outcome.isDone_iff _).mp hd) hnot

theorem UpdateMembers_done_converged_witness :
    ((UpdateMembers (storedClient allRunningOfThree) cluster3).outcome = .ret {} none ∧
      Result.IsZero {} = true) ∧
    ((UpdateMembers (storedClient allRunningOfThree) cluster3).cluster.Status.Phase =
        ClusterRunning ∧
      (UpdateMembers (storedClient allRunningOfThree) cluster3).cluster.Status.CertificateExpires =
        false) :=
  ⟨by decide,
    let h := (UpdateMembers_done_converged (storedClient allRunningOfThree) cluster3).1 {}
      (by decide) (by decide)
    ⟨h.1, h.2.1⟩⟩

/-- C7 fails on the code. With the cluster asking for 3.5.6, member `c-0`
running 3.5.5 and member `c-1` in phase Updating, `EnsureMembers` leaves the
cluster in phase Running and `UpdateMembers` writes `spec.version` 3.5.6 to
`c-0`: the members after the one it acts on are not looked at.  The state is
reached in a rolling update: while `c-1` is Updating, `Reconcile` stores the
cluster in phase Running, so `ValidateUpdate` admits the edit to 3.5.7 it
rejects in phase Updating, and the next `Reconcile` writes `spec.version` 3.5.7
to `c-0` while `c-1` is still Updating. -/
theorem UpdateMembers_updates_while_later_member_updating :
    (memberHas (storedClient laterUpdatingOfThree) cluster3 Member.isUpdating 1 = true ∧
      (EnsureMembers (storedClient laterUpdatingOfThree) cluster3).cluster.Status.Phase =
        ClusterRunning ∧
      (UpdateMembers (storedClient laterUpdatingOfThree) cluster3).updates =
        [(0, (member3 "c-0" MemberRunning 0 "3.5.5" "3.5.5").setVersion "3.5.6")] ∧
      versionChanged (storedClient laterUpdatingOfThree) cluster3
        (0, (member3 "c-0" MemberRunning 0 "3.5.5" "3.5.5").setVersion "3.5.6") = true ∧
      (UpdateMembers (storedClient laterUpdatingOfThree) cluster3).outcome =
        .ret Requeue none) ∧
    (((settledReconciler midRollOfThree []).Reconcile (.ok rollingCluster3) someNow).statusUpdate =
        some outdatedCluster3 ∧
      ((settledReconciler midRollOfThree []).Reconcile (.ok rollingCluster3) someNow).updates =
        [] ∧
      reupgradedCluster3.ValidateUpdate (.cluster rollingCluster3) =
        some "unable to change cluster version on updating cluster" ∧
      reupgradedCluster3.ValidateUpdate (.cluster outdatedCluster3) = none ∧
      memberHas (storedClient midRollOfThree) reupgradedCluster3 Member.isUpdating 1 = true ∧
      ((settledReconciler midRollOfThree []).Reconcile (.ok reupgradedCluster3) someNow).updates =
        [(0, (member3 "c-0" MemberRunning 0 "3.5.6" "3.5.6").setVersion "3.5.7")] ∧
      (UpdateMembers (storedClient midRollOfThree) reupgradedCluster3).updates =
        [(0, (member3 "c-0" MemberRunning 0 "3.5.6" "3.5.6").setVersion "3.5.7")]) := by
  decide

/-- What `UpdateMembers` does check before it acts: it issues an update for
member `i` only when member `i` and every member of lower index is neither
creating (Creating, Recreating, empty phase) nor Updating. -/
theorem UpdateMembers_updates_only_past_settled_members (cl : Client) (cluster : Cluster) (i : Nat)
    (u : Member) (h : (i, u) ∈ (UpdateMembers cl cluster).updates) :
    ∀ j, j ≤ i →
      ∃ m, memberAt cl cluster j = some m ∧ m.IsCreating = false ∧
        m.Status.Phase ≠ MemberUpdating := by
  intro j hj
  obtain ⟨_, _, hbefore, _⟩ := UpdateMembers.loop_updates cl cluster _ _ _ _ _ h
  obtain ⟨m, g1, g2, g3, _⟩ := hbefore j (Nat.zero_le j) hj
  exact ⟨m, g1, g2, g3⟩

theorem UpdateMembers_updates_only_past_settled_members_witness :
    (1, (member3 "c-1" MemberRunning 0 "3.5.5" "3.5.5").setVersion "3.5.6") ∈
        (UpdateMembers (storedClient rollingOfThree) cluster3).updates ∧
      ∀ j, j ≤ 1 →
        ∃ m, memberAt (storedClient rollingOfThree) cluster3 j = some m ∧ m.IsCreating = false ∧
          m.Status.Phase ≠ MemberUpdating :=
  ⟨by decide,
    UpdateMembers_updates_only_past_settled_members (storedClient rollingOfThree) cluster3 1
      ((member3 "c-1" MemberRunning 0 "3.5.5" "3.5.5").setVersion "3.5.6") (by decide)⟩

/-! ## Admission: the message on a size change -/

/-- C11. An update that changes `spec.size`, leaves `spec.backup` as it was
and does not change `spec.version` during phase Updating is rejected by
`ValidateUpdate`, with a message that contains "changing cluster size". -/
theorem ValidateUpdate_size_change_message (r old : Cluster)
    (hv : ¬ (old.Status.Phase = ClusterUpdating ∧ r.Spec.Version ≠ old.Spec.Version))
    (hb : old.Spec.Backup = r.Spec.Backup) (hs : old.Spec.Size ≠ r.Spec.Size) :
    ∃ msg, r.ValidateUpdate (.cluster old) = some msg ∧ containsText msg "changing cluster size" := by
  refine ⟨"changing cluster size currently not supported", ?_,
    "", " currently not supported", by decide⟩
  unfold Cluster.ValidateUpdate
  simp only []
  rw [if_neg hv, if_neg (not_not.mpr hb), if_pos hs]

theorem ValidateUpdate_size_change_message_witness :
    (¬ (runningCluster3.Status.Phase = ClusterUpdating ∧
        resizedCluster3.Spec.Version ≠ runningCluster3.Spec.Version) ∧
      runningCluster3.Spec.Backup = resizedCluster3.Spec.Backup ∧
      runningCluster3.Spec.Size ≠ resizedCluster3.Spec.Size) ∧
    ∃ msg, resizedCluster3.ValidateUpdate (.cluster runningCluster3) = some msg ∧
      containsText msg "changing cluster size" :=
  ⟨by decide,
    ValidateUpdate_size_change_message resizedCluster3 runningCluster3
      (by decide) (by decide) (by decide)⟩

/-! ## SetFailed -/

/-- C20. `SetFailed` changes nothing on a member already in phase Failed, so
`failedTime` keeps the time of the first transition; on any other member it
sets phase Failed and `failedTime` to the current time and nothing else; and
applying it a second time, at whatever time, changes nothing more. -/
theorem SetFailed_idempotent (m : Member) (now now' : Time) :
    (m.Status.Phase = MemberFailed → m.SetFailed now = m) ∧
      (m.Status.Phase ≠ MemberFailed →
        m.SetFailed now =
          { m with Status := { m.Status with FailedTime := now, Phase := MemberFailed } }) ∧
      (m.SetFailed now).SetFailed now' = m.SetFailed now := by
  refine ⟨?_, ?_, ?_⟩
  · intro h
    unfold Member.SetFailed
    rw [if_pos h]
  · intro h
    unfold Member.SetFailed
    rw [if_neg h]
  · by_cases h : m.Status.Phase = MemberFailed
    · unfold Member.SetFailed
      rw [if_pos h, if_pos h]
    · unfold Member.SetFailed
      rw [if_neg h, if_pos rfl]

theorem SetFailed_idempotent_witness :
    (member3 "c-0" MemberFailed 5 "3.5.6" "3.5.6").Status.Phase = MemberFailed ∧
      (member3 "c-0" MemberFailed 5 "3.5.6" "3.5.6").SetFailed someNow =
        member3 "c-0" MemberFailed 5 "3.5.6" "3.5.6" :=
  ⟨by decide,
    (SetFailed_idempotent (member3 "c-0" MemberFailed 5 "3.5.6" "3.5.6") someNow someNow).1
      (by decide)⟩

/-! ## A failing EnsureMember -/

/-- C18 fails on the code. With the API server failing the call for member
`c-1`, `EnsureMember` returns no member and an error for index 1, and
`EnsureMembers`, `UpdateMembers` and `RepairMembers` each end in a nil-pointer
dereference instead of returning that error. -/
theorem EnsureMember_failure_panics :
    EnsureMember (flakyClient allRunningOfThree "c-1") cluster3 1 =
        (none, some "the server is currently unable to handle the request") ∧
      (EnsureMembers (flakyClient allRunningOfThree "c-1") cluster3).outcome = .panic ∧
      (UpdateMembers (flakyClient allRunningOfThree "c-1") cluster3).outcome = .panic ∧
      (RepairMembers (flakyClient allRunningOfThree "c-1") cluster3 someNow).outcome = .panic := by
  decide

/-! ## Schedule -/

theorem Schedule.scan_eq :
    ∀ (items : List Backup) (inProgress : Bool) (latest : Time),
      Schedule.scan items (inProgress, latest) =
        (inProgress || anyInProgress items,
          items.foldl (fun t b => max t b.Status.Finished) latest) := by
  intro items
  induction items with
  | nil =>
    intro p t
    simp [Schedule.scan, anyInProgress]
  | cons b rest ih =>
    intro p t
    rw [Schedule.scan, ih]
    have hmax : ∀ a c : Int, (if a > c then a else c) = max c a := by
      intro a c
      rw [max_def]
      split_ifs <;> omega
    rw [hmax]
    by_cases hz : b.Status.Finished = 0 <;> cases p <;>
      simp [anyInProgress, List.any_cons, hz]

theorem anyInProgress_iff (backups : List Backup) :
    anyInProgress backups = true ↔ ∃ b ∈ backups, b.Status.Finished = 0 := by
  simp [anyInProgress]

/-- C12. Whatever the listed Backups, the creation period and the clock are:
if at least one listed Backup has a zero `finishedTime`, `Schedule` issues no
creation and returns "requeue now". -/
theorem Schedule_waits_while_in_progress (r : BackupScheduleReconciler)
    (schedule : BackupSchedule) (now now' : Time) (backups : List Backup)
    (hlist : r.ListBackups schedule.Meta.Namespace schedule.Meta.Name = .ok backups)
    (hprogress : ∃ b ∈ backups, b.Status.Finished = 0) :
    (Schedule r schedule now now').created = [] ∧
      (Schedule r schedule now now').outcome = .ret Requeue none := by
  unfold Schedule
  rw [hlist]
  simp only [Schedule.scan_eq, Bool.false_or]
  rw [(anyInProgress_iff backups).mpr hprogress]
  exact ⟨rfl, rfl⟩

theorem Schedule_waits_while_in_progress_witness :
    (∃ b ∈ [backupOf "c-1" (noon - 7200000000000) (noon - 7100000000000), backupOf "c-2" noon 0],
        b.Status.Finished = 0) ∧
      ((Schedule (listing
          [backupOf "c-1" (noon - 7200000000000) (noon - 7100000000000), backupOf "c-2" noon 0])
        hourly (noon + 1) (noon + 2)).created = [] ∧
      (Schedule (listing
          [backupOf "c-1" (noon - 7200000000000) (noon - 7100000000000), backupOf "c-2" noon 0])
        hourly (noon + 1) (noon + 2)).outcome = .ret Requeue none) :=
  ⟨⟨backupOf "c-2" noon 0, by decide, by decide⟩,
    Schedule_waits_while_in_progress _ hourly (noon + 1) (noon + 2) _ rfl
      ⟨backupOf "c-2" noon 0, by decide, by decide⟩⟩

theorem Time.Sub_of_fits (t u : Int) (h1 : minDuration ≤ t - u) (h2 : t - u ≤ maxDuration) :
    Time.Sub t u = t - u := by
  unfold Time.Sub
  rw [if_neg (not_lt.mpr h2), if_neg (not_lt.mpr h1)]

theorem Time.Sub_pos (t u : Int) (h : u < t) : 0 < Time.Sub t u := by
  unfold Time.Sub
  have h0 : (0 : Int) < t - u := sub_pos.mpr h
  have hmin : minDuration < (0 : Int) := by decide
  have hmax : (0 : Int) < maxDuration := by decide
  split_ifs with h1 h2
  · exact hmax
  · exact absurd (lt_trans h2 hmin) (not_lt.mpr (le_of_lt h0))
  · exact h0

theorem CreateBackup_eq (r : BackupScheduleReconciler) (schedule : BackupSchedule) (now : Time) :
    CreateBackup r schedule now = ([schedule.GetBackup now], r.Create (schedule.GetBackup now)) := by
  cases h : r.Create (schedule.GetBackup now) <;> simp [CreateBackup, h]

theorem anyInProgress_eq_false (backups : List Backup)
    (h : ∀ b ∈ backups, b.Status.Finished ≠ 0) : anyInProgress backups = false := by
  rw [Bool.eq_false_iff]
  intro hp
  obtain ⟨b, hb, hz⟩ := (anyInProgress_iff backups).mp hp
  exact h b hb hz

/-- C13, as stated, fails when the clock reads exactly `latestFinished +
creationPeriod`: with one Backup finished at noon, a period of one hour and
both clock readings one hour after noon, no Backup is in progress, the time is
due, and `Schedule` creates nothing and returns the zero result. -/
theorem Schedule_idle_at_due_time :
    anyInProgress [backupOf "c-1" (noon - 100) noon] = false ∧
      latestFinished [backupOf "c-1" (noon - 100) noon] + hourly.Spec.CreationPeriod ≤
        noon + 3600000000000 ∧
      (Schedule (listing [backupOf "c-1" (noon - 100) noon]) hourly
        (noon + 3600000000000) (noon + 3600000000000)).created = [] ∧
      (Schedule (listing [backupOf "c-1" (noon - 100) noon]) hourly
        (noon + 3600000000000) (noon + 3600000000000)).outcome = .ret {} none := by
  decide

/-- C13, amended. With no listed Backup in progress and `latestFinished` the
latest `finishedTime` listed (the zero time when there is none): if the clock is
past `latestFinished + creationPeriod`, `Schedule` issues the creation of one
Backup, named `<cluster>-<unix-seconds>`, with the schedule's retention period
and the cluster label, and returns "requeue now"; if the clock is before it,
`Schedule` creates nothing and requeues after `latestFinished + creationPeriod`
minus the clock, at its second reading. -/
theorem Schedule_creates_when_due (r : BackupScheduleReconciler) (schedule : BackupSchedule)
    (now now' : Time) (backups : List Backup)
    (hlist : r.ListBackups schedule.Meta.Namespace schedule.Meta.Name = .ok backups)
    (hnone : ∀ b ∈ backups, b.Status.Finished ≠ 0) :
    (latestFinished backups + schedule.Spec.CreationPeriod < now →
      (Schedule r schedule now now').created = [schedule.GetBackup now'] ∧
      (Schedule r schedule now now').outcome =
        .ret Requeue (r.Create (schedule.GetBackup now')) ∧
      (schedule.GetBackup now').Meta.Name =
        schedule.Meta.Name ++ "-" ++ toString (Time.Unix now') ∧
      (schedule.GetBackup now').Spec.RetentionPeriod = schedule.Spec.RetentionPeriod ∧
      (schedule.GetBackup now').Meta.Labels = [(ClusterLabel, schedule.Meta.Name)]) ∧
    (now < latestFinished backups + schedule.Spec.CreationPeriod →
      (Schedule r schedule now now').created = [] ∧
      (Schedule r schedule now now').outcome =
        .ret { RequeueAfter := Time.Sub (latestFinished backups + schedule.Spec.CreationPeriod) now' } none ∧
      (now' < latestFinished backups + schedule.Spec.CreationPeriod →
        latestFinished backups + schedule.Spec.CreationPeriod - now' ≤ maxDuration →
        Time.Sub (latestFinished backups + schedule.Spec.CreationPeriod) now' =
          latestFinished backups + schedule.Spec.CreationPeriod - now')) := by
  have hrun : Schedule r schedule now now' =
      if latestFinished backups + schedule.Spec.CreationPeriod < now then
        { created := [schedule.GetBackup now']
          outcome := .ret Requeue (r.Create (schedule.GetBackup now')) }
      else
        { created := []
          outcome := .ret { RequeueAfter := Time.Sub (latestFinished backups + schedule.Spec.CreationPeriod) now' } none } := by
    unfold Schedule
    rw [hlist]
    simp only [Schedule.scan_eq, Bool.false_or, anyInProgress_eq_false backups hnone,
      CreateBackup_eq]
    rfl
  constructor
  · intro hdue
    rw [hrun, if_pos hdue]
    exact ⟨rfl, rfl, rfl, rfl, rfl⟩
  · intro hearly
    rw [hrun, if_neg (not_lt.mpr (le_of_lt hearly))]
    refine ⟨rfl, rfl, ?_⟩
    intro hlater hfits
    apply Time.Sub_of_fits _ _ _ hfits
    have h0 : (0 : Int) < latestFinished backups + schedule.Spec.CreationPeriod - now' :=
      sub_pos.mpr hlater
    have hmin : minDuration < (0 : Int) := by decide
    exact le_of_lt (lt_trans hmin h0)

theorem Schedule_creates_when_due_witness :
    (∀ b ∈ [backupOf "c-1" (noon - 100) noon], b.Status.Finished ≠ 0) ∧
      latestFinished [backupOf "c-1" (noon - 100) noon] + hourly.Spec.CreationPeriod <
        noon + 3600000000001 ∧
      (Schedule (listing [backupOf "c-1" (noon - 100) noon]) hourly
          (noon + 3600000000001) (noon + 3600000000002)).created =
        [hourly.GetBackup (noon + 3600000000002)] :=
  ⟨by decide, by decide,
    ((Schedule_creates_when_due (listing [backupOf "c-1" (noon - 100) noon]) hourly
      (noon + 3600000000001) (noon + 3600000000002) [backupOf "c-1" (noon - 100) noon] rfl
      (by decide)).1 (by decide)).1⟩

/-! ## RemoveStale and the Backup reconcile -/

/-- C14, as stated, fails when the clock reads exactly `creationTimestamp +
retentionPeriod`: for a Backup created at noon and kept for two hours,
`RemoveStale` two hours after noon deletes nothing and returns the zero
result. -/
theorem RemoveStale_idle_at_retention_time :
    (backupOf "c-1" noon (noon + 100)).Meta.CreationTimestamp +
        (backupOf "c-1" noon (noon + 100)).Spec.RetentionPeriod ≤ noon + 7200000000000 ∧
      (RemoveStale objectStore (backupOf "c-1" noon (noon + 100))
        (noon + 7200000000000) (noon + 7200000000000)).events = [] ∧
      (RemoveStale objectStore (backupOf "c-1" noon (noon + 100))
        (noon + 7200000000000) (noon + 7200000000000)).result = {} := by
  decide

/-- C14, amended. If `creationTimestamp + retentionPeriod` is before the
clock, `RemoveStale` issues the delete of the snapshot object and, when that
succeeds, the delete of the Backup record; if it is after the clock,
`RemoveStale` deletes neither and requeues after `creationTimestamp +
retentionPeriod` minus the clock at its second reading, a strictly positive
duration while that reading is before it. -/
theorem RemoveStale_after_retention (r : BackupReconciler) (backup : Backup) (now now' : Time) :
    (backup.Meta.CreationTimestamp + backup.Spec.RetentionPeriod < now →
      (RemoveStale r backup now now').events =
        .deleteObject r.S3Bucket (objectKey r backup) ::
          (if r.DeleteObject r.S3Bucket (objectKey r backup) = none then [.deleteRecord backup]
           else [])) ∧
    (now < backup.Meta.CreationTimestamp + backup.Spec.RetentionPeriod →
      (RemoveStale r backup now now').events = [] ∧
      (RemoveStale r backup now now').err = none ∧
      (RemoveStale r backup now now').result =
        { RequeueAfter := Time.Sub (backup.Meta.CreationTimestamp + backup.Spec.RetentionPeriod) now' } ∧
      (now' < backup.Meta.CreationTimestamp + backup.Spec.RetentionPeriod →
        0 < (RemoveStale r backup now now').result.RequeueAfter ∧
        (backup.Meta.CreationTimestamp + backup.Spec.RetentionPeriod - now' ≤ maxDuration →
          (RemoveStale r backup now now').result.RequeueAfter =
            backup.Meta.CreationTimestamp + backup.Spec.RetentionPeriod - now'))) := by
  constructor
  · intro hstale
    unfold RemoveStale
    simp only [if_pos hstale, objectKey]
    split
    · simp_all
    · split <;> simp_all
  · intro hfresh
    have hrun : RemoveStale r backup now now' =
        { backup := backup, events := []
          result := { RequeueAfter := Time.Sub (backup.Meta.CreationTimestamp + backup.Spec.RetentionPeriod) now' }
          err := none } := by
      unfold RemoveStale
      simp only [if_neg (not_lt.mpr (le_of_lt hfresh))]
    rw [hrun]
    refine ⟨rfl, rfl, rfl, ?_⟩
    intro hlater
    refine ⟨Time.Sub_pos _ _ hlater, ?_⟩
    intro hfits
    apply Time.Sub_of_fits _ _ _ hfits
    have h0 : (0 : Int) < backup.Meta.CreationTimestamp + backup.Spec.RetentionPeriod - now' :=
      sub_pos.mpr hlater
    have hmin : minDuration < (0 : Int) := by decide
    exact le_of_lt (lt_trans hmin h0)

theorem RemoveStale_after_retention_witness :
    (backupOf "c-1" noon (noon + 100)).Meta.CreationTimestamp +
        (backupOf "c-1" noon (noon + 100)).Spec.RetentionPeriod < noon + 7200000000001 ∧
      (RemoveStale objectStore (backupOf "c-1" noon (noon + 100))
        (noon + 7200000000001) (noon + 7200000000002)).events =
        [.deleteObject "bucket" "etcd/c/c-1", .deleteRecord (backupOf "c-1" noon (noon + 100))] :=
  ⟨by decide,
    (RemoveStale_after_retention objectStore (backupOf "c-1" noon (noon + 100))
      (noon + 7200000000001) (noon + 7200000000002)).1 (by decide)⟩

theorem RemoveStale_backup (r : BackupReconciler) (backup : Backup) (now now' : Time) :
    (RemoveStale r backup now now').backup = backup := by
  unfold RemoveStale
  simp only []
  split
  · split
    · rfl
    · split <;> rfl
  · rfl

theorem RemoveStale_no_upload (r : BackupReconciler) (backup : Backup) (now now' : Time)
    (bucket key : String) (body : SnapshotBytes) :
    BackupEvent.uploadObject bucket key body ∉ (RemoveStale r backup now now').events := by
  unfold RemoveStale
  simp only []
  split
  · split
    · simp
    · split <;> simp
  · simp

/-- C15, as stated, fails for a Backup that is being deleted: its
`finishedTime` is zero, yet `Reconcile` returns at once, running neither
`UploadBackup` nor any other step. -/
theorem BackupReconcile_skips_deleting_backup :
    deletingBackup.Status.Finished = 0 ∧
      (objectStore.Reconcile (.ok deletingBackup) (noon + 2) (noon + 3) (noon + 4)).steps = [] ∧
      (objectStore.Reconcile (.ok deletingBackup) (noon + 2) (noon + 3) (noon + 4)).events = [] := by
  decide

/-- C15, amended. For a fetched Backup that is not being deleted, `Reconcile`
runs `UploadBackup` exactly when `status.finishedTime` is zero; an upload that
succeeds leaves `status.url` at the location the store returned and
`status.finishedTime` at the current time; and when `finishedTime` is not zero
the reconcile issues no upload and leaves the Backup, `url` and `finishedTime`
included, as it was. -/
theorem BackupReconcile_uploads_unfinished (r : BackupReconciler) (backup : Backup)
    (nowUpload now now' : Time) (hlive : backup.Meta.DeletionTimestamp = none) :
    (BackupStep.UploadBackup ∈ (r.Reconcile (.ok backup) nowUpload now now').steps ↔
      backup.Status.Finished = 0) ∧
    (∀ snapshot location, Snapshot r backup = (some snapshot, none) →
      r.Upload r.S3Bucket (objectKey r backup) snapshot = .ok location →
        (UploadBackup r backup nowUpload).err = none ∧
        (UploadBackup r backup nowUpload).backup.Status.URL = location ∧
        (UploadBackup r backup nowUpload).backup.Status.Finished = nowUpload) ∧
    (backup.Status.Finished ≠ 0 →
      (r.Reconcile (.ok backup) nowUpload now now').backup = some backup ∧
      ∀ bucket key body,
        BackupEvent.uploadObject bucket key body ∉
          (r.Reconcile (.ok backup) nowUpload now now').events) := by
  refine ⟨?_, ?_, ?_⟩
  · unfold BackupReconciler.Reconcile
    simp only [hlive, ne_eq, not_true_eq_false, if_false]
    by_cases hz : backup.Status.Finished = 0
    · rw [if_pos hz]
      split <;> simp [BackupRun.deferred, hz]
    · rw [if_neg hz]
      simp [BackupRun.deferred, hz]
  · intro snapshot location hsnap hup
    unfold UploadBackup
    rw [hsnap]
    simp only []
    unfold objectKey at hup
    rw [hup]
    exact ⟨rfl, rfl, rfl⟩
  · intro hz
    have hrun : r.Reconcile (.ok backup) nowUpload now now' =
        BackupRun.deferred [.RemoveStale] (RemoveStale r backup now now') [] := by
      unfold BackupReconciler.Reconcile
      simp only [hlive, ne_eq, not_true_eq_false, if_false, if_neg hz]
    rw [hrun]
    simp only [BackupRun.deferred, RemoveStale_backup, List.nil_append]
    refine ⟨trivial, ?_⟩
    intro bucket key body hmem
    rw [List.mem_append] at hmem
    rcases hmem with h | h
    · exact RemoveStale_no_upload r backup now now' bucket key body h
    · simp at h

theorem BackupReconcile_uploads_unfinished_witness :
    ((backupOf "c-2" noon 0).Meta.DeletionTimestamp = none ∧
      Snapshot objectStore (backupOf "c-2" noon 0) = (some "snapshot", none) ∧
      objectStore.Upload objectStore.S3Bucket (objectKey objectStore (backupOf "c-2" noon 0))
        "snapshot" = .ok "https://bucket/etcd/c/c-2") ∧
    ((UploadBackup objectStore (backupOf "c-2" noon 0) (noon + 5)).err = none ∧
      (UploadBackup objectStore (backupOf "c-2" noon 0) (noon + 5)).backup.Status.URL =
        "https://bucket/etcd/c/c-2" ∧
      (UploadBackup objectStore (backupOf "c-2" noon 0) (noon + 5)).backup.Status.Finished =
        noon + 5) :=
  ⟨⟨by decide, by decide, rfl⟩,
    (BackupReconcile_uploads_unfinished objectStore (backupOf "c-2" noon 0) (noon + 5) (noon + 6)
      (noon + 7) (by decide)).2.1 "snapshot" "https://bucket/etcd/c/c-2" (by decide) rfl⟩

/-! ## CleanupSecrets -/

theorem CleanupSecrets.loop_spec (r : ClusterReconciler) (cluster : Cluster) :
    ∀ items : List Secret,
      (∀ c', (CleanupSecrets.loop r cluster items).updated = some c' →
        c'.Meta.Finalizers = RemoveFinalizer cluster.Meta.Finalizers CleanupSecretFinalizer ∧
        (CleanupSecrets.loop r cluster items).deleted = items ∧
        ∀ s ∈ items, r.DeleteSecret s = none) ∧
      (∀ s ∈ (CleanupSecrets.loop r cluster items).deleted, ∀ e, r.DeleteSecret s = some e →
        (CleanupSecrets.loop r cluster items).outcome = .ret {} (some e) ∧
        (CleanupSecrets.loop r cluster items).updated = none ∧
        (CleanupSecrets.loop r cluster items).cluster = cluster) := by
  intro items
  induction items with
  | nil =>
    constructor
    · intro c' h
      simp only [CleanupSecrets.loop, Option.some.injEq] at h
      subst h
      exact ⟨rfl, rfl, fun s hs => absurd hs (List.not_mem_nil s)⟩
    · intro s hs
      simp [CleanupSecrets.loop] at hs
  | cons secret rest ih =>
    rw [CleanupSecrets.loop]
    cases hdel : r.DeleteSecret secret with
    | some err =>
      constructor
      · intro c' h
        cases h
      · intro s hs e he
        simp only [List.mem_singleton] at hs
        subst hs
        rw [hdel] at he
        cases he
        exact ⟨rfl, rfl, rfl⟩
    | none =>
      obtain ⟨ih1, ih2⟩ := ih
      constructor
      · intro c' h
        obtain ⟨g1, g2, g3⟩ := ih1 c' h
        refine ⟨g1, ?_, ?_⟩
        · simp only []
          rw [g2]
        · intro s hs
          rcases List.mem_cons.mp hs with rfl | hs
          · exact hdel
          · exact g3 s hs
      · intro s hs e he
        rcases List.mem_cons.mp hs with rfl | hs
        · rw [hdel] at he
          cases he
        · exact ih2 s hs e he

/-- C16. While the cluster still carries the delete-dependents finalizer,
`CleanupSecrets` deletes no secret, leaves the cluster and its finalizers as
they are and returns "requeue now".  Otherwise, when it gets to update the
cluster, the update drops the cleanup finalizer, and by then a delete has been
issued, and has succeeded, for every secret listed for the cluster; and when a
deletion it issued fails, it returns that error, issues no update and leaves the
finalizers of the cluster in place. -/
theorem CleanupSecrets_after_secrets (r : ClusterReconciler) (cluster : Cluster) :
    (ContainsFinalizer cluster.Meta.Finalizers FinalizerDeleteDependents = true →
      CleanupSecrets r cluster =
        { cluster := cluster, deleted := [], updated := none, outcome := .ret Requeue none }) ∧
    (ContainsFinalizer cluster.Meta.Finalizers FinalizerDeleteDependents = false →
      (∀ c', (CleanupSecrets r cluster).updated = some c' →
        c'.Meta.Finalizers = RemoveFinalizer cluster.Meta.Finalizers CleanupSecretFinalizer ∧
        (CleanupSecrets r cluster).deleted =
          (r.ListSecrets cluster.Meta.Namespace cluster.Meta.Name).1 ∧
        ∀ s ∈ (r.ListSecrets cluster.Meta.Namespace cluster.Meta.Name).1,
          r.DeleteSecret s = none) ∧
      (∀ s ∈ (CleanupSecrets r cluster).deleted, ∀ e, r.DeleteSecret s = some e →
        (CleanupSecrets r cluster).outcome = .ret {} (some e) ∧
        (CleanupSecrets r cluster).updated = none ∧
        (CleanupSecrets r cluster).cluster = cluster)) := by
  constructor
  · intro h
    unfold CleanupSecrets
    rw [if_pos h]
  · intro h
    unfold CleanupSecrets
    simp only [h, Bool.false_eq_true, if_false]
    cases hig : IgnoreNotFound (r.ListSecrets cluster.Meta.Namespace cluster.Meta.Name).2 with
    | some e =>
      constructor
      · intro c' hc
        cases hc
      · intro s hs
        cases hs
    | none => exact CleanupSecrets.loop_spec r cluster _

theorem CleanupSecrets_after_secrets_witness :
    (ContainsFinalizer deletingCluster3.Meta.Finalizers FinalizerDeleteDependents = false ∧
      (CleanupSecrets (settledReconciler allRunningOfThree secretsOfC) deletingCluster3).updated =
        some { deletingCluster3 with Meta := { deletingCluster3.Meta with Finalizers := [] } }) ∧
    (CleanupSecrets (settledReconciler allRunningOfThree secretsOfC) deletingCluster3).deleted =
      secretsOfC :=
  ⟨by decide,
    (((CleanupSecrets_after_secrets (settledReconciler allRunningOfThree secretsOfC)
      deletingCluster3).2 (by decide)).1
        { deletingCluster3 with Meta := { deletingCluster3.Meta with Finalizers := [] } }
        (by decide)).2.1⟩

/-! ## The Cluster reconcile -/

theorem Outcome.isDone_eq_not_stops (o : Outcome) : o.isDone = !o.stops := by
  cases o with
  | panic => rfl
  | ret result err =>
    cases err with
    | none => simp [Outcome.isDone, Outcome.stops, Etcdops.stops]
    | some e => simp [Outcome.isDone, Outcome.stops, Etcdops.stops]

theorem RepairMembers.finish_cluster (cl : Client) (cluster : Cluster) (s : RepairMembersLocals) :
    (RepairMembers.finish cl cluster s).cluster = cluster := by
  unfold RepairMembers.finish
  split
  · rfl
  · split <;> rfl

theorem RepairMembers.loop_cluster (cl : Client) (cluster : Cluster) :
    ∀ (k i : Nat) (s : RepairMembersLocals),
      (RepairMembers.loop cl cluster i k s).cluster = cluster := by
  intro k
  induction k with
  | zero =>
    intro i s
    exact RepairMembers.finish_cluster cl cluster s
  | succ k ih =>
    intro i s
    rw [RepairMembers.loop]
    split
    · rfl
    · simp only []
      split_ifs
      · rfl
      · exact ih _ _
      · exact ih _ _
      · exact ih _ _

theorem EnsureMembers_keeps_spec (cl : Client) (cluster : Cluster) :
    (EnsureMembers cl cluster).cluster.Meta = cluster.Meta ∧
      (EnsureMembers cl cluster).cluster.Spec = cluster.Spec := by
  unfold EnsureMembers
  split <;> exact ⟨rfl, rfl⟩

theorem ClusterReconciler.update_done (r : ClusterReconciler) (steps : List ClusterStep)
    (c : Cluster) (updates : List (Nat × Member)) (hno : ClusterStep.UpdateMembers ∉ steps)
    (hupd : ClusterStep.UpdateMembers ∈ (r.update steps c updates).steps)
    (hdone : (r.update steps c updates).outcome.isDone = true) :
    (UpdateMembers r.members c).outcome.isDone = true ∧
      ∃ final, (r.update steps c updates).cluster = some final ∧
        final.Status.Version = final.Spec.Version := by
  unfold ClusterReconciler.update at hupd hdone ⊢
  by_cases hs : c.ShouldUpdate = true
  · simp only [hs, if_true] at hupd hdone ⊢
    by_cases hst : (UpdateMembers r.members c).outcome.stops = true
    · simp only [hst, if_true, ClusterRun.deferred] at hdone
      rw [Outcome.isDone_eq_not_stops, hst] at hdone
      cases hdone
    · simp only [hst, Bool.false_eq_true, if_false, ClusterRun.deferred]
      refine ⟨?_, _, rfl, rfl⟩
      rw [Outcome.isDone_eq_not_stops]
      simp [hst]
  · simp only [hs, Bool.false_eq_true, if_false, ClusterRun.deferred] at hupd
    exact absurd hupd hno

theorem ClusterReconciler.members_on_done (r : ClusterReconciler) (c : Cluster) (now : Time)
    (hupd : ClusterStep.UpdateMembers ∈ (r.members_on c now).steps)
    (hdone : (r.members_on c now).outcome.isDone = true) :
    (UpdateMembers r.members (EnsureMembers r.members c).cluster).outcome.isDone = true ∧
      ∃ final, (r.members_on c now).cluster = some final ∧
        final.Status.Version = final.Spec.Version := by
  unfold ClusterReconciler.members_on at hupd hdone ⊢
  simp only [] at hupd hdone ⊢
  by_cases hst : (EnsureMembers r.members c).outcome.stops = true
  · simp only [hst, if_true, ClusterRun.deferred] at hupd
    simp at hupd
  · simp only [hst, Bool.false_eq_true, if_false] at hupd hdone ⊢
    by_cases hminor : (EnsureMembers r.members c).cluster.Status.Phase = ClusterMinorFailure
    · simp only [hminor, if_true] at hupd hdone
      by_cases hrep : (RepairMembers r.members (EnsureMembers r.members c).cluster now).outcome.stops
          = true
      · simp only [hrep, if_true, ClusterRun.deferred] at hupd
        simp at hupd
      · simp only [hrep, Bool.false_eq_true, if_false] at hupd
        have hcl : (RepairMembers r.members (EnsureMembers r.members c).cluster now).cluster =
            (EnsureMembers r.members c).cluster := RepairMembers.loop_cluster _ _ _ _ _
        have hsu : (RepairMembers r.members (EnsureMembers r.members c).cluster now).cluster.ShouldUpdate
            = false := by
          rw [hcl]
          unfold Cluster.ShouldUpdate
          rw [hminor]
          rfl
        unfold ClusterReconciler.update at hupd
        simp only [hsu, Bool.false_eq_true, if_false, ClusterRun.deferred] at hupd
        simp at hupd
    · simp only [hminor, if_false] at hupd hdone ⊢
      exact ClusterReconciler.update_done r _ _ _ (by simp) hupd hdone

/-- On a cluster that has just been created, no Member is stored yet:
`EnsureMembers` creates the three members and leaves the cluster in phase
Creating, and `Reconcile` writes `status.version = spec.version` and returns
with no requeue and no error, while member `c-1` has no `status.version` at
all. -/
theorem Reconcile_done_while_creating :
    ((settledReconciler noMembersYet []).Reconcile (.ok cluster3) someNow).outcome =
        .ret {} none ∧
      ((settledReconciler noMembersYet []).Reconcile (.ok cluster3) someNow).cluster.map
        (fun c => (c.Status.Phase, c.Status.Version, c.Spec.Version)) =
          some (ClusterCreating, "3.5.6", "3.5.6") ∧
      (memberAt (storedClient noMembersYet) cluster3 1).map (fun m => m.Status.Version) =
        some "" := by
  decide

/-- C17 fails on the code. The cluster asks for 3.5.6 and is stored as
Running with observed version 3.5.5; every member runs 3.5.5 and `c-0` has
failed long ago.  `Reconcile` finds a minor failure, marks `c-0` broken, skips
`UpdateMembers`, stores `status.version` 3.5.6 in phase MinorFailure and returns
the zero result and no error, while `c-1` has `spec.version` and
`status.version` 3.5.5.  When all members run again, still 3.5.5, the next
`Reconcile` finds `status.version = spec.version`, does not run `UpdateMembers`
either, and returns the zero result with the cluster Running at observed
version 3.5.6: the upgrade is not applied. -/
theorem Reconcile_records_version_without_update :
    (((settledReconciler oneFailedOutdatedOfThree []).Reconcile (.ok outdatedCluster3)
          someNow).outcome = .ret {} none ∧
      ((settledReconciler oneFailedOutdatedOfThree []).Reconcile (.ok outdatedCluster3)
          someNow).steps =
        [.EnsureBackupSchedule, .EnsureService, .EnsureCA, .EnsureMembers, .RepairMembers] ∧
      ((settledReconciler oneFailedOutdatedOfThree []).Reconcile (.ok outdatedCluster3)
          someNow).updates =
        [(0, (member3 "c-0" MemberFailed 5 "3.5.5" "3.5.5").setBroken true)] ∧
      ((settledReconciler oneFailedOutdatedOfThree []).Reconcile (.ok outdatedCluster3)
          someNow).statusUpdate = some minorFailureCluster3 ∧
      minorFailureCluster3.Status.Version = "3.5.6" ∧
      (memberAt (storedClient oneFailedOutdatedOfThree) outdatedCluster3 1).map
          (fun m => (m.Spec.Version, m.Status.Version)) = some ("3.5.5", "3.5.5")) ∧
    (((settledReconciler allOutdatedOfThree []).Reconcile (.ok minorFailureCluster3)
          someNow).outcome = .ret {} none ∧
      ((settledReconciler allOutdatedOfThree []).Reconcile (.ok minorFailureCluster3)
          someNow).steps =
        [.EnsureBackupSchedule, .EnsureService, .EnsureCA, .EnsureMembers] ∧
      ((settledReconciler allOutdatedOfThree []).Reconcile (.ok minorFailureCluster3)
          someNow).updates = [] ∧
      ((settledReconciler allOutdatedOfThree []).Reconcile (.ok minorFailureCluster3)
          someNow).statusUpdate.map
          (fun c => (c.Status.Phase, c.Status.Version, c.Spec.Version)) =
        some ("Running", "3.5.6", "3.5.6") ∧
      (memberAt (storedClient allOutdatedOfThree) minorFailureCluster3 1).map
          (fun m => (m.Spec.Version, m.Status.Version)) = some ("3.5.5", "3.5.5")) := by
  decide

/-- Whenever `Reconcile` of a fetched Cluster returns with no requeue and no
error after having run `UpdateMembers`, it has written
`status.version = spec.version`, and every member `0 .. size-1` has
`spec.version` and `status.version` equal to the cluster's `spec.version`. -/
theorem Reconcile_done_after_update (r : ClusterReconciler) (cluster : Cluster) (now : Time)
    (result : Result)
    (hout : (r.Reconcile (.ok cluster) now).outcome = .ret result none)
    (hzero : result.IsZero = true)
    (hupd : ClusterStep.UpdateMembers ∈ (r.Reconcile (.ok cluster) now).steps) :
    (∃ final, (r.Reconcile (.ok cluster) now).cluster = some final ∧
      final.Status.Version = final.Spec.Version) ∧
    ∃ seen : Cluster, seen.Meta = cluster.Meta ∧ seen.Spec = cluster.Spec ∧
      ∀ i : Nat, (i : Int) < cluster.Spec.Size →
        ∃ m, memberAt r.members seen i = some m ∧ m.Spec.Version = cluster.Spec.Version ∧
          m.Status.Version = cluster.Spec.Version := by
  have hdone : (r.Reconcile (.ok cluster) now).outcome.isDone = true :=
    (Outcome.isDone_iff _).mpr ⟨result, hout, hzero⟩
  clear hout hzero
  unfold ClusterReconciler.Reconcile at hupd hdone ⊢
  simp only [] at hupd hdone ⊢
  by_cases hdel : cluster.Meta.DeletionTimestamp ≠ none
  · rw [if_pos hdel] at hupd
    simp at hupd
  · rw [if_neg hdel] at hupd hdone ⊢
    generalize hc0 : (if cluster.Status.Phase = "" then cluster.setPhase ClusterCreating
      else cluster) = c0 at hupd hdone ⊢
    have hc0spec : c0.Meta = cluster.Meta ∧ c0.Spec = cluster.Spec := by
      rw [← hc0]
      split <;> exact ⟨rfl, rfl⟩
    by_cases h1 : stops (EnsureBackupSchedule r c0) = true
    · simp only [h1, if_true, ClusterRun.deferred] at hupd
      simp at hupd
    · simp only [h1, Bool.false_eq_true, if_false] at hupd hdone ⊢
      by_cases h2 : stops (EnsureService r c0) = true
      · simp only [h2, if_true, ClusterRun.deferred] at hupd
        simp at hupd
      · simp only [h2, Bool.false_eq_true, if_false] at hupd hdone ⊢
        by_cases h3 : stops (EnsureCA r c0) = true
        · simp only [h3, if_true, ClusterRun.deferred] at hupd
          simp at hupd
        · simp only [h3, Bool.false_eq_true, if_false] at hupd hdone ⊢
          obtain ⟨hum, hfinal⟩ := ClusterReconciler.members_on_done r c0 now hupd hdone
          refine ⟨hfinal, (EnsureMembers r.members c0).cluster, ?_, ?_, ?_⟩
          · rw [(EnsureMembers_keeps_spec r.members c0).1, hc0spec.1]
          · rw [(EnsureMembers_keeps_spec r.members c0).2, hc0spec.2]
          · intro i hi
            have hsz : (EnsureMembers r.members c0).cluster.Spec.Size = cluster.Spec.Size := by
              rw [(EnsureMembers_keeps_spec r.members c0).2, hc0spec.2]
            have hver : (EnsureMembers r.members c0).cluster.Spec.Version =
                cluster.Spec.Version := by
              rw [(EnsureMembers_keeps_spec r.members c0).2, hc0spec.2]
            obtain ⟨_, _, hall⟩ := UpdateMembers.loop_done r.members
              (EnsureMembers r.members c0).cluster _ _ _ hum
            obtain ⟨m, g1, _, _, g4, g5, _⟩ := hall i (Nat.zero_le i) (by rw [hsz]; omega)
            exact ⟨m, g1, by rw [g4, hver], by rw [g5, hver]⟩

theorem Reconcile_done_after_update_witness :
    (((settledReconciler allRunningOfThree []).Reconcile (.ok cluster3) someNow).outcome =
        .ret {} none ∧
      Result.IsZero {} = true ∧
      ClusterStep.UpdateMembers ∈
        ((settledReconciler allRunningOfThree []).Reconcile (.ok cluster3) someNow).steps) ∧
    ((∃ final,
        ((settledReconciler allRunningOfThree []).Reconcile (.ok cluster3) someNow).cluster =
          some final ∧ final.Status.Version = final.Spec.Version) ∧
      ∃ seen : Cluster, seen.Meta = cluster3.Meta ∧ seen.Spec = cluster3.Spec ∧
        ∀ i : Nat, (i : Int) < cluster3.Spec.Size →
          ∃ m, memberAt (settledReconciler allRunningOfThree []).members seen i = some m ∧
            m.Spec.Version = cluster3.Spec.Version ∧
            m.Status.Version = cluster3.Spec.Version) :=
  ⟨by decide,
    Reconcile_done_after_update (settledReconciler allRunningOfThree []) cluster3 someNow {}
      (by decide) (by decide) (by decide)⟩

/-! ## The Member reconcile -/

/-- C19, as stated, fails when `Repair` completes: for the broken member `c-0`
whose pod and volume claim are already gone and which the quorum, reached at
the three endpoints of the cluster, re-admits, `Repair` returns the zero result
and no error, having set the phase to Recreating and `spec.broken` to false, and
the same reconcile goes on to `EnsureCertificates`, `CheckCertificateExpires`
and `EnsurePVC`. -/
theorem MemberReconcile_goes_on_after_repair :
    brokenMember.Spec.Broken = true ∧
      brokenMember.GetEndpoints =
        ["https://c-0.c.default.svc.cluster.local:2379",
         "https://c-1.c.default.svc.cluster.local:2379",
         "https://c-2.c.default.svc.cluster.local:2379"] ∧
      repairingReconciler.EtcdNew [] ≠ none ∧
      ReaddToCluster repairingReconciler brokenMember = ({}, none) ∧
      (Repair repairingReconciler brokenMember).outcome = .ret {} none ∧
      (Repair repairingReconciler brokenMember).member.Status.Phase = MemberRecreating ∧
      (Repair repairingReconciler brokenMember).member.Spec.Broken = false ∧
      (repairingReconciler.Reconcile (.ok brokenMember) someNow).steps =
        [.Repair, .EnsureCertificates, .CheckCertificateExpires, .EnsurePVC] := by
  decide

/-- C19, amended. For a fetched Member that is not being deleted and has
`spec.broken = true`, `Reconcile` runs `Repair` first; when `Repair` requeues or
fails, `Reconcile` returns what `Repair` returned and runs no other step; when
`Repair` completes, `Reconcile` goes on with `EnsureCertificates` in the same
reconcile. -/
theorem MemberReconcile_repairs_first (r : MemberReconciler) (member : Member) (now : Time)
    (hlive : member.Meta.DeletionTimestamp = none) (hbroken : member.Spec.Broken = true) :
    ((Repair r member).outcome.stops = true →
      (r.Reconcile (.ok member) now).steps = [.Repair] ∧
      (r.Reconcile (.ok member) now).outcome = (Repair r member).outcome) ∧
    ((Repair r member).outcome.stops = false →
      (r.Reconcile (.ok member) now).steps.take 2 = [.Repair, .EnsureCertificates]) := by
  constructor
  · intro hstop
    unfold MemberReconciler.Reconcile
    simp only [hlive, ne_eq, not_true_eq_false, if_false, hbroken, if_true, hstop]
    exact ⟨rfl, rfl⟩
  · intro hgo
    unfold MemberReconciler.Reconcile
    simp only [hlive, ne_eq, not_true_eq_false, if_false, hbroken, if_true, hgo,
      Bool.false_eq_true]
    unfold MemberReconciler.certificates_on MemberReconciler.pod_on
    simp only []
    split_ifs <;> rfl

theorem MemberReconcile_repairs_first_witness :
    (brokenMember.Meta.DeletionTimestamp = none ∧ brokenMember.Spec.Broken = true ∧
      (Repair podDeletingReconciler brokenMember).outcome.stops = true) ∧
    ((podDeletingReconciler.Reconcile (.ok brokenMember) someNow).steps = [.Repair] ∧
      (podDeletingReconciler.Reconcile (.ok brokenMember) someNow).outcome =
        (Repair podDeletingReconciler brokenMember).outcome) :=
  ⟨by decide,
    (MemberReconcile_repairs_first podDeletingReconciler brokenMember someNow
      (by decide) (by decide)).1 (by decide)⟩

/-! ## RemoveStale: the order of the two deletes -/

theorem RemoveStale_events (r : BackupReconciler) (backup : Backup) (now now' : Time) :
    (RemoveStale r backup now now').events =
      if backup.Meta.CreationTimestamp + backup.Spec.RetentionPeriod < now then
        .deleteObject r.S3Bucket (objectKey r backup) ::
          (if r.DeleteObject r.S3Bucket (objectKey r backup) = none then [.deleteRecord backup]
           else [])
      else [] := by
  by_cases hstale : backup.Meta.CreationTimestamp + backup.Spec.RetentionPeriod < now
  · unfold RemoveStale
    simp only [if_pos hstale, objectKey]
    split
    · simp_all
    · split <;> simp_all
  · unfold RemoveStale
    simp only [if_neg hstale]

/-- C29. `RemoveStale` issues the delete of the Backup record only after the
delete of the snapshot object has succeeded, and the object delete comes first
in the calls it issues; when the object delete fails, `RemoveStale` returns
that error and issues no delete of the record. -/
theorem RemoveStale_object_before_record (r : BackupReconciler) (backup : Backup)
    (now now' : Time) :
    (∀ b, BackupEvent.deleteRecord b ∈ (RemoveStale r backup now now').events →
      r.DeleteObject r.S3Bucket (objectKey r backup) = none ∧
      (RemoveStale r backup now now').events =
        [.deleteObject r.S3Bucket (objectKey r backup), .deleteRecord backup]) ∧
    (∀ e, r.DeleteObject r.S3Bucket (objectKey r backup) = some e →
      backup.Meta.CreationTimestamp + backup.Spec.RetentionPeriod < now →
        (RemoveStale r backup now now').err = some e ∧
        (RemoveStale r backup now now').result = {} ∧
        ∀ b, BackupEvent.deleteRecord b ∉ (RemoveStale r backup now now').events) := by
  constructor
  · intro b hb
    rw [RemoveStale_events] at hb ⊢
    by_cases hstale : backup.Meta.CreationTimestamp + backup.Spec.RetentionPeriod < now
    · by_cases hobj : r.DeleteObject r.S3Bucket (objectKey r backup) = none
      · simp [hstale, hobj]
      · simp [hstale, hobj] at hb
    · simp [hstale] at hb
  · intro e he hstale
    unfold RemoveStale
    simp only [objectKey] at he
    simp only [if_pos hstale, he]
    refine ⟨trivial, trivial, ?_⟩
    intro b hb
    simp at hb

theorem RemoveStale_object_before_record_witness :
    (BackupEvent.deleteRecord (backupOf "c-1" noon (noon + 100)) ∈
        (RemoveStale objectStore (backupOf "c-1" noon (noon + 100))
          (noon + 7200000000001) (noon + 7200000000002)).events) ∧
      (objectStore.DeleteObject objectStore.S3Bucket
          (objectKey objectStore (backupOf "c-1" noon (noon + 100))) = none ∧
        (RemoveStale objectStore (backupOf "c-1" noon (noon + 100))
          (noon + 7200000000001) (noon + 7200000000002)).events =
          [.deleteObject objectStore.S3Bucket
              (objectKey objectStore (backupOf "c-1" noon (noon + 100))),
            .deleteRecord (backupOf "c-1" noon (noon + 100))]) :=
  ⟨by decide,
    (RemoveStale_object_before_record objectStore (backupOf "c-1" noon (noon + 100))
      (noon + 7200000000001) (noon + 7200000000002)).1 (backupOf "c-1" noon (noon + 100))
      (by decide)⟩

/-! ## The CLI update -/

/-- C30 fails on the code. `etcdops update c --backup-creation-period 30m` on a
cluster with a creation period of one hour and a retention period of two hours
sends an update in which the creation period is still one hour and the
retention period is zero: the branch for the creation period assigns the
retention period, from the flag that was not given. -/
theorem update_creation_period_overwrites_retention :
    (update cliClient { backupCreationPeriod := 1800000000000 } "c").1.map
        (fun c => (c.Spec.BackupCreationPeriod, c.Spec.BackupRetentionPeriod)) =
      some (3600000000000, 0) ∧
    scheduledCluster3.Spec.BackupRetentionPeriod = 7200000000000 := by
  decide

/-! ## CheckCertificateExpires and EnsurePod -/

/-- C28 fails on the code. With the pod created at noon, the client
certificate issued after noon and the peer certificate before noon,
`CheckCertificateExpires` finds the pod and both certificates and leaves
`status.certificateExpires` false: the pass for the peer certificate overwrites
what the pass for the client certificate had set. -/
theorem CheckCertificateExpires_last_suffix_wins :
    (CheckCertificateExpires renewedClientCertificate
        (member3 "c-0" MemberRunning 0 "3.5.6" "3.5.6")).member.Status.CertificateExpires =
      false ∧
    (CheckCertificateExpires renewedClientCertificate
        (member3 "c-0" MemberRunning 0 "3.5.6" "3.5.6")).outcome = .ret {} none ∧
    renewedClientCertificate.GetPod "c-0" "default" =
      .ok { CreationTimestamp := noon, Containers := 1, ContainerStatuses := [true] } ∧
    renewedClientCertificate.GetCertificate "c-0-client" "default" =
      .ok { NotBefore := some (noon + 1) } ∧
    renewedClientCertificate.GetCertificate "c-0-peer" "default" =
      .ok { NotBefore := some (noon - 1) } :=
  ⟨by decide, by decide, rfl, rfl, rfl⟩

theorem foldl_and_eq (statuses : List Bool) :
    ∀ init : Bool,
      statuses.foldl (fun ready status => ready && status) init = (init && statuses.all id) := by
  induction statuses with
  | nil => intro init; simp
  | cons b rest ih =>
    intro init
    rw [List.foldl_cons, ih]
    simp [Bool.and_assoc]

/-- C27. When `EnsurePod` finds the pod already there: if the pod is ready the
member becomes Running with `status.version = spec.version`; if it is not
ready and the member was Running the member becomes Failed with `failedTime` the
current time; if it is not ready and the member was in any other phase the
member is left as it was; in each case the result is zero.  When it has just
created the pod it requeues, and marks the member Failed, at the current time,
only if its phase was Running. -/
theorem EnsurePod_phase (r : MemberReconciler) (member : Member) (now : Time)
    (opResult : OperationResult) (pod : PodState) (hown : r.SetPodOwner member = none)
    (hpod : r.CreateOrUpdatePod member = .ok (opResult, pod)) :
    (opResult ≠ .created →
      (EnsurePod r member now).outcome = .ret {} none ∧
      (pod.ready = true →
        (EnsurePod r member now).member =
          { member with
            Status :=
              { member.Status with Phase := MemberRunning, Version := member.Spec.Version } }) ∧
      (pod.ready = false → member.Status.Phase = MemberRunning →
        (EnsurePod r member now).member =
          { member with Status := { member.Status with FailedTime := now, Phase := MemberFailed } }) ∧
      (pod.ready = false → member.Status.Phase ≠ MemberRunning →
        (EnsurePod r member now).member = member)) ∧
    (opResult = .created →
      (EnsurePod r member now).outcome = .ret Requeue none ∧
      (member.Status.Phase = MemberRunning →
        (EnsurePod r member now).member =
          { member with Status := { member.Status with FailedTime := now, Phase := MemberFailed } }) ∧
      (member.Status.Phase ≠ MemberRunning → (EnsurePod r member now).member = member)) := by
  have hfailed : member.Status.Phase = MemberRunning →
      member.SetFailed now =
        { member with Status := { member.Status with FailedTime := now, Phase := MemberFailed } } := by
    intro hrun
    unfold Member.SetFailed
    rw [if_neg (by rw [hrun]; decide)]
  constructor
  · intro hkind
    unfold EnsurePod
    simp only [hown, hpod, if_neg hkind, foldl_and_eq]
    have hready : (decide (pod.ContainerStatuses.length = pod.Containers) &&
        pod.ContainerStatuses.all id) = pod.ready := rfl
    rw [hready]
    by_cases hr : pod.ready = true
    · simp [hr]
    · have hr' : pod.ready = false := Bool.eq_false_iff.mpr hr
      by_cases hrun : member.Status.Phase = MemberRunning
      · simp [hr', hrun, hfailed hrun]
      · simp [hr', hrun]
  · intro hkind
    unfold EnsurePod
    simp only [hown, hpod, hkind, if_true]
    by_cases hrun : member.Status.Phase = MemberRunning
    · simp [hrun, hfailed hrun]
    · simp [hrun]

theorem EnsurePod_phase_witness :
    (renewedClientCertificate.SetPodOwner (member3 "c-0" MemberCreating 0 "3.5.6" "") = none ∧
      OperationResult.unchanged ≠ .created ∧
      PodState.ready { CreationTimestamp := noon, Containers := 1, ContainerStatuses := [true] } =
        true) ∧
    (EnsurePod renewedClientCertificate (member3 "c-0" MemberCreating 0 "3.5.6" "") someNow).member =
      member3 "c-0" MemberRunning 0 "3.5.6" "3.5.6" :=
  ⟨by decide,
    ((EnsurePod_phase renewedClientCertificate (member3 "c-0" MemberCreating 0 "3.5.6" "") someNow
      .unchanged { CreationTimestamp := noon, Containers := 1, ContainerStatuses := [true] }
      (by decide) rfl).1 (by decide)).2.1 (by decide)⟩

/-! ## The pod of a member -/

/-- C21. The pod built by `GetPod` has an init container, the one that runs
`etcdctl snapshot restore snapshot.db`, exactly when `spec.backup` is not empty
and the phase is not Recreating, and none otherwise; its one container is given
`--initial-cluster-state existing` when the phase is Recreating and `new`
otherwise; so a Recreating member joins as `existing` with no snapshot
restore. -/
theorem GetPod_restore_and_state (m : Member) :
    (m.GetPod.InitContainers ≠ [] ↔ m.Spec.Backup ≠ "" ∧ m.Status.Phase ≠ MemberRecreating) ∧
    (∀ c ∈ m.GetPod.InitContainers,
      c.Name = "etcd-restore" ∧ c.Command = ["/usr/local/bin/etcdctl"] ∧
        c.Args.take 3 = ["snapshot", "restore", "snapshot.db"] ∧
        pairedValue (c.Args.drop 3) "--data-dir" = some m.GetDataPath) ∧
    (∃ etcd, m.GetPod.Containers = [etcd] ∧ etcd.Name = "etcd" ∧
      pairedValue etcd.Args "--initial-cluster-state" =
        some (if m.Status.Phase = MemberRecreating then "existing" else "new") ∧
      (pairedValue etcd.Args "--initial-cluster-state" = some "existing" ↔
        m.Status.Phase = MemberRecreating)) ∧
    (m.Status.Phase = MemberRecreating → m.GetPod.InitContainers = []) := by
  refine ⟨?_, ?_, ?_, ?_⟩
  · unfold Member.GetPod Member.GetInitContainers
    simp only []
    by_cases hb : m.Spec.Backup = ""
    · simp [hb]
    · by_cases hp : m.Status.Phase = MemberRecreating
      · simp [hp]
      · simp [hb, hp]
  · intro c hc
    unfold Member.GetPod Member.GetInitContainers at hc
    simp only [] at hc
    split at hc
    · cases hc
    · rw [List.mem_singleton] at hc
      subst hc
      refine ⟨rfl, rfl, rfl, ?_⟩
      simp [pairedValue]
  · refine ⟨_, rfl, rfl, ?_, ?_⟩
    · simp [pairedValue, Member.GetState]
    · simp only [pairedValue, Member.GetState]
      by_cases hp : m.Status.Phase = MemberRecreating
      · simp [hp]
      · simp [hp]
  · intro hp
    unfold Member.GetPod Member.GetInitContainers
    simp [hp]

theorem GetPod_restore_and_state_witness :
    (restoredMember MemberRecreating).Status.Phase = MemberRecreating ∧
      (restoredMember MemberRecreating).GetPod.InitContainers = [] :=
  ⟨by decide, (GetPod_restore_and_state (restoredMember MemberRecreating)).2.2.2 (by decide)⟩

/-! ## Endpoints -/

theorem getElem?_range_map {α : Type} (f : Nat → α) (n i : Nat) (h : i < n) :
    ((List.range n).map f)[i]? = some (f i) := by
  simp [h]

theorem Cluster.GetEndpoints_eq (c : Cluster) :
    c.GetEndpoints =
      (List.range c.Spec.Size.toNat).map
        (fun k : Nat => AdvertiseClientURL (c.GetMemberName (k : Int)) c.Meta.Namespace c.Meta.Name) := by
  simp [Cluster.GetEndpoints, List.map_flatMap, List.bind_eq_flatMap, List.pure_def,
    Function.comp_def, List.flatMap_singleton']
  rw [List.map_eq_flatMap]

theorem Cluster.GetMember_members (c : Cluster) (num : Int) :
    (c.GetMember num).Spec.Members =
      (List.range c.Spec.Size.toNat).map (fun k : Nat => c.GetMemberName (k : Int)) := by
  simp [Cluster.GetMember, List.map_flatMap, List.bind_eq_flatMap, List.pure_def,
    Function.comp_def, List.flatMap_singleton']
  rw [List.map_eq_flatMap]

/-- C23. `GetEndpoints` of a cluster returns as many URLs as the cluster has
members, none for a negative size, the `i`-th being
`https://<c>-<i>.<c>.<ns>.svc.cluster.local:2379`; the three of cluster `c` in
namespace `default` are those of `c-0`, `c-1` and `c-2`; and the list is the
`GetEndpoints` of every member built by `GetMember`. -/
theorem GetEndpoints_urls (c : Cluster) :
    c.GetEndpoints.length = c.Spec.Size.toNat ∧
    (∀ i : Nat, (i : Int) < c.Spec.Size →
      c.GetEndpoints[i]? =
        some ("https://" ++ c.Meta.Name ++ "-" ++ toString (i : Int) ++ "." ++ c.Meta.Name ++
          "." ++ c.Meta.Namespace ++ ".svc.cluster.local:2379")) ∧
    (∀ num : Int, (c.GetMember num).GetEndpoints = c.GetEndpoints) ∧
    cluster3.GetEndpoints =
      ["https://c-0.c.default.svc.cluster.local:2379",
       "https://c-1.c.default.svc.cluster.local:2379",
       "https://c-2.c.default.svc.cluster.local:2379"] := by
  refine ⟨?_, ?_, ?_, by decide⟩
  · rw [Cluster.GetEndpoints_eq, List.length_map, List.length_range]
  · intro i hi
    rw [Cluster.GetEndpoints_eq, getElem?_range_map _ _ _ (by omega)]
    simp [AdvertiseClientURL, MemberFQDN, Cluster.GetMemberName, String.append_assoc]
  · intro num
    rw [Cluster.GetEndpoints_eq]
    unfold Member.GetEndpoints
    rw [Cluster.GetMember_members, List.map_map]
    rfl

theorem GetEndpoints_urls_witness :
    ((1 : Nat) : Int) < cluster3.Spec.Size ∧
      cluster3.GetEndpoints[1]? =
        some ("https://" ++ cluster3.Meta.Name ++ "-" ++ toString ((1 : Nat) : Int) ++ "." ++
          cluster3.Meta.Name ++ "." ++ cluster3.Meta.Namespace ++ ".svc.cluster.local:2379") :=
  ⟨by decide, (GetEndpoints_urls cluster3).2.1 1 (by decide)⟩

/-! ## Certificates, secrets and issuers -/

/-- C24. For every member and suffix, the certificate built by `GetCertificate`
writes the secret `<member>-<suffix>`; for the suffixes peer and client that is
the secret the pod built by `GetPod` mounts as its peer and as its client
certificate volume; the issuer of the certificate is the Issuer named after the
member's cluster, which for a member built by `GetMember` is the Issuer built
by the cluster's `GetCAIssuer`, in the same namespace; and that Issuer
references the secret `<cluster>-ca`, which is the secret the certificate built
by `GetCACertificate` writes. -/
theorem GetCertificate_secrets_and_issuer (m : Member) (suffix : String) :
    (m.GetCertificate suffix).SecretName = m.Meta.Name ++ "-" ++ suffix ∧
    (m.GetCertificate "peer").SecretName = m.GetPeerCertSecret ∧
    (m.GetCertificate "client").SecretName = m.GetClientCertSecret ∧
    m.GetPod.Volumes.map (fun v => v.Source) =
      [.persistentVolumeClaim m.Meta.Name, .secret (m.GetCertificate "peer").SecretName,
        .secret (m.GetCertificate "client").SecretName] ∧
    (m.GetCertificate suffix).IssuerRef =
      { Name := m.Spec.ClusterName, Kind := "Issuer", Group := "cert-manager.io" } ∧
    (∀ (c : Cluster) (num : Int) (clusterIssuer : String),
      ((c.GetMember num).GetCertificate suffix).IssuerRef.Name = c.GetCAIssuer.Meta.Name ∧
      ((c.GetMember num).GetCertificate suffix).Meta.Namespace = c.GetCAIssuer.Meta.Namespace ∧
      c.GetCAIssuer.CASecretName = c.Meta.Name ++ "-ca" ∧
      c.GetCAIssuer.CASecretName = (c.GetCACertificate clusterIssuer).SecretName) :=
  ⟨rfl, by simp [Member.GetCertificate, Member.GetPeerCertSecret, String.append_assoc],
    by simp [Member.GetCertificate, Member.GetClientCertSecret, String.append_assoc],
    by simp [Member.GetPod, Member.GetCertificate, Member.GetPeerCertSecret,
      Member.GetClientCertSecret, String.append_assoc],
    rfl, fun _ _ _ => ⟨rfl, rfl, rfl, rfl⟩⟩

/-! ## Owner references and finalizers -/

/-- C25 fails on the code. The object `Schedule` passes to `r.Create` for a
due Backup is the one `GetBackup` builds: it has no owner reference and no
finalizer, only the cluster label; while the objects built for a Cluster and
for a Member (here the BackupSchedule and Member 0 of `cluster3`, and the volume
claim and the Pod of that Member) are built with the delete-dependents
finalizer. -/
theorem created_backup_has_no_owner :
    (Schedule (listing [backupOf "c-1" (noon - 100) noon]) hourly
        (noon + 3600000000001) (noon + 3600000000002)).created =
      [hourly.GetBackup (noon + 3600000000002)] ∧
    (hourly.GetBackup (noon + 3600000000002)).Meta.OwnerReferences = [] ∧
    (hourly.GetBackup (noon + 3600000000002)).Meta.Finalizers = [] ∧
    (hourly.GetBackup (noon + 3600000000002)).Meta.Labels = [(ClusterLabel, "c")] ∧
    cluster3.GetBackupSchedule.Meta.Finalizers = [FinalizerDeleteDependents] ∧
    (cluster3.GetMember 0).Meta.Finalizers = [FinalizerDeleteDependents] ∧
    (cluster3.GetMember 0).GetPVC.Meta.Finalizers = [FinalizerDeleteDependents] ∧
    (cluster3.GetMember 0).GetPod.Meta.Finalizers = [FinalizerDeleteDependents] := by
  decide

/-! ## The members built for a cluster -/

theorem digitChar_value (k : Nat) (h : k < 10) : (Nat.digitChar k).toNat - 48 = k := by
  interval_cases k <;> rfl

theorem decimalValue_concat (pre : List Char) (d : Char) :
    decimalValue (pre ++ [d]) = decimalValue pre * 10 + (d.toNat - 48) := by
  unfold decimalValue
  rw [List.foldl_append]
  rfl

theorem toDigitsCore_value :
    ∀ (fuel n : Nat) (ds : List Char), n < fuel →
      ∃ pre, Nat.toDigitsCore 10 fuel n ds = pre ++ ds ∧ decimalValue pre = n := by
  intro fuel
  induction fuel with
  | zero =>
    intro n ds h
    omega
  | succ fuel ih =>
    intro n ds h
    rw [Nat.toDigitsCore]
    by_cases h0 : n / 10 = 0
    · rw [if_pos h0]
      refine ⟨[Nat.digitChar (n % 10)], rfl, ?_⟩
      have := decimalValue_concat [] (Nat.digitChar (n % 10))
      simp only [List.nil_append] at this
      rw [this, digitChar_value _ (Nat.mod_lt n (by decide))]
      have hz : decimalValue [] = 0 := rfl
      rw [hz]
      omega
    · rw [if_neg h0]
      obtain ⟨pre, hpre, hval⟩ := ih (n / 10) (Nat.digitChar (n % 10) :: ds) (by omega)
      refine ⟨pre ++ [Nat.digitChar (n % 10)], ?_, ?_⟩
      · rw [hpre]
        simp
      · rw [decimalValue_concat, hval, digitChar_value _ (Nat.mod_lt n (by decide))]
        omega

theorem Nat_repr_injective (a b : Nat) (h : Nat.repr a = Nat.repr b) : a = b := by
  obtain ⟨pa, hpa, hva⟩ := toDigitsCore_value (a + 1) a [] (Nat.lt_succ_self a)
  obtain ⟨pb, hpb, hvb⟩ := toDigitsCore_value (b + 1) b [] (Nat.lt_succ_self b)
  have hdata : Nat.toDigits 10 a = Nat.toDigits 10 b := by
    have := congrArg String.data h
    exact this
  unfold Nat.toDigits at hdata
  rw [hpa, hpb, List.append_nil, List.append_nil] at hdata
  rw [← hva, ← hvb, hdata]

theorem toString_natCast (k : Nat) : toString ((k : Nat) : Int) = Nat.repr k := rfl

theorem String.append_left_cancel (a b c : String) (h : a ++ b = a ++ c) : b = c := by
  have := congrArg String.data h
  simp only [String.data_append] at this
  exact String.ext (List.append_cancel_left this)

theorem Cluster.GetMemberName_injective (c : Cluster) (i j : Nat)
    (h : c.GetMemberName (i : Int) = c.GetMemberName (j : Int)) : i = j := by
  unfold Cluster.GetMemberName at h
  have h2 := String.append_left_cancel _ _ _ h
  rw [toString_natCast, toString_natCast] at h2
  exact Nat_repr_injective i j h2

/-- C22. For every cluster and index `i`, `GetMember(i)` is named
`<cluster>-<i>`, has `clusterToken` the UID of the cluster, `clusterName` the
name of the cluster, `backup` and `version` those of the cluster spec, and as
`members` the list `<cluster>-0, ..., <cluster>-(size-1)`, of length `size`; so
the members of a cluster carry the same token and the same list of peers, and
the names of two different members differ. -/
theorem GetMember_fields (c : Cluster) (i : Nat) :
    (c.GetMember (i : Int)).Meta.Name = c.Meta.Name ++ "-" ++ toString (i : Int) ∧
    (c.GetMember (i : Int)).Spec.ClusterToken = c.Meta.UID ∧
    (c.GetMember (i : Int)).Spec.ClusterName = c.Meta.Name ∧
    (c.GetMember (i : Int)).Spec.Backup = c.Spec.Backup ∧
    (c.GetMember (i : Int)).Spec.Version = c.Spec.Version ∧
    (c.GetMember (i : Int)).Spec.Members.length = c.Spec.Size.toNat ∧
    (∀ k : Nat, (k : Int) < c.Spec.Size →
      (c.GetMember (i : Int)).Spec.Members[k]? =
        some (c.Meta.Name ++ "-" ++ toString (k : Int))) ∧
    (∀ j : Nat,
      (c.GetMember (j : Int)).Spec.ClusterToken = (c.GetMember (i : Int)).Spec.ClusterToken ∧
      (c.GetMember (j : Int)).Spec.Members = (c.GetMember (i : Int)).Spec.Members ∧
      ((c.GetMember (j : Int)).Meta.Name = (c.GetMember (i : Int)).Meta.Name → j = i)) := by
  refine ⟨rfl, rfl, rfl, rfl, rfl, ?_, ?_, ?_⟩
  · rw [Cluster.GetMember_members, List.length_map, List.length_range]
  · intro k hk
    rw [Cluster.GetMember_members, getElem?_range_map _ _ _ (by omega)]
    rfl
  · intro j
    refine ⟨rfl, rfl, ?_⟩
    intro h
    exact Cluster.GetMemberName_injective c j i h

theorem GetMember_fields_witness :
    ((2 : Nat) : Int) < cluster3.Spec.Size ∧
      (cluster3.GetMember ((0 : Nat) : Int)).Spec.Members[2]? =
        some (cluster3.Meta.Name ++ "-" ++ toString ((2 : Nat) : Int)) :=
  ⟨by decide, (GetMember_fields cluster3 0).2.2.2.2.2.2.1 2 (by decide)⟩

/-! ## RepairMembers: the member it marks -/

theorem RepairMembers.loop_inv (cl : Client) (cluster : Cluster) (limit : Time) :
    ∀ (k i : Nat) (s : RepairMembersLocals), RepairMembers.Inv cl cluster limit i s →
      ((RepairMembers.loop cl cluster i k s).updates = [] ∧
        ((RepairMembers.loop cl cluster i k s).outcome = .ret Requeue none ∨
          ((RepairMembers.loop cl cluster i k s).outcome = .panic ∧
            ∃ j, i ≤ j ∧ j < i + k ∧ (EnsureMember cl cluster (j : Int)).2 ≠ none))) ∨
      ∃ s', RepairMembers.loop cl cluster i k s = RepairMembers.finish cl cluster s' ∧
        RepairMembers.Inv cl cluster limit (i + k) s' := by
  intro k
  induction k with
  | zero =>
    intro i s hinv
    exact Or.inr ⟨s, rfl, hinv⟩
  | succ k ih =>
    intro i s hinv
    obtain ⟨hle, hnone, hsome, hseen⟩ := hinv
    have step : ∀ s₁ : RepairMembersLocals, RepairMembers.Inv cl cluster limit (i + 1) s₁ →
        (((RepairMembers.loop cl cluster (i + 1) k s₁).updates = [] ∧
          ((RepairMembers.loop cl cluster (i + 1) k s₁).outcome = .ret Requeue none ∨
            ((RepairMembers.loop cl cluster (i + 1) k s₁).outcome = .panic ∧
              ∃ j, i ≤ j ∧ j < i + (k + 1) ∧ (EnsureMember cl cluster (j : Int)).2 ≠ none))) ∨
        ∃ s', RepairMembers.loop cl cluster (i + 1) k s₁ = RepairMembers.finish cl cluster s' ∧
          RepairMembers.Inv cl cluster limit (i + (k + 1)) s') := by
      intro s₁ h₁
      rcases ih (i + 1) s₁ h₁ with ⟨hu, ho⟩ | ⟨s', hs', hinv'⟩
      · refine Or.inl ⟨hu, ?_⟩
        rcases ho with ho | ⟨ho, j, hj1, hj2, hj3⟩
        · exact Or.inl ho
        · exact Or.inr ⟨ho, j, by omega, by omega, hj3⟩
      · refine Or.inr ⟨s', hs', ?_⟩
        have he : i + 1 + k = i + (k + 1) := by omega
        rw [← he]
        exact hinv'
    rw [RepairMembers.loop]
    rcases EnsureMember_cases cl cluster (i : Int) with ⟨m, hm⟩ | ⟨e, he⟩
    · have hat : memberAt cl cluster i = some m := by simp [memberAt, hm]
      have hsame : ∀ m', memberAt cl cluster i = some m' → m' = m := by
        intro m' hm'
        rw [hat] at hm'
        exact (Option.some.inj hm').symm
      rw [hm]
      simp only [multierrAppend_none]
      by_cases hu : m.IsCreating = true ∨ m.Spec.Broken = true
      · rw [if_pos hu]
        exact Or.inl ⟨rfl, Or.inl rfl⟩
      · rw [if_neg hu]
        by_cases hf : m.Status.Phase = MemberFailed
        · rw [if_neg (not_not.mpr hf)]
          by_cases ht : m.Status.FailedTime < s.minFailedTime
          · rw [if_pos ht]
            apply step
            refine ⟨le_of_lt (lt_of_lt_of_le ht hle), (fun h => by cases h), ?_, ?_⟩
            · intro j m' hjm
              simp only [Option.some.injEq, Prod.mk.injEq] at hjm
              obtain ⟨rfl, rfl⟩ := hjm
              exact ⟨Nat.lt_succ_self _, hat, hf, rfl, lt_of_lt_of_le ht hle⟩
            · intro j hj m' hm' hf'
              by_cases hji : j = i
              · subst hji
                rw [hsame m' hm']
              · exact le_of_lt (lt_of_lt_of_le ht (hseen j (by omega) m' hm' hf'))
          · rw [if_neg ht]
            apply step
            refine ⟨hle, hnone, ?_, ?_⟩
            · intro j m' hjm
              obtain ⟨g1, g2, g3, g4, g5⟩ := hsome j m' hjm
              exact ⟨by omega, g2, g3, g4, g5⟩
            · intro j hj m' hm' hf'
              by_cases hji : j = i
              · subst hji
                rw [hsame m' hm']
                exact not_lt.mp ht
              · exact hseen j (by omega) m' hm' hf'
        · rw [if_pos hf]
          apply step
          refine ⟨hle, hnone, ?_, ?_⟩
          · intro j m' hjm
            obtain ⟨g1, g2, g3, g4, g5⟩ := hsome j m' hjm
            exact ⟨by omega, g2, g3, g4, g5⟩
          · intro j hj m' hm' hf'
            by_cases hji : j = i
            · subst hji
              rw [hsame m' hm'] at hf'
              exact absurd hf' hf
            · exact hseen j (by omega) m' hm' hf'
    · rw [he]
      refine Or.inl ⟨rfl, Or.inr ⟨rfl, i, le_refl i, by omega, ?_⟩⟩
      rw [he]
      exact fun h => by cases h

theorem RepairMembers.Inv_start (cl : Client) (cluster : Cluster) (limit : Time) :
    RepairMembers.Inv cl cluster limit 0 { minFailedTime := limit } :=
  ⟨le_refl _, (fun _ => rfl), (fun _ _ h => by cases h),
    (fun j hj => absurd hj (Nat.not_lt_zero j))⟩

/-- C26. Whenever `RepairMembers` issues its update, the one that sets
`spec.broken`, the member it is issued for is in phase Failed, its `failedTime`
is strictly before `now - 5 minutes`, and no Failed member of the cluster has an
earlier `failedTime`; and when every `EnsureMember` call succeeds and no Failed
member has a `failedTime` before `now - 5 minutes`, it issues no update and
returns "requeue now". -/
theorem RepairMembers_marks_earliest_failed (cl : Client) (cluster : Cluster) (now : Time) :
    (∀ j u, (j, u) ∈ (RepairMembers cl cluster now).updates →
      ∃ m, memberAt cl cluster j = some m ∧ u = m.setBroken true ∧
        m.Status.Phase = MemberFailed ∧ m.Status.FailedTime < now - minorFailedTimeout ∧
        ∀ j' : Nat, (j' : Int) < cluster.Spec.Size → ∀ m', memberAt cl cluster j' = some m' →
          m'.Status.Phase = MemberFailed → m.Status.FailedTime ≤ m'.Status.FailedTime) ∧
    ((∀ i : Nat, (i : Int) < cluster.Spec.Size → (EnsureMember cl cluster (i : Int)).2 = none) →
      (∀ i : Nat, (i : Int) < cluster.Spec.Size → ∀ m, memberAt cl cluster i = some m →
        m.Status.Phase = MemberFailed → now - minorFailedTimeout ≤ m.Status.FailedTime) →
      (RepairMembers cl cluster now).updates = [] ∧
        (RepairMembers cl cluster now).outcome = .ret Requeue none) := by
  have hloop := RepairMembers.loop_inv cl cluster (now - minorFailedTimeout)
    cluster.Spec.Size.toNat 0 { minFailedTime := now - minorFailedTimeout }
    (RepairMembers.Inv_start cl cluster _)
  constructor
  · intro j u hmem
    unfold RepairMembers at hmem
    rcases hloop with ⟨hu, _⟩ | ⟨s', hs', _, _, hsome, hseen⟩
    · rw [hu] at hmem
      cases hmem
    · rw [hs'] at hmem
      unfold RepairMembers.finish at hmem
      cases hfm : s'.failedMember with
      | none =>
        simp [hfm] at hmem
      | some picked =>
        obtain ⟨num, fm⟩ := picked
        simp only [hfm] at hmem
        split_ifs at hmem with hguard
        · cases hmem
        · rw [List.mem_singleton, Prod.mk.injEq] at hmem
          obtain ⟨rfl, rfl⟩ := hmem
          obtain ⟨_, g2, g3, g4, g5⟩ := hsome j fm hfm
          refine ⟨fm, g2, rfl, g3, by rw [g4]; exact g5, ?_⟩
          intro j' hj' m' hm' hf'
          rw [g4]
          exact hseen j' (by omega) m' hm' hf'
  · intro hok hyoung
    unfold RepairMembers
    rcases hloop with ⟨hu, ho⟩ | ⟨s', hs', _, _, hsome, _⟩
    · rcases ho with ho | ⟨_, j, _, hj2, hj3⟩
      · exact ⟨hu, ho⟩
      · exact absurd (hok j (by omega)) hj3
    · rw [hs']
      cases hfm : s'.failedMember with
      | none =>
        unfold RepairMembers.finish
        simp only [hfm]
        exact ⟨trivial, trivial⟩
      | some picked =>
        obtain ⟨num, fm⟩ := picked
        obtain ⟨g1, g2, g3, g4, g5⟩ := hsome num fm hfm
        have := hyoung num (by omega) fm g2 g3
        rw [g4] at this
        exact absurd g5 (not_lt.mpr this)

theorem RepairMembers_marks_earliest_failed_witness :
    ((1, (member3 "c-1" MemberFailed 5 "3.5.6" "3.5.6").setBroken true) ∈
        (RepairMembers (storedClient twoFailedOfFive) cluster5 someNow).updates) ∧
      ∃ m, memberAt (storedClient twoFailedOfFive) cluster5 1 = some m ∧
        (member3 "c-1" MemberFailed 5 "3.5.6" "3.5.6").setBroken true = m.setBroken true ∧
        m.Status.Phase = MemberFailed ∧ m.Status.FailedTime < someNow - minorFailedTimeout ∧
        ∀ j' : Nat, (j' : Int) < cluster5.Spec.Size →
          ∀ m', memberAt (storedClient twoFailedOfFive) cluster5 j' = some m' →
            m'.Status.Phase = MemberFailed → m.Status.FailedTime ≤ m'.Status.FailedTime :=
  ⟨by decide,
    (RepairMembers_marks_earliest_failed (storedClient twoFailedOfFive) cluster5 someNow).1 1
      ((member3 "c-1" MemberFailed 5 "3.5.6" "3.5.6").setBroken true) (by decide)⟩

end Etcdops
